import Mathlib

/-!
Form designer: layout serialisation and value codec.

A shallow embedding of `form_designer_panel.js` and `bindingManager.js`.

Conventions of the embedding.

* Text is `String`; the helper functions work on the character list.
* A JavaScript number is an integer (`Int`); `JsNum` adds `NaN` where a
  conversion from text can produce it.  Fractions and infinities are outside
  the embedding, and so is what JavaScript does to large integers: the
  rounding beyond `2^53` and the exponent form in print from `10^21` on.
* A property of a JavaScript object that may be missing is an `Option`:
  `none` is `undefined` (the key is absent).
* The host page (the HTML file) is not part of the sources.  Every element the
  script looks up with `$('#...')` is taken to exist, and `value` of an input
  or select of the page is a plain string property.
* An assignment to the inline `left` or `top` of a wrapper goes through the
  browser's parser of the property, a parameter `css` of the embedding: the
  serialisation that the browser stores, or nothing when the text is not a
  valid length.
-/

set_option autoImplicit false

namespace FormDesigner

/-! ## JavaScript and DOM primitives -/

/-- JavaScript number as far as the script can produce one from text: an
integer or `NaN`. -/
inductive JsNum where
  | int (n : Int)
  | nan
  deriving DecidableEq, Repr

/-- The expression `v || d` for a number `v` and a numeric default `d`: `NaN` and `0` are
falsy. -/
def JsNum.orElse (v : JsNum) (d : Int) : Int :=
  match v with
  | .int n => if n = 0 then d else n
  | .nan => d

/-- The expression `x || d` for a property `x` that is `undefined` or an integer. -/
def orInt (x : Option Int) (d : Int) : Int :=
  match x with
  | some n => if n = 0 then d else n
  | none => d

/-- The expression `x || d` for a property `x` that is `undefined` or a
string: the empty string is falsy. -/
def orStr (x : Option String) (d : String) : String :=
  match x with
  | some s => if s = "" then d else s
  | none => d

/-- The expression `s || d` for a string `s`. -/
def strOr (s : String) (d : String) : String :=
  if s = "" then d else s

/-- Truthiness of an optional integer property. -/
def truthyInt (x : Option Int) : Bool :=
  match x with
  | some n => n ≠ 0
  | none => false

/-- Truthiness of an optional string property. -/
def truthyStr (x : Option String) : Bool :=
  match x with
  | some s => s ≠ ""
  | none => false

/-- The helper `const clamp = (v, min, max) =>
      Math.max(min, Math.min(max, Number.isFinite(v) ? v : 0));`
where `NaN`, the one value of `JsNum` that is not finite, is replaced by 0. -/
def clamp (v : JsNum) (min max : Int) : Int :=
  Max.max min (Min.min max (match v with | .int n => n | .nan => 0))

/-- White space and line terminators of ECMAScript, the characters removed by
`String.prototype.trim` and skipped by `parseInt`. -/
def isJsWhiteSpace (c : Char) : Bool :=
  let n := c.toNat
  n == 0x09 || n == 0x0A || n == 0x0B || n == 0x0C || n == 0x0D || n == 0x20 ||
  n == 0xA0 || n == 0x1680 || (0x2000 ≤ n && n ≤ 0x200A) || n == 0x2028 ||
  n == 0x2029 || n == 0x202F || n == 0x205F || n == 0x3000 || n == 0xFEFF

/-- ASCII white space of the HTML standard (tab, LF, FF, CR, space). -/
def isAsciiWhiteSpace (c : Char) : Bool :=
  let n := c.toNat
  n == 0x09 || n == 0x0A || n == 0x0C || n == 0x0D || n == 0x20

/-- The method `String.prototype.trim` on a character list. -/
def trimChars (l : List Char) : List Char :=
  ((l.dropWhile isJsWhiteSpace).reverse.dropWhile isJsWhiteSpace).reverse

/-- The call `s.trim()`. -/
def jsTrim (s : String) : String := String.mk (trimChars s.data)

/-- Collapse every run of ASCII white space to one space, dropping a run at
the start; `pending` records a run seen after the first kept character. -/
def collapseAux : Bool → Bool → List Char → List Char
  | _, _, [] => []
  | started, pending, c :: cs =>
    if isAsciiWhiteSpace c then collapseAux started started cs
    else if pending then ' ' :: c :: collapseAux true false cs
    else c :: collapseAux true false cs

/-- Stripping and collapsing of ASCII white space, as the HTML standard defines
it: the `text` of an `option` element is its text content with leading and
trailing white space removed and inner runs replaced by one space. -/
def stripAndCollapse (s : String) : String :=
  String.mk (collapseAux false false s.data)

/-- Decimal digit value of a character. -/
def digitVal (c : Char) : Option Nat :=
  if '0' ≤ c ∧ c ≤ '9' then some (c.toNat - '0'.toNat) else none

/-- Value of the longest prefix of decimal digits, with the number of digits
read; `acc` is the value read so far. -/
def readDigits : List Char → Nat → Nat → Nat × Nat
  | [], acc, k => (acc, k)
  | c :: cs, acc, k =>
    match digitVal c with
    | some d => readDigits cs (10 * acc + d) (k + 1)
    | none => (acc, k)

/-- The call `parseInt(s, 10)`: leading white space is skipped, an optional sign is
read, then the longest run of decimal digits; `NaN` when there is no digit.
The result is the exact integer: beyond `2^53`, where JavaScript rounds to the
nearest double, the embedding does not follow. -/
def parseInt (s : String) : JsNum :=
  match s.data.dropWhile isJsWhiteSpace with
  | '-' :: cs =>
    match readDigits cs 0 0 with
    | (_, 0) => .nan
    | (v, _) => .int (-(v : Int))
  | '+' :: cs =>
    match readDigits cs 0 0 with
    | (_, 0) => .nan
    | (v, _) => .int v
  | cs =>
    match readDigits cs 0 0 with
    | (_, 0) => .nan
    | (v, _) => .int v


/-- Digit of `Number.prototype.toString(36)`. -/
def base36Digit (d : Nat) : Char :=
  if d < 10 then Char.ofNat (48 + d) else Char.ofNat (87 + d)

/-- Digits of `n` in base 36, most significant first; `fuel` bounds the
number of digits. -/
def base36Aux : Nat → Nat → List Char → List Char
  | 0, _, acc => acc
  | fuel + 1, n, acc =>
    if n < 36 then base36Digit n :: acc
    else base36Aux fuel (n / 36) (base36Digit (n % 36) :: acc)

/-- The call `n.toString(36)` for a natural number. -/
def toBase36 (n : Nat) : String := String.mk (base36Aux (n + 1) n [])

/-- ASCII lower-casing.  `String.prototype.toLowerCase` also maps letters
outside ASCII; the script only compares the result with words of ASCII
letters that no character outside ASCII lower-cases into. -/
def jsToLowerCase (s : String) : String := String.mk (s.data.map Char.toLower)

/-- Value handed to `setControlValue`: what a read of the store can deliver. -/
inductive JsVal where
  | undefined
  | null
  | bool (b : Bool)
  | num (n : Int)
  | str (s : String)
  deriving DecidableEq, Repr

/-- Conversion of a value to a string, as done by `toString()` and by
assigning to a string property of an element.  A number is written with all
its digits: from `10^21` on, where JavaScript writes the exponent form, the
embedding does not follow. -/
def JsVal.toStr : JsVal → String
  | .undefined => "undefined"
  | .null => "null"
  | .bool b => if b then "true" else "false"
  | .num n => toString n
  | .str s => s

/-- The expression `value ?? ''`. -/
def JsVal.orEmpty : JsVal → JsVal
  | .undefined => .str ""
  | .null => .str ""
  | v => v

/-- The expression `value || ''`. -/
def JsVal.truthyOrEmpty : JsVal → JsVal
  | .undefined => .str ""
  | .null => .str ""
  | .bool b => if b then .bool true else .str ""
  | .num n => if n = 0 then .str "" else .num n
  | .str s => .str s

/-- The test `value != null`. -/
def JsVal.notNullish : JsVal → Bool
  | .undefined => false
  | .null => false
  | _ => true

/-- The test `a === value` for a string `a`. -/
def JsVal.strictEqStr (a : String) : JsVal → Bool
  | .str s => a = s
  | _ => false

/-- Assignment `el.style.left = v` (or `top`) to an inline length of a wrapper
that holds `old`.  The empty string removes the property.  Any other text goes
through the browser's parser of the property: `css v` is the serialisation
that the browser stores for `v`, and `none` when `v` is not a valid value of
the property, in which case the assignment is ignored. -/
def setLength (css : String → Option String) (old v : String) : String :=
  if v = "" then ""
  else
    match css v with
    | some t => t
    | none => old

/-! ## Data model -/

/-- Binding of a field: `{ address, listen }`. -/
structure Binding where
  address : String
  listen : Bool
  deriving DecidableEq, Repr

/-- Metadata object of a field (`wrapper._meta`, `data`, `node.meta`): the
keys of the document schema, each of which may be absent. -/
structure Meta where
  id : Option String := none
  label : Option String := none
  placeholder : Option String := none
  required : Option Bool := none
  widthPct : Option Int := none
  height : Option Int := none
  font : Option String := none
  fontSize : Option Int := none
  labelSize : Option Int := none
  textColor : Option String := none
  bgColor : Option String := none
  borderColor : Option String := none
  radius : Option Int := none
  padding : Option Int := none
  options : Option (List String) := none
  colSpan : Option Int := none
  span : Option Int := none
  binding : Option Binding := none
  src : Option String := none
  deriving DecidableEq, Repr

/-- The call `Object.assign(target, source)` on metadata objects: every key present in
`source` overrides the one of `target`. -/
def Meta.assign (target source : Meta) : Meta :=
  { id := source.id <|> target.id
    label := source.label <|> target.label
    placeholder := source.placeholder <|> target.placeholder
    required := source.required <|> target.required
    widthPct := source.widthPct <|> target.widthPct
    height := source.height <|> target.height
    font := source.font <|> target.font
    fontSize := source.fontSize <|> target.fontSize
    labelSize := source.labelSize <|> target.labelSize
    textColor := source.textColor <|> target.textColor
    bgColor := source.bgColor <|> target.bgColor
    borderColor := source.borderColor <|> target.borderColor
    radius := source.radius <|> target.radius
    padding := source.padding <|> target.padding
    options := source.options <|> target.options
    colSpan := source.colSpan <|> target.colSpan
    span := source.span <|> target.span
    binding := source.binding <|> target.binding
    src := source.src <|> target.src }

/-- The control element of a field (`wrapper._control`).

* `input`: an `INPUT` element with its `type`, `value`, `checked`, the names
  of its selected `files`, `placeholder` and `required`.
* `select`: a `SELECT` element: the text content of its options in order and
  the index of the selected option, if any.
* `radioGroup`: the `DIV` of a radio field: the text content of its `label`
  elements in order and the index of the checked radio, if any (the radios
  share one `name`, so at most one is checked).
* `heading`: the `DIV` of a heading, holding the label in a `strong` element. -/
inductive Control where
  | input (type value : String) (checked : Bool) (files : List String)
      (placeholder : String) (required : Bool)
  | textarea (value placeholder : String) (required : Bool)
  | select (options : List String) (selected : Option Nat)
  | radioGroup (labels : List String) (checked : Option Nat)
  | button (text : String)
  | heading (label : String)
  | image (src : String)
  deriving DecidableEq, Repr

/-- Inline style of a field wrapper, restricted to placement. -/
structure Style where
  position : String := ""
  left : String := ""
  top : String := ""
  gridColumn : String := ""
  width : String := ""
  deriving DecidableEq, Repr

/-- A field on the canvas: the wrapper element with its `data-type` and
`data-id` attributes, its metadata, its label text, its control and its
placement. -/
structure Field where
  type : String
  dataId : String
  meta : Meta
  labelText : String
  control : Control
  style : Style
  deriving DecidableEq, Repr

/-- State of the designer: the inputs of the global settings, the script's
variables, and the fields of the canvas in document order
(`$$('.form-field')`). -/
structure Design where
  formBgColor : String
  bgImageDataUrl : String
  formWidth : String
  formPadding : String
  layoutMode : String
  columnsSelect : String
  gridToggle : Bool
  gridSize : Int
  isFreeMode : Bool
  idCounter : Nat
  fields : List Field
  deriving DecidableEq, Repr

/-- Position entry of a node: `{ left, top }`, each a string or `null`. -/
structure Pos where
  left : Option String := none
  top : Option String := none
  deriving DecidableEq, Repr

/-- Node of a document: `{ type, meta, pos }`. -/
structure Node where
  type : String
  meta : Option Meta := none
  pos : Option Pos := none
  deriving DecidableEq, Repr

/-- The `global` object of a document. -/
structure Global where
  bg : Option String := none
  bgImageDataUrl : Option String := none
  width : Option String := none
  padding : Option String := none
  layout : Option String := none
  columns : Option String := none
  grid : Option Bool := none
  gridSize : Option Int := none
  deriving DecidableEq, Repr

/-- Parsed document.  `global = none`: the value has no `global` object;
`nodes = none`: it has no `nodes` array.  `nodes` lists the entries of the
array that the node loop of `loadFromJson` gets through.  `throwing = some
bump`: behind them the array holds an entry on which the body of the loop
throws, either a `null` entry (reading `n.meta` throws; `bump = false`), or a
node of a select or radio kind whose `options` is not an array
(`createField` throws at `forEach`, after `genId` has run when the node has
no `id`: `bump = true`).  The entries behind a throwing entry are never
read, and `throwing` says nothing when there is no `nodes` array. -/
structure Doc where
  global : Option Global := none
  nodes : Option (List Node) := none
  throwing : Option Bool := none
  deriving DecidableEq, Repr

/-! ## Helpers of the script -/

/-- Column count in force: `Math.max(1, parseInt(columnsSelect?.value,10) || 1)`. -/
def getCurrentColumns (D : Design) : Int :=
  Max.max 1 ((parseInt D.columnsSelect).orElse 1)

/-- Identifier made by `genId(prefix)` when the counter already holds
`idCounter + 1`; `now` is the reading of `Date.now()`. -/
def genId (now : Nat) (pre : String) (idCounter : Nat) : String :=
  pre ++ "_" ++ toBase36 now ++ "_" ++ toString idCounter

/-- The `text` of an `option` element: its text content, stripped and
collapsed. -/
def optionText (raw : String) : String := stripAndCollapse raw

/-- The `value` of an `option` element: the script never gives an option a
`value` attribute, so the value is the `text`. -/
def optionValue (raw : String) : String := optionText raw

/-- Index of the first entry satisfying `p`, counting from `i`. -/
def firstIndexFrom (p : String → Bool) : List String → Nat → Option Nat
  | [], _ => none
  | o :: os, i => if p o then some i else firstIndexFrom p os (i + 1)

/-- Getter of `select.value`: the value of the selected option, or the empty
string when no option is selected. -/
def selectValue (options : List String) (selected : Option Nat) : String :=
  match selected with
  | some i =>
    match options[i]? with
    | some o => optionValue o
    | none => ""
  | none => ""

/-- Setter of `select.value`: the first option whose value equals `v` becomes
the selected one; without such an option nothing is selected. -/
def selectByValue (options : List String) (v : String) : Option Nat :=
  firstIndexFrom (fun o => decide (optionValue o = v)) options 0

/-- Options of a `select` filled from an empty element by appending one
`option` per entry. -/
def buildSelect (options : List String) : Control :=
  .select options (if options = [] then none else some 0)

/-- Labels of a radio field: each `label` holds the radio followed by a text
node `' ' + o`; no radio is checked. -/
def buildRadio (options : List String) : Control :=
  .radioGroup (options.map fun o => " " ++ o) none

/-- Control of a field after `rebuildOptions`: the options of a select or
radio field are rebuilt from `meta.options`; other controls are left alone. -/
def rebuiltControl (w : Field) : Control :=
  if w.type = "select" ∨ w.type = "dropdown" then
    match w.control with
    | .select _ _ => buildSelect (w.meta.options.getD [])
    | c => c
  else if w.type = "radio" then
    match w.control with
    | .radioGroup _ _ => buildRadio (w.meta.options.getD [])
    | c => c
  else w.control

/-- Rebuild of the options of a select or radio field (`rebuildOptions`). -/
def rebuildOptions (w : Field) : Field :=
  { w with control := rebuiltControl w }

/-- Value read from a radio field: the trimmed text of the label of the
checked radio, or the empty string when no radio is checked or the label has
no text. -/
def radioValue (labels : List String) (checked : Option Nat) : String :=
  match checked with
  | some i =>
    match labels[i]? with
    | some text => if text = "" then "" else jsTrim text
    | none => ""
  | none => ""

/-- Part of `getControlValue` after the tests on the tag name: the radio,
button and heading kinds. -/
def getControlValueByKind (w : Field) : JsVal :=
  if w.type = "radio" then
    match w.control with
    | .radioGroup labels checked => .str (radioValue labels checked)
    | _ => .str ""
  else if w.type = "button" ∨ w.type = "heading" then
    match w.meta.label with
    | some l => .str l
    | none => .undefined
  else .str ""

/-- Value of a field's control as written to the store (`getControlValue`). -/
def getControlValue (w : Field) : JsVal :=
  match w.control with
  | .input t value checked files _ _ =>
    if t ∈ ["text", "email", "number", "password", "date", "color", "range", "file"] then
      if t = "file" then .str (files.head?.getD "") else .str value
    else if t = "checkbox" then .str (if checked then "TRUE" else "FALSE")
    else getControlValueByKind w
  | .textarea value _ _ => .str value
  | .select options selected => .str (selectValue options selected)
  | _ => getControlValueByKind w

/-- The loop of `setControlValue` over the labels of a radio field, from the
label of index `i` on: `input.checked = (text === want)`.  Checking a radio
unchecks the other radios of the group; unchecking it leaves them alone. -/
def assignRadios (want : String) : List String → Nat → Option Nat → Option Nat
  | [], _, checked => checked
  | text :: rest, i, checked =>
    assignRadios want rest (i + 1)
      (if jsTrim text = want then some i
       else if checked = some i then none else checked)

/-- Part of `setControlValue` after the tests on the tag name: the radio
kind. -/
def setControlValueByKind (w : Field) (value : JsVal) : Field :=
  if w.type = "radio" then
    match w.control with
    | .radioGroup labels checked =>
      { w with control :=
          .radioGroup labels (assignRadios (jsTrim value.orEmpty.toStr) labels 0 checked) }
    | _ => w
  else w

/-- Decode of a store value into a field's control (`setControlValue`).  The
string assigned to `value` of an input or textarea is kept as assigned: the
value sanitisation of the element (a text input strips line breaks, a number
input empties a text that is no number) is not part of the embedding, so an
assigned string stands for a string that the element keeps. -/
def setControlValue (w : Field) (value : JsVal) : Field :=
  match w.control with
  | .input t v checked files ph rq =>
    if t ∈ ["text", "email", "number", "password", "date", "color", "range"] then
      { w with control := .input t value.orEmpty.toStr checked files ph rq }
    else if t = "checkbox" then
      let s := jsToLowerCase value.truthyOrEmpty.toStr
      { w with control :=
          .input t v (decide (s = "true" ∨ s = "1" ∨ s = "yes" ∨ s = "on")) files ph rq }
    else setControlValueByKind w value
  | .textarea _ ph rq => { w with control := .textarea value.orEmpty.toStr ph rq }
  | .select options _ =>
    let found := options.any fun o =>
      value.strictEqStr (optionValue o) || value.strictEqStr (optionText o)
    let options1 :=
      if !found && value.notNullish then options ++ [value.toStr] else options
    { w with control := .select options1 (selectByValue options1 value.orEmpty.toStr) }
  | _ => setControlValueByKind w value

/-- Body of the span block shared by `applyMetaToElement` (flow mode) and
`applyLayoutColumns`: the span is clamped to the column count, stored in the
metadata and applied as grid placement, and the inline position is cleared. -/
def applySpan (cols : Int) (w : Field) : Field :=
  let span := clamp (.int (orInt w.meta.colSpan 1)) 1 cols
  { w with
    meta := { w.meta with colSpan := some span }
    style :=
      { w.style with
        gridColumn := "span " ++ toString span
        position := "relative"
        left := ""
        top := ""
        width := "100%" } }

/-- First part of `applyMetaToElement`: label text, placeholder and
`required` of an input or textarea, text of a button, markup of a heading. -/
def applyMetaText (w : Field) : Field :=
  { w with
    labelText := orStr w.meta.label ""
    control :=
      match w.control with
      | .input t v c fs _ _ =>
        .input t v c fs (orStr w.meta.placeholder "") (w.meta.required.getD false)
      | .textarea v _ _ =>
        .textarea v (orStr w.meta.placeholder "") (w.meta.required.getD false)
      | .button _ => .button (orStr w.meta.label "")
      | .heading l =>
        if w.type = "heading" then .heading (w.meta.label.getD "undefined") else .heading l
      | c => c }

/-- Second part of `applyMetaToElement`: the options are rebuilt for the
select, dropdown and radio kinds, and the width is set from `widthPct`. -/
def applyMetaStyle (w : Field) : Field :=
  let w1 : Field :=
    if w.type = "select" ∨ w.type = "dropdown" ∨ w.type = "radio" then rebuildOptions w
    else w
  { w1 with style :=
      { w1.style with
        width :=
          if truthyInt w.meta.widthPct then toString (w.meta.widthPct.getD 0) ++ "%"
          else "auto" } }

/-- Metadata applied to the elements of a field (`applyMetaToElement`), under
the current `isFreeMode` and the column count `cols`. -/
def applyMetaToElement (isFreeMode : Bool) (cols : Int) (w : Field) : Field :=
  let w1 := applyMetaStyle (applyMetaText w)
  if !isFreeMode then applySpan cols w1 else w1

/-- Default label of a new field. -/
def defaultLabel (type : String) : String :=
  if type = "heading" then "Heading" else if type = "button" then "Button" else "Label"

/-- Defaults that `createField` merges the `data` into. -/
def defaultMeta (dataId type : String) : Meta :=
  { id := some dataId
    label := some (defaultLabel type)
    placeholder := some ""
    required := some false
    widthPct := some 100
    height := some 0
    font := some "Arial"
    fontSize := some 14
    labelSize := some 14
    textColor := some "#111111"
    bgColor := some "#ffffff"
    borderColor := some "#e6e6ef"
    radius := some 6
    padding := some 8
    options := some ["Option 1", "Option 2"]
    colSpan := some 1
    binding := some { address := "", listen := false } }

/-- Control element built by the `switch` of `createField`. -/
def newControl (type : String) (meta data : Meta) : Control :=
  if type = "text" ∨ type = "email" ∨ type = "number" ∨ type = "password" then
    .input type "" false [] (meta.placeholder.getD "undefined") false
  else if type = "textarea" then .textarea "" (meta.placeholder.getD "undefined") false
  else if type = "select" ∨ type = "dropdown" then buildSelect (meta.options.getD [])
  else if type = "checkbox" then .input "checkbox" "on" false [] "" false
  else if type = "radio" then buildRadio (meta.options.getD [])
  else if type = "button" then .button (meta.label.getD "")
  else if type = "heading" then .heading (meta.label.getD "undefined")
  else if type = "image" then .image (orStr data.src "")
  else if type = "date" then .input "date" "" false [] "" false
  else if type = "file" then .input "file" "" false [] "" false
  else if type = "color" then .input "color" "#000000" false [] "" false
  else if type = "range" then .input "range" "50" false [] "" false
  else .input "text" "" false [] "" false

/-- Field factory (`createField(type, data)`): returns the new wrapper and the
new value of `idCounter`.  `now` is the reading of `Date.now()`.  The binding
handlers that the factory also attaches carry no design state. -/
def createField (isFreeMode : Bool) (cols : Int) (now idCounter : Nat)
    (type : String) (data : Meta) : Field × Nat :=
  let fresh := !truthyStr data.id
  let idCounter1 := if fresh then idCounter + 1 else idCounter
  let dataId := if fresh then genId now type idCounter1 else data.id.getD ""
  let meta := (defaultMeta dataId type).assign data
  let w : Field :=
    { type := type
      dataId := dataId
      meta := meta
      labelText := meta.label.getD ""
      control := newControl type meta data
      style := {} }
  (applyMetaToElement isFreeMode cols w, idCounter1)

/-- Two controls are the same kind of element: the same tag and, for an
`INPUT`, the same `type`. -/
def sameShape : Control → Control → Bool
  | .input t _ _ _ _ _, .input t1 _ _ _ _ _ => decide (t = t1)
  | .textarea _ _ _, .textarea _ _ _ => true
  | .select _ _, .select _ _ => true
  | .radioGroup _ _, .radioGroup _ _ => true
  | .button _, .button _ => true
  | .heading _, .heading _ => true
  | .image _, .image _ => true
  | _, _ => false

/-- The control of the field is the element that `createField` builds for the
field's kind, in any state. -/
def wellShaped (w : Field) : Bool :=
  sameShape w.control (newControl w.type w.meta w.meta)

/-- Grid placement of every field in flow layout (`applyLayoutColumns`). -/
def applyLayoutColumns (D : Design) : Design :=
  if D.layoutMode ≠ "flow" then D
  else { D with fields := D.fields.map (applySpan (getCurrentColumns D)) }

/-! ## Export and import -/

/-- Node written by `exportLayout` for one field: a copy of the metadata in
which `span` repeats `colSpan` when that is defined, and the inline position
(`null` for an empty one). -/
def exportNode (n : Field) : Node :=
  { type := n.type
    meta := some
      { n.meta with span := if n.meta.colSpan.isSome then n.meta.colSpan else n.meta.span }
    pos := some
      { left := if n.style.left = "" then none else some n.style.left
        top := if n.style.top = "" then none else some n.style.top } }

/-- Document written by `exportLayout`; the text returned by the script is
`JSON.stringify` of it. -/
def exportLayout (D : Design) : Doc :=
  { global := some
      { bg := some (strOr D.formBgColor "")
        bgImageDataUrl := some (strOr D.bgImageDataUrl "")
        width := some (strOr D.formWidth "")
        padding := some (strOr D.formPadding "")
        layout := some (strOr D.layoutMode "flow")
        columns := some (strOr D.columnsSelect "1")
        grid := some D.gridToggle
        gridSize := some D.gridSize }
    nodes := some (D.fields.map exportNode) }

/-- Metadata of a node after the shim of `loadFromJson`: a truthy `span` is
copied into a missing (or falsy) `colSpan`. -/
def shimSpan (meta : Option Meta) : Option Meta :=
  match meta with
  | some m =>
    if truthyInt m.span ∧ ¬ truthyInt m.colSpan then some { m with colSpan := m.span }
    else some m
  | none => none

/-- Body of the node loop of `loadFromJson`: the field built for the node `n`,
with the new value of `idCounter`.  `layout` is `obj.global.layout`.  The
position is assigned through the style setter; a `pos.top` that is `null` or
missing leaves the new wrapper without inline `top`. -/
def loadNode (css : String → Option String) (isFreeMode : Bool) (cols : Int)
    (layout : Option String) (now idCounter : Nat) (n : Node) : Field × Nat :=
  let r := createField isFreeMode cols now idCounter n.type ((shimSpan n.meta).getD {})
  let f := r.1
  let positioned : Bool :=
    match n.pos with
    | some pos => truthyStr pos.left && decide (layout = some "free")
    | none => false
  let f1 : Field :=
    if positioned then
      { f with style :=
          { f.style with
            position := "absolute"
            left := setLength css f.style.left (((n.pos.getD {}).left).getD "")
            top := setLength css f.style.top (((n.pos.getD {}).top).getD "") } }
    else f
  (f1, r.2)

/-- The node loop of `loadFromJson` from the node of index `k` on; `now k` is
the reading of `Date.now()` while node `k` is built. -/
def loadNodes (css : String → Option String) (isFreeMode : Bool) (cols : Int)
    (layout : Option String) (now : Nat → Nat) : List Node → Nat → Nat → List Field × Nat
  | [], _, idCounter => ([], idCounter)
  | n :: ns, k, idCounter =>
    let r := loadNode css isFreeMode cols layout (now k) idCounter n
    let rest := loadNodes css isFreeMode cols layout now ns (k + 1) r.2
    (r.1 :: rest.1, rest.2)

/-- First part of the `try` block of `loadFromJson`: the global settings of the
document are written to the inputs and to the script's variables, and the
canvas is emptied. -/
def applyGlobal (g : Global) (D : Design) : Design :=
  { D with
    formBgColor := orStr g.bg ""
    bgImageDataUrl := orStr g.bgImageDataUrl ""
    formWidth := orStr g.width "900"
    formPadding := orStr g.padding "16"
    layoutMode := orStr g.layout "flow"
    columnsSelect := orStr g.columns "1"
    gridSize := orInt g.gridSize D.gridSize
    gridToggle := g.grid.getD false
    fields := [] }

/-- The `try` block of `loadFromJson` for a document with the global object
`g` and the nodes `nodes`: the settings are applied, the fields are rebuilt
under the `isFreeMode` of before the import, then the layout is set. -/
def loadAccepted (css : String → Option String) (now : Nat → Nat) (g : Global)
    (nodes : List Node) (D : Design) : Design :=
  let D1 := applyGlobal g D
  let built :=
    loadNodes css D1.isFreeMode (getCurrentColumns D1) g.layout now nodes 0 D1.idCounter
  let D2 : Design :=
    { D1 with
      fields := built.1
      idCounter := built.2
      isFreeMode := decide (D1.layoutMode = "free") }
  if D2.isFreeMode then D2 else applyLayoutColumns D2

/-- The `try` block of `loadFromJson` for a document whose nodes array holds a
throwing entry behind the nodes `nodes`: the settings are applied, the canvas
is emptied and the fields of `nodes` are built; then the loop throws, so the
statements that set `isFreeMode` and lay out the columns are not reached.
`bump`: `genId` ran for the throwing entry. -/
def loadPartial (css : String → Option String) (now : Nat → Nat) (g : Global)
    (nodes : List Node) (bump : Bool) (D : Design) : Design :=
  let D1 := applyGlobal g D
  let built :=
    loadNodes css D1.isFreeMode (getCurrentColumns D1) g.layout now nodes 0 D1.idCounter
  { D1 with
    fields := built.1
    idCounter := if bump then built.2 + 1 else built.2 }

/-- Import of a document (`loadFromJson(str)`).  The argument is the result of
`JSON.parse(str)`: `none` when the text is not valid JSON (the parser throws).
The result is the new state and whether the `catch` branch ran (the
`alert('Invalid JSON')`).  A value without a `global` object makes the first
statement of the `try` block throw, before any assignment; a value without a
`nodes` array skips the node loop; a throwing entry of the `nodes` array ends
the `try` block inside the loop, after the settings were applied and the
nodes before it were built. -/
def loadFromJson (css : String → Option String) (now : Nat → Nat) (parsed : Option Doc)
    (D : Design) : Design × Bool :=
  match parsed with
  | none => (D, true)
  | some obj =>
    match obj.global with
    | none => (D, true)
    | some g =>
      match obj.nodes, obj.throwing with
      | some nodes, some bump => (loadPartial css now g nodes bump D, true)
      | _, _ => (loadAccepted css now g (obj.nodes.getD []) D, false)

/-! ## Design operations -/

/-- Replace the entry of index `i` by its image under `f`. -/
def modifyAt (f : Field → Field) : Nat → List Field → List Field
  | _, [] => []
  | 0, x :: xs => f x :: xs
  | i + 1, x :: xs => x :: modifyAt f i xs

/-- Inputs of the element settings panel; a numeric input is given by its
`Number(...)` reading. -/
structure Panel where
  label : String
  placeholder : String
  required : Bool
  width : JsNum
  height : JsNum
  font : String
  fontSize : JsNum
  labelSize : JsNum
  textColor : String
  bgColor : String
  borderColor : String
  radius : JsNum
  padding : JsNum
  colSpan : JsNum
  deriving DecidableEq, Repr

/-- Settings of the panel written into the selected field, the field of index
`i` (`applySettingsFromPanel`). -/
def applySettingsFromPanel (i : Nat) (p : Panel) (D : Design) : Design :=
  let cols := getCurrentColumns D
  let upd (w : Field) : Field :=
    let m : Meta :=
      { w.meta with
        label := some p.label
        placeholder := some p.placeholder
        required := some p.required
        widthPct := some (p.width.orElse 100)
        height := some (p.height.orElse 0)
        font := some p.font
        fontSize := some (p.fontSize.orElse 14)
        labelSize := some (p.labelSize.orElse 14)
        textColor := some p.textColor
        bgColor := some p.bgColor
        borderColor := some p.borderColor
        radius := some (p.radius.orElse 0)
        padding := some (p.padding.orElse 8)
        colSpan := some (clamp (.int (p.colSpan.orElse 1)) 1 cols) }
    applyMetaToElement D.isFreeMode cols { w with meta := m }
  { D with fields := modifyAt upd i D.fields }

/-- Handler of the `change` event of the column selector, after the selector
took the value `v`. -/
def columnsChange (v : String) (D : Design) : Design :=
  let D1 := applyLayoutColumns { D with columnsSelect := v }
  let cols := getCurrentColumns D1
  let upd (el : Field) : Field :=
    applyMetaToElement D1.isFreeMode cols
      { el with meta :=
          { el.meta with colSpan := some (clamp (.int (orInt el.meta.colSpan 1)) 1 cols) } }
  { D1 with fields := D1.fields.map upd }

/-- Fields placed absolutely at the offsets the browser reports for them, the
free branch of the layout mode handler; `k` is the index of the first field. -/
def placeAll (css : String → Option String) (offsets : Nat → Int × Int) :
    List Field → Nat → List Field
  | [], _ => []
  | el :: els, k =>
    { el with style :=
        { el.style with
          position := "absolute"
          left := setLength css el.style.left (toString (offsets k).1 ++ "px")
          top := setLength css el.style.top (toString (offsets k).2 ++ "px")
          width :=
            if truthyInt el.meta.widthPct then toString (el.meta.widthPct.getD 0) ++ "%"
            else "auto"
          gridColumn := "" } } :: placeAll css offsets els (k + 1)

/-- Handler of the `change` event of the layout mode selector, after the
selector took the value `v`; `offsets` gives the offset of each field inside
the canvas as measured by `getBoundingClientRect`. -/
def layoutModeChange (css : String → Option String) (v : String)
    (offsets : Nat → Int × Int) (D : Design) : Design :=
  let D1 : Design := { D with layoutMode := v, isFreeMode := decide (v = "free") }
  if !D1.isFreeMode then
    let reset (el : Field) : Field :=
      applyMetaToElement D1.isFreeMode (getCurrentColumns D1)
        { el with style := { el.style with position := "relative", left := "", top := "" } }
    applyLayoutColumns { D1 with fields := D1.fields.map reset }
  else { D1 with fields := placeAll css offsets D1.fields 0 }

/-- Drop of a toolbox item of kind `type` on the canvas; `x` and `y` are the
offsets of the pointer inside the canvas, after snapping. -/
def dropField (css : String → Option String) (now : Nat) (type : String) (x y : Int)
    (D : Design) : Design :=
  let r := createField D.isFreeMode (getCurrentColumns D) now D.idCounter type {}
  let newField : Field :=
    if D.layoutMode = "flow" then r.1
    else
      { r.1 with style :=
          { r.1.style with
            position := "absolute"
            left := setLength css r.1.style.left (toString x ++ "px")
            top := setLength css r.1.style.top (toString y ++ "px") } }
  { D with fields := D.fields ++ [newField], idCounter := r.2 }

/-- End of an inline edit of the label of field `i` (the `blur` handler). -/
def editLabel (i : Nat) (text : String) (D : Design) : Design :=
  let upd (w : Field) : Field :=
    applyMetaToElement D.isFreeMode (getCurrentColumns D)
      { w with meta := { w.meta with label := some text } }
  { D with fields := modifyAt upd i D.fields }

/-- Click on the add-option button for field `i`, the option input holding
`text`. -/
def addOption (i : Nat) (text : String) (D : Design) : Design :=
  let v := jsTrim text
  if v = "" then D
  else
    let upd (w : Field) : Field :=
      applyMetaToElement D.isFreeMode (getCurrentColumns D)
        { w with meta := { w.meta with options := some (w.meta.options.getD [] ++ [v]) } }
    { D with fields := modifyAt upd i D.fields }

/-- Pointer drag of field `i` to the offset `(x, y)`, in free mode only. -/
def moveField (css : String → Option String) (i : Nat) (x y : Int) (D : Design) : Design :=
  if !D.isFreeMode then D
  else
    let upd (w : Field) : Field :=
      { w with style :=
          { w.style with
            left := setLength css w.style.left (toString x ++ "px")
            top := setLength css w.style.top (toString y ++ "px") } }
    { D with fields := modifyAt upd i D.fields }

/-- Input in the text of option `j` of field `i` in the options editor:
`selectedEl._meta.options[j] = txt.value`. -/
def editOption (i j : Nat) (text : String) (D : Design) : Design :=
  let upd (w : Field) : Field :=
    applyMetaToElement D.isFreeMode (getCurrentColumns D)
      { w with meta := { w.meta with options := some ((w.meta.options.getD []).set j text) } }
  { D with fields := modifyAt upd i D.fields }

/-- Click on the delete button of option `j` of field `i`:
`selectedEl._meta.options.splice(j,1)`. -/
def deleteOption (i j : Nat) (D : Design) : Design :=
  let upd (w : Field) : Field :=
    applyMetaToElement D.isFreeMode (getCurrentColumns D)
      { w with meta := { w.meta with options := some ((w.meta.options.getD []).eraseIdx j) } }
  { D with fields := modifyAt upd i D.fields }

/-- Change of the binding address input for field `i`: the trimmed address is
stored in the binding, which is created when missing. -/
def setBindAddress (i : Nat) (addr : String) (D : Design) : Design :=
  let upd (w : Field) : Field :=
    { w with meta :=
        { w.meta with
          binding := some
            { (w.meta.binding.getD { address := "", listen := false }) with
              address := jsTrim addr } } }
  { D with fields := modifyAt upd i D.fields }

/-- Change of the listen checkbox for field `i`. -/
def setBindListen (i : Nat) (listen : Bool) (D : Design) : Design :=
  let upd (w : Field) : Field :=
    { w with meta :=
        { w.meta with
          binding := some
            { (w.meta.binding.getD { address := "", listen := false }) with
              listen := listen } } }
  { D with fields := modifyAt upd i D.fields }

/-- Drag of field `i` over the canvas in flow layout: the field is taken out
and put back before the field that then has index `j` (at the end when there
is none). -/
def reorderField (i j : Nat) (D : Design) : Design :=
  if D.layoutMode ≠ "flow" then D
  else
    match D.fields[i]? with
    | some f =>
      { D with fields :=
          (D.fields.eraseIdx i).take j ++ [f] ++ (D.fields.eraseIdx i).drop j }
    | none => D

/-- Deletion of field `i`. -/
def deleteElement (i : Nat) (D : Design) : Design :=
  { D with fields := D.fields.eraseIdx i }

/-- Clearing of the canvas. -/
def clearCanvas (D : Design) : Design :=
  { D with fields := [] }

/-- User input in the background colour field. -/
def setBgColor (v : String) (D : Design) : Design := { D with formBgColor := v }

/-- Background image chosen (`url` is the data URL read from the file) or
removed (`url` empty). -/
def setBgImage (url : String) (D : Design) : Design := { D with bgImageDataUrl := url }

/-- User input in the form width field. -/
def setWidth (v : String) (D : Design) : Design := { D with formWidth := v }

/-- User input in the form padding field. -/
def setPadding (v : String) (D : Design) : Design := { D with formPadding := v }

/-- Change of the grid checkbox. -/
def setGrid (b : Bool) (D : Design) : Design := { D with gridToggle := b }

/-- User input in the grid size field:
`gridSize = parseInt(gridSizeInput.value,10)||12`. -/
def setGridSize (v : String) (D : Design) : Design :=
  { D with gridSize := (parseInt v).orElse 12 }

/-- Values of the page's inputs when the script starts. -/
structure Page where
  formBgColor : String
  formWidth : String
  formPadding : String
  layoutMode : String
  columnsSelect : String
  gridToggle : Bool
  gridSizeInput : String
  deriving DecidableEq, Repr

/-- State after the script has run once: the variables initialised and the
three demo fields of `initDemo` on the canvas. -/
def initial (page : Page) (now : Nat) : Design :=
  let D0 : Design :=
    { formBgColor := page.formBgColor
      bgImageDataUrl := ""
      formWidth := page.formWidth
      formPadding := page.formPadding
      layoutMode := page.layoutMode
      columnsSelect := page.columnsSelect
      gridToggle := page.gridToggle
      gridSize := (parseInt page.gridSizeInput).orElse 12
      isFreeMode := false
      idCounter := 0
      fields := [] }
  let cols := getCurrentColumns D0
  let f1 := createField false cols now 0 "heading"
    { label := some "Customer Signup", colSpan := some cols }
  let f2 := createField false cols now f1.2 "text"
    { label := some "Full name", placeholder := some "Jane Doe", colSpan := some 1 }
  let f3 := createField false cols now f2.2 "email"
    { label := some "Email address", placeholder := some "name@example.com", colSpan := some 1 }
  { D0 with fields := [f1.1, f2.1, f3.1], idCounter := f3.2 }

/-- One user operation on the designer. -/
inductive Op where
  | drop (now : Nat) (type : String) (x y : Int)
  | applySettings (i : Nat) (p : Panel)
  | columns (v : String)
  | layoutMode (v : String) (offsets : Nat → Int × Int)
  | importJson (now : Nat → Nat) (parsed : Option Doc)
  | editLabel (i : Nat) (text : String)
  | addOption (i : Nat) (text : String)
  | move (i : Nat) (x y : Int)
  | editOption (i j : Nat) (text : String)
  | deleteOption (i j : Nat)
  | bindAddress (i : Nat) (addr : String)
  | bindListen (i : Nat) (listen : Bool)
  | reorder (i j : Nat)
  | delete (i : Nat)
  | clear
  | bgColor (v : String)
  | bgImage (url : String)
  | width (v : String)
  | padding (v : String)
  | grid (b : Bool)
  | gridSize (v : String)

/-- Effect of an operation on the state, in a browser whose style setter is
`css`. -/
def Op.run (css : String → Option String) : Op → Design → Design
  | .drop now type x y, D => dropField css now type x y D
  | .applySettings i p, D => applySettingsFromPanel i p D
  | .columns v, D => columnsChange v D
  | .layoutMode v offsets, D => layoutModeChange css v offsets D
  | .importJson now parsed, D => (loadFromJson css now parsed D).1
  | .editLabel i text, D => FormDesigner.editLabel i text D
  | .addOption i text, D => FormDesigner.addOption i text D
  | .move i x y, D => moveField css i x y D
  | .editOption i j text, D => FormDesigner.editOption i j text D
  | .deleteOption i j, D => FormDesigner.deleteOption i j D
  | .bindAddress i addr, D => setBindAddress i addr D
  | .bindListen i listen, D => setBindListen i listen D
  | .reorder i j, D => reorderField i j D
  | .delete i, D => deleteElement i D
  | .clear, D => clearCanvas D
  | .bgColor v, D => setBgColor v D
  | .bgImage url, D => setBgImage url D
  | .width v, D => setWidth v D
  | .padding v, D => setPadding v D
  | .grid b, D => setGrid b D
  | .gridSize v, D => setGridSize v D

/-- States the designer reaches from its start on `page` by user operations,
in a browser whose style setter is `css`. -/
inductive Reachable (css : String → Option String) (page : Page) : Design → Prop where
  | init (now : Nat) : Reachable css page (initial page now)
  | step (op : Op) (D : Design) : Reachable css page D → Reachable css page (op.run css D)

/-! ## Invariants and observations -/

/-- Every key that the defaults of `createField` provide is present. -/
def Meta.complete (m : Meta) : Bool :=
  m.id.isSome && m.label.isSome && m.placeholder.isSome && m.required.isSome &&
  m.widthPct.isSome && m.height.isSome && m.font.isSome && m.fontSize.isSome &&
  m.labelSize.isSome && m.textColor.isSome && m.bgColor.isSome && m.borderColor.isSome &&
  m.radius.isSome && m.padding.isSome && m.options.isSome && m.colSpan.isSome &&
  m.binding.isSome

/-- The field's `colSpan` is an integer between 1 and `cols`. -/
def Clamped (cols : Int) (f : Field) : Prop :=
  ∃ k, f.meta.colSpan = some k ∧ 1 ≤ k ∧ k ≤ cols

/-- Invariant of a field under the mode flag `free`, the value `mode` of the
layout selector and the column count `cols`: the metadata is complete; when
the mode flag is off and the selector is on flow, the inline position is
empty; and when the mode flag is off and the selector is on flow or free, the
span is clamped. -/
def FieldOk (free : Bool) (mode : String) (cols : Int) (f : Field) : Prop :=
  f.meta.complete = true ∧
  (free = false → mode = "flow" → f.style.left = "" ∧ f.style.top = "") ∧
  (free = false → mode = "flow" ∨ mode = "free" → Clamped cols f)

/-- Invariant of the designer's states: the grid size is not zero and every
field satisfies `FieldOk`.  The mode flag and the layout selector may
disagree: an import that throws inside the node loop has set the selector and
not the flag. -/
structure Inv (D : Design) : Prop where
  grid : D.gridSize ≠ 0
  fields : ∀ f ∈ D.fields, FieldOk D.isFreeMode D.layoutMode (getCurrentColumns D) f

/-- An inline length as the style setter leaves it: empty, or a text that the
setter stores unchanged. -/
def Serialised (css : String → Option String) (s : String) : Prop :=
  s = "" ∨ css s = some s

/-- Every inline position on the canvas is as the style setter leaves it. -/
def PositionsSerialised (css : String → Option String) (D : Design) : Prop :=
  ∀ f ∈ D.fields, Serialised css f.style.left ∧ Serialised css f.style.top

/-- The mode flag is on only when the layout selector is on free. -/
def ModeAgrees (D : Design) : Prop :=
  D.isFreeMode = true → D.layoutMode = "free"

/-- Every field with an inline `top` has an inline `left`. -/
def TopNeedsLeft (D : Design) : Prop :=
  ∀ f ∈ D.fields, f.style.left = "" → f.style.top = ""

/-- Metadata without the compatibility key `span`. -/
def Meta.dropSpan (m : Meta) : Meta := { m with span := none }

/-- What the round trip observes of a field: its kind, its metadata (the key
`span`, a copy of `colSpan` made for older readers, apart) and its position. -/
def observe (f : Field) : String × Meta × String × String :=
  (f.type, f.meta.dropSpan, f.style.left, f.style.top)

/-- Observable equality of two designs: the same fields in the same order
(kind, metadata, position) and the same global settings. -/
def ObservablyEqual (A B : Design) : Prop :=
  A.fields.map observe = B.fields.map observe ∧
  A.formBgColor = B.formBgColor ∧
  A.bgImageDataUrl = B.bgImageDataUrl ∧
  A.formWidth = B.formWidth ∧
  A.formPadding = B.formPadding ∧
  A.layoutMode = B.layoutMode ∧
  A.columnsSelect = B.columnsSelect ∧
  A.gridToggle = B.gridToggle ∧
  A.gridSize = B.gridSize

/-! ## Sample states -/

/-- The kinds with a codec, the file kind apart. -/
def codecKinds : List String :=
  ["text", "number", "email", "password", "textarea", "date", "color", "range", "select",
    "radio", "checkbox"]

/-- Whole pixel length in the form in which the browser serialises it: an
optional minus sign, digits without a leading zero (the single digit `0`
apart, which takes no sign), then `px`. -/
def isPxLength (s : String) : Bool :=
  match s.data.reverse with
  | 'x' :: 'p' :: rest =>
    let num := rest.reverse
    let neg : Bool :=
      match num with
      | '-' :: _ => true
      | _ => false
    let digits : List Char :=
      match num with
      | '-' :: ds => ds
      | ds => ds
    !digits.isEmpty && digits.all Char.isDigit &&
      (digits.head? != some '0' || (digits.length == 1 && !neg))
  | _ => false

/-- A style setter that knows whole pixel lengths only: such a length is
stored as written, any other text is dropped. -/
def samplePx (s : String) : Option String :=
  if isPxLength s then some s else none

/-- A page in flow layout with two columns. -/
def samplePage : Page :=
  { formBgColor := "#ffffff"
    formWidth := "900"
    formPadding := "16"
    layoutMode := "flow"
    columnsSelect := "2"
    gridToggle := false
    gridSizeInput := "12" }

/-- A radio field with the options A and B, the radio of A checked. -/
def sampleRadio : Field :=
  { (createField false 1 0 0 "radio" { options := some ["A", "B"] }).1 with
    control := .radioGroup [" A", " B"] (some 0) }

/-- A select field with the single option Silver. -/
def sampleSelect : Field :=
  (createField false 1 0 0 "select" { options := some ["Silver"] }).1

/-- A document with a global object and no nodes array. -/
def sampleDocNoNodes : Doc := { global := some {}, nodes := none }

/-- A flow document with two columns whose single node carries only the
legacy key, `span = 5`. -/
def sampleDocLegacy : Doc :=
  { global := some { layout := some "flow", columns := some "2" }
    nodes := some [{ type := "text", meta := some { span := some 5 } }] }

/-- A free document whose single node has a position without `left`. -/
def sampleDocNoLeft : Doc :=
  { global := some { layout := some "free", columns := some "2" }
    nodes := some [{ type := "text", meta := some {}, pos := some { top := some "10px" } }] }

/-- A free document whose single node is placed at (40px, 10px). -/
def sampleDocFree : Doc :=
  { global := some { layout := some "free", columns := some "2" }
    nodes := some
      [{ type := "text", meta := some {}, pos := some { left := some "40px", top := some "10px" } }] }

/-- A free document with two columns whose single node has `colSpan = 7`. -/
def sampleDocWide : Doc :=
  { global := some { layout := some "free", columns := some "2" }
    nodes := some [{ type := "text", meta := some { colSpan := some 7 } }] }

/-- The start state switched to free layout, followed by the import of
`sampleDocWide`. -/
def sampleWideDesign : Design :=
  (Op.importJson (fun _ => 0) (some sampleDocWide)).run samplePx
    ((Op.layoutMode "free" (fun _ => (0, 0))).run samplePx (initial samplePage 0))

/-- The start state of the sample page after the user has emptied the width
input. -/
def sampleNoWidthDesign : Design := (Op.width "").run samplePx (initial samplePage 0)

/-- A flow document with two columns whose nodes array holds a text node of
`colSpan = 7` followed by a `null` entry. -/
def sampleDocBroken : Doc :=
  { global := some { layout := some "flow", columns := some "2" }
    nodes := some [{ type := "text", meta := some { colSpan := some 7 } }]
    throwing := some false }

/-- The start state switched to free layout, followed by the import of
`sampleDocBroken`, which throws inside the node loop. -/
def sampleStaleDesign : Design :=
  (Op.importJson (fun _ => 0) (some sampleDocBroken)).run samplePx
    ((Op.layoutMode "free" (fun _ => (0, 0))).run samplePx (initial samplePage 0))

/-- The state `sampleStaleDesign` after its field was dragged to (30, 40). -/
def sampleDraggedDesign : Design := (Op.move 0 30 40).run samplePx sampleStaleDesign

/-- A free document whose single node has a position that is no valid length:
the unit is missing. -/
def sampleDocNoUnit : Doc :=
  { global := some { layout := some "free", columns := some "2" }
    nodes := some
      [{ type := "text", meta := some {}, pos := some { left := some "40", top := some "10" } }] }

/-- A free document whose single node has a `left` without unit and a valid
`top`. -/
def sampleDocTopOnly : Doc :=
  { global := some { layout := some "free", columns := some "2" }
    nodes := some
      [{ type := "text", meta := some {}, pos := some { left := some "40", top := some "10px" } }] }

/-- The start state after the import of `sampleDocTopOnly`. -/
def sampleTopOnlyDesign : Design :=
  (Op.importJson (fun _ => 0) (some sampleDocTopOnly)).run samplePx (initial samplePage 0)

/-- The start state switched to free layout, the fields found at the offsets
(0, 0), (0, 60) and (0, 120), and the first field then dragged to (30, 40). -/
def sampleFreeDesign : Design :=
  (Op.move 0 30 40).run samplePx
    ((Op.layoutMode "free" (fun k => (0, 60 * (k : Int)))).run samplePx (initial samplePage 0))

/-- Inputs of the settings panel with the Column Span input on 5. -/
def samplePanel : Panel :=
  { label := "Full name"
    placeholder := ""
    required := false
    width := .int 100
    height := .int 0
    font := "Arial"
    fontSize := .int 14
    labelSize := .int 14
    textColor := "#111111"
    bgColor := "#ffffff"
    borderColor := "#e6e6ef"
    radius := .int 6
    padding := .int 8
    colSpan := .int 5 }

/-- The start state after a number field was dropped and the Column Span of
the second field was set to 5 in the panel. -/
def sampleSpanDesign : Design :=
  (Op.applySettings 1 samplePanel).run samplePx
    ((Op.drop 0 "number" 0 0).run samplePx (initial samplePage 0))

/-! ## Binding manager -/

/-- Decode of a store value into an element by `setControlValue` of
`bindingManager.js`.  A checkbox takes `value.toString().toLowerCase() ===
"true"`, which throws a `TypeError` when the value is `null` or `undefined`;
any other element takes `element.value = value`, where an input or a textarea
turns `null` into the empty string, a file input accepts the empty string only
and an element without a `value` property is left as it is. -/
def managerSetControlValue (element : Control) (value : JsVal) : Except String Control :=
  match element with
  | .input t v checked files ph rq =>
    if t = "checkbox" then
      if value.notNullish then
        .ok (.input t v (decide (jsToLowerCase value.toStr = "true")) files ph rq)
      else .error "TypeError"
    else if t = "file" then
      if (match value with | .null => "" | x => x.toStr) = "" then
        .ok (.input t v checked [] ph rq)
      else .error "InvalidStateError"
    else
      .ok (.input t (match value with | .null => "" | x => x.toStr) checked files ph rq)
  | .textarea _ ph rq => .ok (.textarea (match value with | .null => "" | x => x.toStr) ph rq)
  | .select options _ => .ok (.select options (selectByValue options value.toStr))
  | c => .ok c

/-- The dictionary `controlBindings` of `bindingManager.js`: the pairs of a
control id and its binding id, in the order of their first registration.  The
dictionary is taken as a finite map over strings: the property name
`__proto__` and the properties an object inherits are outside the
embedding. -/
abbrev Registry := List (String × String)

/-- Read of `controlBindings[controlId]`. -/
def Registry.lookup : Registry → String → Option String
  | [], _ => none
  | (k, v) :: rest, controlId => if k = controlId then some v else Registry.lookup rest controlId

/-- Assignment `controlBindings[controlId] = bindingId`: an entry of that
control is overwritten in place, a new control is added at the end. -/
def Registry.assign : Registry → String → String → Registry
  | [], controlId, bindingId => [(controlId, bindingId)]
  | (k, v) :: rest, controlId, bindingId =>
    if k = controlId then (k, bindingId) :: rest
    else (k, v) :: Registry.assign rest controlId bindingId

/-- Binding id that `bindControlToRange` derives from a control id. -/
def bindingIdOf (controlId : String) : String := "bind_" ++ controlId

/-- Effect of `bindControlToRange(controlId, rangeName)` on the dictionary;
the creation of the binding in the workbook is asynchronous and does not touch
the dictionary. -/
def bindControlToRange (controlId _rangeName : String) (reg : Registry) : Registry :=
  reg.assign controlId (bindingIdOf controlId)

/-- Reverse lookup `getControlIdByBinding(bindingId)`: the first control whose
entry is `bindingId`, `null` (here `none`) when there is none. -/
def getControlIdByBinding : Registry → String → Option String
  | [], _ => none
  | (k, v) :: rest, bindingId =>
    if v = bindingId then some k else getControlIdByBinding rest bindingId

/-- Dictionaries reached from the empty one by calls of `bindControlToRange`. -/
inductive RegistryReachable : Registry → Prop where
  | empty : RegistryReachable []
  | bind (controlId rangeName : String) (reg : Registry) :
      RegistryReachable reg → RegistryReachable (bindControlToRange controlId rangeName reg)

/-- The kinds that the `switch` of `createField` names: the closed set of the
field kinds and the alias `dropdown`. -/
def switchKinds : List String :=
  ["text", "email", "number", "password", "textarea", "select", "dropdown", "checkbox",
    "radio", "button", "heading", "image", "date", "file", "color", "range"]

/-! ## Binding channel -/

/-- Call of the adapter `BM`, as recorded in the trace of a channel. -/
inductive AdapterCall where
  | write (address : String) (value : JsVal)
  | read (address : String)
  | ensureBinding (address : String)
  | subscribe (bindingId : String) (callback : Nat)
  | unsubscribe (bindingId : String)
  deriving DecidableEq, Repr

/-- The adapter as far as it is fixed for a session: whether it reports
readiness, and how the promise of `ensureBinding(address)` settles (with a
binding id, or rejected). -/
structure Adapter where
  isReady : Bool
  ensureBinding : String → Except String String

/-- The adapter `BindingShim` of the script: never ready, and
`ensureBinding(addr)` resolves to `addr || ''`. -/
def bindingShim : Adapter :=
  { isReady := false
    ensureBinding := fun addr => .ok addr }

/-- Modelled from the spec: `subscribe(bindingId, onChange)` of the External
Store Adapter, whose implementation is not in the sources.  At most one
subscription is active per binding id; subscribing again replaces the previous
one. -/
def adapterSubscribe (subs : List (String × Nat)) (bindingId : String) (callback : Nat) :
    List (String × Nat) :=
  subs.filter (fun s => decide (s.1 ≠ bindingId)) ++ [(bindingId, callback)]

/-- Modelled from the spec: `unsubscribe(bindingId)` of the External Store
Adapter, whose implementation is not in the sources: the subscription of that
binding id, if any, is cancelled. -/
def adapterUnsubscribe (subs : List (String × Nat)) (bindingId : String) :
    List (String × Nat) :=
  subs.filter (fun s => decide (s.1 ≠ bindingId))

/-- Binding channel of one field: the wrapper with its private properties, the
listeners on its control, the promises of `ensureBinding` still in flight, the
adapter's live subscriptions, and the trace of adapter calls.  A handler or
callback closure is named by a number. -/
structure Channel where
  wrapper : Field
  removed : Bool
  listeners : List (String × Nat)
  boundInput : Option (String × Nat)
  subscriptionId : Option String
  pending : List (Nat × String)
  subscriptions : List (String × Nat)
  nextClosure : Nat
  calls : List AdapterCall
  deriving DecidableEq, Repr

/-- Channel of a wrapper that `createField` has just built, before its first
`attachBindingHandlers`. -/
def newChannel (w : Field) : Channel :=
  { wrapper := w
    removed := false
    listeners := []
    boundInput := none
    subscriptionId := none
    pending := []
    subscriptions := []
    nextClosure := 0
    calls := [] }

/-- Event that `attachBindingHandlers` listens to on the control of a field:
`change` for a select, for an input of type checkbox, color, date, range or
file and for a radio field, `input` otherwise. -/
def bindingEventName (w : Field) : String :=
  let e1 : String :=
    match w.control with
    | .select _ _ => "change"
    | _ => "input"
  let e2 : String :=
    match w.control with
    | .input t _ _ _ _ _ =>
      if t ∈ ["checkbox", "color", "date", "range", "file"] then "change" else e1
    | _ => e1
  if w.type = "radio" then "change" else e2

/-- Teardown of a channel (`detachBindingHandlers`): the stored listener is
removed from the control and a stored, non-empty subscription id is
unsubscribed; the private properties are reset. -/
def detachBindingHandlers (ch : Channel) : Channel :=
  let listeners :=
    match ch.boundInput with
    | some l => ch.listeners.erase l
    | none => ch.listeners
  let unsub : Bool :=
    match ch.subscriptionId with
    | some id => decide (id ≠ "")
    | none => false
  { ch with
    listeners := listeners
    boundInput := none
    subscriptions :=
      if unsub then adapterUnsubscribe ch.subscriptions (ch.subscriptionId.getD "")
      else ch.subscriptions
    calls :=
      if unsub then ch.calls ++ [.unsubscribe (ch.subscriptionId.getD "")] else ch.calls
    subscriptionId := none }

/-- Synchronous part of `attachBindingHandlers`: the channel is torn down, a
new local-mutation handler is registered on the control and stored, and, when
the binding listens, has an address and the adapter is ready,
`ensureBinding(address)` is called; its promise stays in flight together with
the callback that its continuation will subscribe. -/
def attachBindingHandlers (A : Adapter) (ch : Channel) : Channel :=
  let ch1 := detachBindingHandlers ch
  let handler := ch1.nextClosure
  let eventName := bindingEventName ch1.wrapper
  let ch2 : Channel :=
    { ch1 with
      listeners := ch1.listeners ++ [(eventName, handler)]
      boundInput := some (eventName, handler)
      nextClosure := handler + 1 }
  match ch2.wrapper.meta.binding with
  | some b =>
    if b.listen = true ∧ b.address ≠ "" ∧ A.isReady = true then
      { ch2 with
        pending := ch2.pending ++ [(ch2.nextClosure, b.address)]
        nextClosure := ch2.nextClosure + 1
        calls := ch2.calls ++ [.ensureBinding b.address] }
    else ch2
  | none => ch2

/-- Settlement of the promise of index `k` among those in flight.  Fulfilled
with a binding id, its continuation stores the id in the wrapper and
subscribes the callback; rejected, it is swallowed by `.catch(()=>{})`. -/
def settlePending (A : Adapter) (k : Nat) (ch : Channel) : Channel :=
  match ch.pending[k]? with
  | none => ch
  | some (callback, address) =>
    match A.ensureBinding address with
    | .ok bindingId =>
      { ch with
        pending := ch.pending.eraseIdx k
        subscriptionId := some bindingId
        subscriptions := adapterSubscribe ch.subscriptions bindingId callback
        calls := ch.calls ++ [.subscribe bindingId callback] }
    | .error _ => { ch with pending := ch.pending.eraseIdx k }

/-- The local-mutation handler made by `attachBindingHandlers`, run on the
wrapper `w`; `outcome` is how `BM.write` ends (normally, or by throwing or
rejecting).  Result: the adapter calls made, and how the handler itself ends.
The `try` block around the write swallows a failure. -/
def mutationHandler (w : Field) (outcome : Except String Unit) :
    List AdapterCall × Except String Unit :=
  match w.meta.binding with
  | none => ([], .ok ())
  | some b =>
    if b.address = "" then ([], .ok ())
    else
      let val := getControlValue w
      ([.write b.address val],
        match outcome with
        | .ok _ => .ok ()
        | .error _ => .ok ())

/-- The change-notification callback subscribed by `attachBindingHandlers`,
run on the wrapper `w`; `outcome` is how `BM.read` ends (with a value, or by
throwing or rejecting).  Result: the wrapper afterwards, the adapter calls
made, and how the callback itself ends.  The whole body is inside a `try`
block, so a missing binding (a `TypeError` on `m.binding.address`) and a
failed read are swallowed. -/
def notificationCallback (w : Field) (outcome : Except String JsVal) :
    Field × List AdapterCall × Except String Unit :=
  match w.meta.binding with
  | none => (w, [], .ok ())
  | some b =>
    match outcome with
    | .ok v => (setControlValue w v, [.read b.address], .ok ())
    | .error _ => (w, [.read b.address], .ok ())

/-- Adapter calls made when the event `eventName` is dispatched to the given
listeners: every listener registered for that event runs the local-mutation
handler, in the order of registration. -/
def runListeners (eventName : String) (w : Field) (outcome : Except String Unit) :
    List (String × Nat) → List AdapterCall
  | [] => []
  | l :: rest =>
    (if l.1 = eventName then (mutationHandler w outcome).1 else []) ++
      runListeners eventName w outcome rest

/-- Dispatch of the event `eventName` on the control of the field. -/
def fireEvent (eventName : String) (outcome : Except String Unit) (ch : Channel) : Channel :=
  { ch with calls := ch.calls ++ runListeners eventName ch.wrapper outcome ch.listeners }

/-- Delivery by the adapter of a change notification for `bindingId`: the
callback subscribed for it, if any, runs. -/
def notify (bindingId : String) (outcome : Except String JsVal) (ch : Channel) : Channel :=
  match ch.subscriptions.find? (fun s => decide (s.1 = bindingId)) with
  | none => ch
  | some _ =>
    { ch with
      wrapper := (notificationCallback ch.wrapper outcome).1
      calls := ch.calls ++ (notificationCallback ch.wrapper outcome).2.1 }

/-- The binding of the field is edited in the settings panel. -/
def setBinding (b : Binding) (ch : Channel) : Channel :=
  { ch with wrapper := { ch.wrapper with meta := { ch.wrapper.meta with binding := some b } } }

/-- Click on the delete button: `detachBindingHandlers(selectedEl)`, then
`selectedEl.remove()`. -/
def deleteChannel (ch : Channel) : Channel :=
  { detachBindingHandlers ch with removed := true }

/-- One event in the life of a channel. -/
inductive ChannelStep where
  | attach
  | detach
  | settle (k : Nat)
  | setBinding (b : Binding)
  | fire (eventName : String) (outcome : Except String Unit)
  | notify (bindingId : String) (outcome : Except String JsVal)
  | delete

/-- Effect of one event on a channel served by the adapter `A`. -/
def ChannelStep.run (A : Adapter) : ChannelStep → Channel → Channel
  | .attach, ch => attachBindingHandlers A ch
  | .detach, ch => detachBindingHandlers ch
  | .settle k, ch => settlePending A k ch
  | .setBinding b, ch => FormDesigner.setBinding b ch
  | .fire e outcome, ch => fireEvent e outcome ch
  | .notify id outcome, ch => FormDesigner.notify id outcome ch
  | .delete, ch => deleteChannel ch

/-- Effect of a sequence of events, in order. -/
def runSteps (A : Adapter) : List ChannelStep → Channel → Channel
  | [], ch => ch
  | s :: rest, ch => runSteps A rest (s.run A ch)

/-- A channel at rest: no promise of `ensureBinding` is in flight, and the
adapter holds either no subscription or exactly the one whose non-empty id the
wrapper stores. -/
def Quiet (ch : Channel) : Prop :=
  ch.pending = [] ∧
  (ch.subscriptions = [] ∨
    ∃ id cb, id ≠ "" ∧ ch.subscriptionId = some id ∧ ch.subscriptions = [(id, cb)])

/-- The stored listener is the only listener on the control. -/
def SingleListener (ch : Channel) : Prop :=
  ch.listeners = ch.boundInput.toList

/-! ## Autosave -/

/-- Invocation of the debounced function that is due when a call arrives at
time `t`: the pending timeout, if its time has come. -/
def dueAt (timer : Option Nat) (t : Nat) : List Nat :=
  match timer with
  | some f => if f ≤ t then [f] else []
  | none => []

/-- Times at which the function wrapped by `debounce(fn, delay)` is invoked
when the wrapper is called at the given times, in order, and time then runs
on.  `timer` is the time at which the pending timeout fires, if one is
pending; each call clears it and sets a new one `delay` later. -/
def debounceInvocations (delay : Nat) : List Nat → Option Nat → List Nat
  | [], timer => timer.toList
  | t :: ts, timer => dueAt timer t ++ debounceInvocations delay ts (some (t + delay))

/-- Times at which `saveLayoutToExcel` is invoked for calls of
`autoSaveLayout` at the given times: `autoSaveLayout` is
`debounce(() => { saveLayoutToExcel(); }, 2000)`, with no timeout pending at
the start. -/
def autoSaveInvocations (calls : List Nat) : List Nat :=
  debounceInvocations 2000 calls none

/-! ## Sample channels -/

/-- An adapter that is ready and names the binding of an address by the
address. -/
def sampleAdapter : Adapter :=
  { isReady := true
    ensureBinding := fun addr => .ok addr }

/-- A checked checkbox bound to the address `Sheet1!B2`, listening. -/
def sampleCheckbox : Field :=
  { (createField false 1 0 0 "checkbox"
      { binding := some { address := "Sheet1!B2", listen := true } }).1 with
    control := .input "checkbox" "on" true [] "" false }

/-- An image field. -/
def sampleImage : Field := (createField false 1 0 0 "image" {}).1

/-- A field of a kind outside the closed set. -/
def sampleUnknownKind : Field := (createField false 1 0 0 "slider" {}).1

/-- The channel of the sample checkbox as `createField` leaves it: attached
once, with the promise of `ensureBinding` in flight. -/
def sampleChannel : Channel :=
  attachBindingHandlers sampleAdapter (newChannel sampleCheckbox)

/-- The address of the field is changed and the field attached again before
the promise of the first attach has settled; then both promises settle. -/
def sampleRaceSteps : List ChannelStep :=
  [.setBinding { address := "Sheet1!C3", listen := true }, .attach, .settle 0, .settle 0]

/-- The field is deleted before the promise of its attach has settled; then
the promise settles. -/
def sampleDeleteSteps : List ChannelStep :=
  [.delete, .settle 0]

/-! ## Arithmetic of spans -/

theorem clamp_int (s lo hi : Int) : clamp (.int s) lo hi = max lo (min hi s) := rfl

theorem clamp_bounds (v : JsNum) (c : Int) (hc : 1 ≤ c) :
    1 ≤ clamp v 1 c ∧ clamp v 1 c ≤ c := by
  unfold clamp; constructor <;> omega

theorem getCurrentColumns_pos (D : Design) : 1 ≤ getCurrentColumns D := by
  unfold getCurrentColumns; omega

theorem getCurrentColumns_congr (D E : Design) (h : D.columnsSelect = E.columnsSelect) :
    getCurrentColumns D = getCurrentColumns E := by
  unfold getCurrentColumns; rw [h]

theorem orInt_clamp (v : JsNum) (c : Int) (hc : 1 ≤ c) :
    orInt (some (clamp v 1 c)) 1 = clamp v 1 c := by
  have h := (clamp_bounds v c hc).1
  unfold orInt
  simp only
  rw [if_neg (by omega)]

theorem clamp_clamp (v : JsNum) (c : Int) (hc : 1 ≤ c) :
    clamp (.int (orInt (some (clamp v 1 c)) 1)) 1 c = clamp v 1 c := by
  rw [orInt_clamp v c hc, clamp_int]
  have h := clamp_bounds v c hc
  omega

theorem clamp_orInt_some (s c : Int) (hc : 1 ≤ c) :
    clamp (.int (orInt (some s) 1)) 1 c = min (max s 1) c := by
  rw [clamp_int]
  unfold orInt
  simp only
  split_ifs <;> omega

/-! ## Trimming -/


theorem trimChars_eq (l : List Char) :
    trimChars l = (l.dropWhile isJsWhiteSpace).rdropWhile isJsWhiteSpace := rfl

theorem dropWhile_rdropWhile_dropWhile (p : Char → Bool) (l : List Char) :
    ((l.dropWhile p).rdropWhile p).dropWhile p = (l.dropWhile p).rdropWhile p := by
  have hpre : (l.dropWhile p).rdropWhile p <+: l.dropWhile p := List.rdropWhile_prefix p _
  have hid : (l.dropWhile p).dropWhile p = l.dropWhile p := List.dropWhile_idempotent p _
  generalize l.dropWhile p = a at hpre hid
  generalize a.rdropWhile p = b at hpre
  cases b with
  | nil => rfl
  | cons x b' =>
    obtain ⟨t, ht⟩ := hpre
    subst ht
    have hx : ¬ p x = true := by
      intro hx
      have : ((x :: b') ++ t).dropWhile p = (b' ++ t).dropWhile p := by
        simp [List.dropWhile_cons, hx]
      rw [this] at hid
      have hlen := congrArg List.length hid
      have hle : ((b' ++ t).dropWhile p).length ≤ (b' ++ t).length :=
        (List.dropWhile_sublist p).length_le
      simp at hlen
      simp at hle
      omega
    simp [List.dropWhile_cons, hx]

theorem trimChars_idem (l : List Char) : trimChars (trimChars l) = trimChars l := by
  rw [trimChars_eq (trimChars l), trimChars_eq l, dropWhile_rdropWhile_dropWhile]
  exact List.rdropWhile_idempotent _ _

theorem jsTrim_idem (s : String) : jsTrim (jsTrim s) = jsTrim s := by
  simp [jsTrim, trimChars_idem]

theorem jsTrim_empty : jsTrim "" = "" := by decide


/-! ## The radio loop and the option list -/



/-! radio loop -/

theorem assignRadios_noMatch_cases (want : String) (l : List String) :
    ∀ (i : Nat) (st : Option Nat), (∀ t ∈ l, jsTrim t ≠ want) →
      assignRadios want l i st = st ∨ assignRadios want l i st = none := by
  induction l with
  | nil => intro i st _; left; rfl
  | cons t rest ih =>
    intro i st h
    have ht : jsTrim t ≠ want := h t (List.mem_cons_self _ _)
    have hrest : ∀ t' ∈ rest, jsTrim t' ≠ want := fun t' ht' => h t' (List.mem_cons_of_mem _ ht')
    simp only [assignRadios, if_neg ht]
    by_cases hst : st = some i
    · rw [if_pos hst]
      rcases ih (i + 1) none hrest with h1 | h1 <;> right <;> exact h1
    · rw [if_neg hst]
      exact ih (i + 1) st hrest

theorem assignRadios_noMatch_keep (want : String) (l : List String) :
    ∀ (i j : Nat), (∀ t ∈ l, jsTrim t ≠ want) → j < i →
      assignRadios want l i (some j) = some j := by
  induction l with
  | nil => intro i j _ _; rfl
  | cons t rest ih =>
    intro i j h hj
    have ht : jsTrim t ≠ want := h t (List.mem_cons_self _ _)
    have hrest : ∀ t' ∈ rest, jsTrim t' ≠ want := fun t' ht' => h t' (List.mem_cons_of_mem _ ht')
    have hne : ¬ (some j = some i) := by
      intro hji; injection hji with hji; omega
    simp only [assignRadios, if_neg ht, if_neg hne]
    exact ih (i + 1) j hrest (by omega)

theorem assignRadios_noMatch_unchecked (want : String) (l : List String) :
    ∀ (i : Nat) (st : Option Nat) (j : Nat), (∀ t ∈ l, jsTrim t ≠ want) →
      i ≤ j → j < i + l.length → assignRadios want l i st ≠ some j := by
  induction l with
  | nil => intro i st j _ h1 h2; simp at h2; omega
  | cons t rest ih =>
    intro i st j h h1 h2
    have ht : jsTrim t ≠ want := h t (List.mem_cons_self _ _)
    have hrest : ∀ t' ∈ rest, jsTrim t' ≠ want := fun t' ht' => h t' (List.mem_cons_of_mem _ ht')
    simp only [assignRadios, if_neg ht]
    simp only [List.length_cons] at h2
    by_cases hji : j = i
    · subst hji
      by_cases hst : st = some j
      · rw [if_pos hst]
        rcases assignRadios_noMatch_cases want rest (j + 1) none hrest with h3 | h3 <;>
          rw [h3] <;> simp
      · rw [if_neg hst]
        rcases assignRadios_noMatch_cases want rest (j + 1) st hrest with h3 | h3
        · rw [h3]; exact hst
        · rw [h3]; simp
    · exact ih (i + 1) _ j hrest (by omega) (by omega)

theorem assignRadios_match (want : String) (l : List String) :
    ∀ (i : Nat) (st : Option Nat), (∃ t ∈ l, jsTrim t = want) →
      ∃ k t, assignRadios want l i st = some (i + k) ∧ l[k]? = some t ∧ jsTrim t = want ∧
        ∀ k' t', k < k' → l[k']? = some t' → jsTrim t' ≠ want := by
  induction l with
  | nil => intro i st h; obtain ⟨t, ht, _⟩ := h; cases ht
  | cons t rest ih =>
    intro i st _
    by_cases hrest : ∃ t' ∈ rest, jsTrim t' = want
    · obtain ⟨k, t', h1, h2, h3, h4⟩ := ih (i + 1) (if jsTrim t = want then some i
        else if st = some i then none else st) hrest
      refine ⟨k + 1, t', ?_, ?_, h3, ?_⟩
      · simp only [assignRadios]; rw [h1]; congr 1; omega
      · simpa using h2
      · intro k' t'' hk hk'
        cases k' with
        | zero => omega
        | succ k'' =>
          simp only [List.getElem?_cons_succ] at hk'
          exact h4 k'' t'' (by omega) hk'
    · have hno : ∀ t' ∈ rest, jsTrim t' ≠ want := by
        intro t' ht' heq; exact hrest ⟨t', ht', heq⟩
      have ht : jsTrim t = want := by
        rename_i h
        obtain ⟨t0, ht0, heq⟩ := h
        rcases List.mem_cons.mp ht0 with h5 | h5
        · subst h5; exact heq
        · exact absurd heq (hno t0 h5)
      refine ⟨0, t, ?_, by simp, ht, ?_⟩
      · simp only [assignRadios, if_pos ht]
        exact assignRadios_noMatch_keep want rest (i + 1) i hno (by omega)
      · intro k' t'' hk hk'
        cases k' with
        | zero => omega
        | succ k'' =>
          simp only [List.getElem?_cons_succ] at hk'
          exact hno t'' (List.getElem?_mem hk')

/-! select -/

theorem firstIndexFrom_none (p : String → Bool) (l : List String) :
    ∀ i, (∀ o ∈ l, p o = false) → firstIndexFrom p l i = none := by
  induction l with
  | nil => intro i _; rfl
  | cons o os ih =>
    intro i h
    have ho : p o = false := h o (List.mem_cons_self _ _)
    simp only [firstIndexFrom, ho]
    exact ih (i + 1) (fun o' ho' => h o' (List.mem_cons_of_mem _ ho'))

theorem firstIndexFrom_some (p : String → Bool) (l : List String) :
    ∀ i, (∃ o ∈ l, p o = true) →
      ∃ k o, firstIndexFrom p l i = some (i + k) ∧ l[k]? = some o ∧ p o = true ∧
        ∀ k' o', k' < k → l[k']? = some o' → p o' = false := by
  induction l with
  | nil => intro i h; obtain ⟨o, ho, _⟩ := h; cases ho
  | cons o os ih =>
    intro i h
    by_cases ho : p o = true
    · refine ⟨0, o, by simp [firstIndexFrom, ho], by simp, ho, ?_⟩
      intro k' o' hk; omega
    · have ho' : p o = false := by simpa using ho
      have hos : ∃ o1 ∈ os, p o1 = true := by
        obtain ⟨o1, h1, h2⟩ := h
        rcases List.mem_cons.mp h1 with h3 | h3
        · subst h3; exact absurd h2 ho
        · exact ⟨o1, h3, h2⟩
      obtain ⟨k, o2, h1, h2, h3, h4⟩ := ih (i + 1) hos
      refine ⟨k + 1, o2, ?_, by simpa using h2, h3, ?_⟩
      · simp only [firstIndexFrom, ho']
        rw [h1]; simp; omega
      · intro k' o3 hk hk'
        cases k' with
        | zero => simp at hk'; subst hk'; exact ho'
        | succ k'' =>
          simp only [List.getElem?_cons_succ] at hk'
          exact h4 k'' o3 (by omega) hk'

theorem selectValue_selectByValue (l : List String) (x : String)
    (h : ∃ o ∈ l, optionValue o = x) : selectValue l (selectByValue l x) = x := by
  have h' : ∃ o ∈ l, (fun o => decide (optionValue o = x)) o = true := by
    obtain ⟨o, ho, hx⟩ := h; exact ⟨o, ho, by simp [hx]⟩
  obtain ⟨k, o, h1, h2, h3, _⟩ := firstIndexFrom_some _ l 0 h'
  simp only [selectByValue, h1, selectValue, Nat.zero_add, h2]
  simpa using h3

theorem selectByValue_none (l : List String) (x : String)
    (h : ∀ o ∈ l, optionValue o ≠ x) : selectByValue l x = none := by
  apply firstIndexFrom_none
  intro o ho; simp [h o ho]



theorem radioValue_trim (labels : List String) (checked : Option Nat) :
    jsTrim (radioValue labels checked) = radioValue labels checked := by
  unfold radioValue
  cases checked with
  | none => exact jsTrim_empty
  | some i =>
    simp only
    cases labels[i]? with
    | none => exact jsTrim_empty
    | some text =>
      simp only
      split_ifs
      · exact jsTrim_empty
      · exact jsTrim_idem text

theorem radio_roundtrip (labels : List String) (checked : Option Nat) :
    radioValue labels
      (assignRadios (jsTrim (radioValue labels checked)) labels 0 checked) =
      radioValue labels checked := by
  rw [radioValue_trim]
  by_cases hm : ∃ t ∈ labels, jsTrim t = radioValue labels checked
  · obtain ⟨k, t, h1, h2, h3, _⟩ := assignRadios_match _ labels 0 checked hm
    rw [h1]
    simp only [Nat.zero_add]
    conv_lhs => unfold radioValue
    simp only [h2]
    split_ifs with ht
    · rw [← h3, ht]; exact jsTrim_empty.symm
    · exact h3
  · have hno : ∀ t ∈ labels, jsTrim t ≠ radioValue labels checked := by
      intro t ht heq; exact hm ⟨t, ht, heq⟩
    have hx : radioValue labels checked = "" := by
      unfold radioValue
      cases checked with
      | none => rfl
      | some i =>
        simp only
        cases hl : labels[i]? with
        | none => rfl
        | some text =>
          simp only
          split_ifs with ht
          · rfl
          · exfalso
            apply hno text (List.getElem?_mem hl)
            unfold radioValue
            simp only [hl, if_neg ht]
    rw [hx]
    have hno' : ∀ t ∈ labels, jsTrim t ≠ "" := by rw [hx] at hno; exact hno
    cases hr : assignRadios "" labels 0 checked with
    | none => rfl
    | some j =>
      unfold radioValue
      simp only
      cases hl : labels[j]? with
      | none => rfl
      | some text =>
        exfalso
        have hj : j < labels.length := by
          rw [List.getElem?_eq_some] at hl; exact hl.1
        exact assignRadios_noMatch_unchecked "" labels 0 checked j hno' (by omega) (by omega) hr

theorem optionValue_empty : optionValue "" = "" := by decide

theorem select_roundtrip (options : List String) (selected : Option Nat) :
    let x := selectValue options selected
    let found := options.any fun o =>
      (JsVal.str x).strictEqStr (optionValue o) || (JsVal.str x).strictEqStr (optionText o)
    let options1 := if !found && (JsVal.str x).notNullish then options ++ [(JsVal.str x).toStr] else options
    selectValue options1 (selectByValue options1 (JsVal.str x).orEmpty.toStr) = x := by
  intro x found options1
  apply selectValue_selectByValue
  by_cases hf : found = true
  · have : options1 = options := by simp [options1, hf]
    rw [this]
    simp only [found, List.any_eq_true] at hf
    obtain ⟨o, ho, h⟩ := hf
    refine ⟨o, ho, ?_⟩
    simp [JsVal.strictEqStr, optionValue] at h
    simpa [JsVal.orEmpty, JsVal.toStr, optionValue] using h
  · have hf' : found = false := by simpa using hf
    by_cases hx : ∃ o ∈ options, optionValue o = x
    · exfalso
      obtain ⟨o, ho, h⟩ := hx
      apply hf
      simp only [found, List.any_eq_true]
      exact ⟨o, ho, by simp [JsVal.strictEqStr, h]⟩
    · have hx0 : x = "" := by
        show selectValue options selected = ""
        unfold selectValue
        cases selected with
        | none => rfl
        | some i =>
          simp only
          cases hl : options[i]? with
          | none => rfl
          | some o =>
            exfalso
            apply hx
            refine ⟨o, List.getElem?_mem hl, ?_⟩
            show optionValue o = selectValue options (some i)
            simp [selectValue, hl]
      refine ⟨"", ?_, ?_⟩
      · simp [options1, hf', JsVal.notNullish, JsVal.toStr, hx0]
      · simp [JsVal.orEmpty, JsVal.toStr, hx0, optionValue_empty]


/-! ## Value codec -/


theorem lower_TRUE : jsToLowerCase "TRUE" = "true" := by decide
theorem lower_FALSE : jsToLowerCase "FALSE" = "false" := by decide

theorem roundtrip_checkbox (w : Field) (v : String) (c : Bool) (fs : List String)
    (ph : String) (rq : Bool) (hc : w.control = .input "checkbox" v c fs ph rq) :
    getControlValue (setControlValue w (getControlValue w)) = getControlValue w := by
  cases c <;>
    simp [getControlValue, setControlValue, hc, JsVal.truthyOrEmpty, JsVal.toStr,
      lower_TRUE, lower_FALSE]

theorem roundtrip_textarea (w : Field) (v ph : String) (rq : Bool)
    (hc : w.control = .textarea v ph rq) :
    getControlValue (setControlValue w (getControlValue w)) = getControlValue w := by
  simp [getControlValue, setControlValue, hc, JsVal.orEmpty, JsVal.toStr]

theorem roundtrip_select (w : Field) (options : List String) (selected : Option Nat)
    (hc : w.control = .select options selected) :
    getControlValue (setControlValue w (getControlValue w)) = getControlValue w := by
  have h := select_roundtrip options selected
  simp only [getControlValue, setControlValue, hc]
  exact congrArg JsVal.str h

theorem roundtrip_radio (w : Field) (labels : List String) (checked : Option Nat)
    (ht : w.type = "radio") (hc : w.control = .radioGroup labels checked) :
    getControlValue (setControlValue w (getControlValue w)) = getControlValue w := by
  have h := radio_roundtrip labels checked
  simp only [getControlValue, setControlValue, hc, getControlValueByKind, setControlValueByKind,
    ht, if_true, JsVal.orEmpty, JsVal.toStr]
  exact congrArg JsVal.str h

/-! ## Column change -/

theorem applyLayoutColumns_columnsSelect (D : Design) :
    (applyLayoutColumns D).columnsSelect = D.columnsSelect := by
  unfold applyLayoutColumns; split_ifs <;> rfl

theorem applyLayoutColumns_isFreeMode (D : Design) :
    (applyLayoutColumns D).isFreeMode = D.isFreeMode := by
  unfold applyLayoutColumns; split_ifs <;> rfl

theorem applyLayoutColumns_layoutMode (D : Design) :
    (applyLayoutColumns D).layoutMode = D.layoutMode := by
  unfold applyLayoutColumns; split_ifs <;> rfl

theorem applyMetaStyle_meta (w : Field) : (applyMetaStyle w).meta = w.meta := by
  unfold applyMetaStyle; split_ifs <;> rfl

theorem applyMetaStyle_type (w : Field) : (applyMetaStyle w).type = w.type := by
  unfold applyMetaStyle; split_ifs <;> rfl

theorem applyMetaStyle_left (w : Field) : (applyMetaStyle w).style.left = w.style.left := by
  unfold applyMetaStyle; split_ifs <;> rfl

theorem applyMetaStyle_top (w : Field) : (applyMetaStyle w).style.top = w.style.top := by
  unfold applyMetaStyle; split_ifs <;> rfl

theorem applyMetaStyle_position (w : Field) :
    (applyMetaStyle w).style.position = w.style.position := by
  unfold applyMetaStyle; split_ifs <;> rfl

theorem applyMetaStyle_gridColumn (w : Field) :
    (applyMetaStyle w).style.gridColumn = w.style.gridColumn := by
  unfold applyMetaStyle; split_ifs <;> rfl

theorem applyMeta_free (c : Int) (w : Field) :
    applyMetaToElement true c w = applyMetaStyle (applyMetaText w) := rfl

theorem applyMeta_flow (c : Int) (w : Field) :
    applyMetaToElement false c w = applySpan c (applyMetaStyle (applyMetaText w)) := rfl

theorem applyMeta_meta_free (c : Int) (w : Field) :
    (applyMetaToElement true c w).meta = w.meta := by
  rw [applyMeta_free, applyMetaStyle_meta]; rfl

theorem applyMeta_meta_flow (c : Int) (w : Field) :
    (applyMetaToElement false c w).meta =
      { w.meta with colSpan := some (clamp (.int (orInt w.meta.colSpan 1)) 1 c) } := by
  rw [applyMeta_flow]
  unfold applySpan
  simp only [applyMetaStyle_meta]
  rfl

theorem applyMeta_colSpan (b : Bool) (c : Int) (w : Field) :
    (applyMetaToElement b c w).meta.colSpan =
      if b then w.meta.colSpan else some (clamp (.int (orInt w.meta.colSpan 1)) 1 c) := by
  cases b
  · rw [applyMeta_meta_flow]; rfl
  · rw [applyMeta_meta_free]; rfl

theorem columnsChange_field_colSpan (v : String) (D : Design) (el : Field) (S : Int)
    (hS : el.meta.colSpan = some S) :
    ∀ el1 ∈ [el, applySpan (getCurrentColumns { D with columnsSelect := v }) el],
      (applyMetaToElement D.isFreeMode (getCurrentColumns { D with columnsSelect := v })
        { el1 with meta :=
            { el1.meta with
              colSpan := some (clamp (.int (orInt el1.meta.colSpan 1)) 1
                (getCurrentColumns { D with columnsSelect := v })) } }).meta.colSpan =
      some (min (max S 1) (getCurrentColumns { D with columnsSelect := v })) := by
  have hc := getCurrentColumns_pos { D with columnsSelect := v }
  generalize getCurrentColumns { D with columnsSelect := v } = c at hc
  intro el1 hel1
  simp only [List.mem_cons, List.mem_singleton, List.not_mem_nil, or_false] at hel1
  rw [applyMeta_colSpan]
  have key : clamp (.int (orInt el1.meta.colSpan 1)) 1 c = min (max S 1) c := by
    rcases hel1 with h | h
    · rw [h, hS]; exact clamp_orInt_some S c hc
    · rw [h]
      show clamp (.int (orInt (some (clamp (.int (orInt el.meta.colSpan 1)) 1 c)) 1)) 1 c = _
      rw [clamp_clamp _ c hc, hS]; exact clamp_orInt_some S c hc
  cases D.isFreeMode
  · simp only [Bool.false_eq_true, if_false]
    rw [key, ← key, clamp_clamp _ c hc]
  · simp only [if_true]
    rw [key]

/-- C7. After the handler of a column-count change has run, the column count
`C` in force is at least 1 and every field whose span was `S` carries
`colSpan = min (max S 1) C`; and `clamp S 1 C`, as the handler calls it, equals
`min (max S 1) C` for every span `S` and every `C ≥ 1`. -/
theorem columnsChange_colSpan (v : String) (D : Design) (i : Nat) (S : Int)
    (hS : (D.fields[i]?).bind (fun f => f.meta.colSpan) = some S) :
    1 ≤ getCurrentColumns (columnsChange v D) ∧
    ((columnsChange v D).fields[i]?).bind (fun f => f.meta.colSpan) =
      some (min (max S 1) (getCurrentColumns (columnsChange v D))) ∧
    ∀ (S1 C1 : Int), 1 ≤ C1 → clamp (.int S1) 1 C1 = min (max S1 1) C1 := by
  refine ⟨getCurrentColumns_pos _, ?_, ?_⟩
  · cases hf : D.fields[i]? with
    | none => rw [hf] at hS; cases hS
    | some el =>
      rw [hf] at hS
      have hS' : el.meta.colSpan = some S := hS
      have hcols : getCurrentColumns (columnsChange v D) =
          getCurrentColumns { D with columnsSelect := v } := by
        apply getCurrentColumns_congr
        show (applyLayoutColumns { D with columnsSelect := v }).columnsSelect = v
        rw [applyLayoutColumns_columnsSelect]
      have hcols1 : getCurrentColumns (applyLayoutColumns { D with columnsSelect := v }) =
          getCurrentColumns { D with columnsSelect := v } := by
        apply getCurrentColumns_congr
        rw [applyLayoutColumns_columnsSelect]
      have hfree : (applyLayoutColumns { D with columnsSelect := v }).isFreeMode = D.isFreeMode := by
        rw [applyLayoutColumns_isFreeMode]
      have key := columnsChange_field_colSpan v D el S hS'
      rw [hcols]
      unfold columnsChange
      simp only [List.getElem?_map, hcols1, hfree]
      unfold applyLayoutColumns
      split_ifs with hflow
      · simp only [hf, Option.map_some', Option.some_bind]
        exact key el (by simp)
      · simp only [List.getElem?_map, hf, Option.map_some', Option.some_bind]
        exact key _ (by simp)
  · intro S1 C1 h1
    rw [clamp_int]; omega

/-- Witness of C7: the heading of the start state has span 2 under two
columns; after the change to one column its span is 1. -/
theorem columnsChange_colSpan_witness :
    ((initial samplePage 0).fields[0]?).bind (fun f => f.meta.colSpan) = some 2 ∧
    ((columnsChange "1" (initial samplePage 0)).fields[0]?).bind (fun f => f.meta.colSpan) =
      some (min (max 2 1) (getCurrentColumns (columnsChange "1" (initial samplePage 0)))) :=
  ⟨by decide, (columnsChange_colSpan "1" (initial samplePage 0) 0 2 (by decide)).2.1⟩

/-! ## Radio and select decode -/

/-- Counterexample to C9 as stated: the value C matches neither label of a
radio field with the options A and B, yet decoding it clears the checked radio
of A. -/
theorem setControlValue_radio_noMatch_clears :
    sampleRadio.control = .radioGroup [" A", " B"] (some 0) ∧
    (∀ t ∈ [" A", " B"], jsTrim t ≠ jsTrim (JsVal.str "C").orEmpty.toStr) ∧
    (setControlValue sampleRadio (.str "C")).control = .radioGroup [" A", " B"] none := by
  decide

/-- C9, amended. For a radio field, `setControlValue` keeps the labels; when
the trimmed value equals no trimmed label text, no radio is checked afterwards;
when some trimmed label text equals it, the last such radio is the checked
one. -/
theorem setControlValue_radio (w : Field) (labels : List String) (checked : Option Nat)
    (value : JsVal) (ht : w.type = "radio") (hc : w.control = .radioGroup labels checked) :
    ∃ checked1, (setControlValue w value).control = .radioGroup labels checked1 ∧
      ((∀ t ∈ labels, jsTrim t ≠ jsTrim value.orEmpty.toStr) →
        ∀ j, j < labels.length → checked1 ≠ some j) ∧
      ((∃ t ∈ labels, jsTrim t = jsTrim value.orEmpty.toStr) →
        ∃ k t, checked1 = some k ∧ labels[k]? = some t ∧
          jsTrim t = jsTrim value.orEmpty.toStr ∧
          ∀ k1 t1, k < k1 → labels[k1]? = some t1 →
            jsTrim t1 ≠ jsTrim value.orEmpty.toStr) := by
  refine ⟨assignRadios (jsTrim value.orEmpty.toStr) labels 0 checked, ?_, ?_, ?_⟩
  · simp only [setControlValue, hc, setControlValueByKind, ht, if_true]
  · intro hno j hj
    exact assignRadios_noMatch_unchecked _ labels 0 checked j hno (by omega) (by omega)
  · intro hm
    obtain ⟨k, t, h1, h2, h3, h4⟩ := assignRadios_match _ labels 0 checked hm
    exact ⟨k, t, by simpa using h1, h2, h3, h4⟩

/-- Witness of C9 amended: decoding B into the sample radio field. -/
theorem setControlValue_radio_witness :
    sampleRadio.type = "radio" ∧ sampleRadio.control = .radioGroup [" A", " B"] (some 0) ∧
    ∃ checked1, (setControlValue sampleRadio (.str "B")).control =
        .radioGroup [" A", " B"] checked1 ∧
      ((∀ t ∈ [" A", " B"], jsTrim t ≠ jsTrim (JsVal.str "B").orEmpty.toStr) →
        ∀ j, j < [" A", " B"].length → checked1 ≠ some j) ∧
      ((∃ t ∈ [" A", " B"], jsTrim t = jsTrim (JsVal.str "B").orEmpty.toStr) →
        ∃ k t, checked1 = some k ∧ [" A", " B"][k]? = some t ∧
          jsTrim t = jsTrim (JsVal.str "B").orEmpty.toStr ∧
          ∀ k1 t1, k < k1 → [" A", " B"][k1]? = some t1 →
            jsTrim t1 ≠ jsTrim (JsVal.str "B").orEmpty.toStr) :=
  ⟨by decide, by decide,
    setControlValue_radio sampleRadio [" A", " B"] (some 0) (.str "B") (by decide) (by decide)⟩

/-- C10, evaluation at the failing input. The select field has the single
option Silver, selected; the value `"Gold "` (with a trailing space) matches no
option.  After `setControlValue` the option list has gained an option with that
text, but no option is selected and the control's value is empty: the value of
the new option is its collapsed text `"Gold"`, which differs from the value
assigned to the control. -/
theorem setControlValue_select_insert_unselected :
    sampleSelect.control = .select ["Silver"] (some 0) ∧
    (setControlValue sampleSelect (.str "Gold ")).control = .select ["Silver", "Gold "] none ∧
    getControlValue (setControlValue sampleSelect (.str "Gold ")) = .str "" ∧
    (setControlValue (setControlValue sampleSelect (.str "Gold ")) (.str "Gold ")).control =
      .select ["Silver", "Gold ", "Gold "] none := by
  decide

/-- Decode into a select of a string that equals its own collapsed form: when
it matches no option, exactly one option with that text is appended after the
existing ones and the control's value becomes the string; when it matches an
option, the options are unchanged and the control's value is the string. -/
theorem setControlValue_select_normalised (w : Field) (options : List String)
    (selected : Option Nat) (v : String) (hc : w.control = .select options selected)
    (hv : optionValue v = v) :
    ((∀ o ∈ options, optionValue o ≠ v) →
      ∃ sel, (setControlValue w (.str v)).control = .select (options ++ [v]) sel ∧
        getControlValue (setControlValue w (.str v)) = .str v) ∧
    ((∃ o ∈ options, optionValue o = v) →
      ∃ sel, (setControlValue w (.str v)).control = .select options sel ∧
        getControlValue (setControlValue w (.str v)) = .str v) := by
  constructor
  · intro hno
    have hfound : (options.any fun o =>
        (JsVal.str v).strictEqStr (optionValue o) || (JsVal.str v).strictEqStr (optionText o))
        = false := by
      rw [List.any_eq_false]
      intro o ho
      have := hno o ho
      simp [JsVal.strictEqStr, optionValue] at this ⊢
      exact this
    refine ⟨selectByValue (options ++ [v]) v, ?_, ?_⟩
    · simp [setControlValue, hc, hfound, JsVal.notNullish, JsVal.toStr, JsVal.orEmpty]
    · simp only [getControlValue, setControlValue, hc, hfound, JsVal.notNullish, JsVal.toStr,
        JsVal.orEmpty, Bool.not_false, Bool.and_self, if_true]
      congr 1
      apply selectValue_selectByValue
      exact ⟨v, by simp, hv⟩
  · intro hm
    have hfound : (options.any fun o =>
        (JsVal.str v).strictEqStr (optionValue o) || (JsVal.str v).strictEqStr (optionText o))
        = true := by
      rw [List.any_eq_true]
      obtain ⟨o, ho, h⟩ := hm
      exact ⟨o, ho, by simp [JsVal.strictEqStr, h]⟩
    refine ⟨selectByValue options v, ?_, ?_⟩
    · simp [setControlValue, hc, hfound, JsVal.toStr, JsVal.orEmpty]
    · simp only [getControlValue, setControlValue, hc, hfound, JsVal.toStr,
        JsVal.orEmpty, Bool.not_true, Bool.false_and, Bool.false_eq_true, if_false]
      congr 1
      exact selectValue_selectByValue _ _ hm

/-- C8. For every field of a kind with a codec other than file, whose control
is the element `createField` builds for that kind, in any state: decoding the
value read from the control and reading again returns the same value. -/
theorem getControlValue_setControlValue_roundtrip (w : Field) (hk : w.type ∈ codecKinds)
    (hs : wellShaped w = true) :
    getControlValue (setControlValue w (getControlValue w)) = getControlValue w := by
  obtain ⟨type, dataId, meta, labelText, control, style⟩ := w
  simp only [codecKinds, List.mem_cons, List.mem_singleton, List.not_mem_nil, or_false] at hk
  rcases hk with h | h | h | h | h | h | h | h | h | h | h <;> subst h <;>
    cases control <;> simp [wellShaped, newControl, sameShape, buildSelect, buildRadio] at hs
  all_goals first
    | (subst hs; exact roundtrip_checkbox _ _ _ _ _ _ rfl)
    | (subst hs; simp [getControlValue, setControlValue, JsVal.orEmpty, JsVal.toStr])
    | exact roundtrip_textarea _ _ _ _ rfl
    | exact roundtrip_select _ _ _ rfl
    | exact roundtrip_radio _ _ _ rfl rfl

/-- Witness of C8 on the sample radio field. -/
theorem getControlValue_setControlValue_roundtrip_witness :
    sampleRadio.type ∈ codecKinds ∧ wellShaped sampleRadio = true ∧
    getControlValue (setControlValue sampleRadio (getControlValue sampleRadio)) =
      getControlValue sampleRadio :=
  ⟨by decide, by decide,
    getControlValue_setControlValue_roundtrip sampleRadio (by decide) (by decide)⟩

/-! ## Import -/

theorem loadFromJson_accepted (css : String → Option String) (now : Nat → Nat) (obj : Doc)
    (g : Global) (D : Design) (hg : obj.global = some g) (ht : obj.throwing = none) :
    loadFromJson css now (some obj) D =
      (loadAccepted css now g (obj.nodes.getD []) D, false) := by
  simp only [loadFromJson, hg, ht]
  cases obj.nodes <;> rfl

theorem loadFromJson_noNodes (css : String → Option String) (now : Nat → Nat) (obj : Doc)
    (g : Global) (D : Design) (hg : obj.global = some g) (hn : obj.nodes = none) :
    loadFromJson css now (some obj) D = (loadAccepted css now g [] D, false) := by
  simp only [loadFromJson, hg, hn]
  rfl

theorem loadFromJson_throwing (css : String → Option String) (now : Nat → Nat) (obj : Doc)
    (g : Global) (ns : List Node) (bump : Bool) (D : Design) (hg : obj.global = some g)
    (hns : obj.nodes = some ns) (ht : obj.throwing = some bump) :
    loadFromJson css now (some obj) D = (loadPartial css now g ns bump D, true) := by
  simp only [loadFromJson, hg, hns, ht]

theorem loadPartial_cols (css : String → Option String) (now : Nat → Nat) (g : Global)
    (ns : List Node) (bump : Bool) (D : Design) :
    getCurrentColumns (loadPartial css now g ns bump D) = getCurrentColumns (applyGlobal g D) :=
  getCurrentColumns_congr _ _ rfl

theorem loadPartial_fields (css : String → Option String) (now : Nat → Nat) (g : Global)
    (ns : List Node) (bump : Bool) (D : Design) :
    (loadPartial css now g ns bump D).fields =
      (loadNodes css D.isFreeMode (getCurrentColumns (applyGlobal g D)) g.layout now ns 0
        D.idCounter).1 := rfl

theorem loadAccepted_columnsSelect (css : String → Option String)
    (now : Nat → Nat) (g : Global) (ns : List Node) (D : Design) :
    (loadAccepted css now g ns D).columnsSelect = orStr g.columns "1" := by
  unfold loadAccepted
  simp only
  split_ifs
  · rfl
  · rw [applyLayoutColumns_columnsSelect]; rfl

theorem loadAccepted_layoutMode (css : String → Option String)
    (now : Nat → Nat) (g : Global) (ns : List Node) (D : Design) :
    (loadAccepted css now g ns D).layoutMode = orStr g.layout "flow" := by
  unfold loadAccepted
  simp only
  split_ifs
  · rfl
  · rw [applyLayoutColumns_layoutMode]; rfl

theorem loadAccepted_cols (css : String → Option String)
    (now : Nat → Nat) (g : Global) (ns : List Node) (D : Design) :
    getCurrentColumns (loadAccepted css now g ns D) = getCurrentColumns (applyGlobal g D) :=
  getCurrentColumns_congr _ _ (loadAccepted_columnsSelect css now g ns D)

theorem loadAccepted_fields (css : String → Option String)
    (now : Nat → Nat) (g : Global) (ns : List Node) (D : Design) :
    (loadAccepted css now g ns D).fields =
      if orStr g.layout "flow" = "flow" then
        (loadNodes css D.isFreeMode (getCurrentColumns (applyGlobal g D)) g.layout now ns 0
          D.idCounter).1.map (applySpan (getCurrentColumns (applyGlobal g D)))
      else
        (loadNodes css D.isFreeMode (getCurrentColumns (applyGlobal g D)) g.layout now ns 0
          D.idCounter).1 := by
  unfold loadAccepted
  simp only
  by_cases hfree : orStr g.layout "flow" = "free"
  · have hnf : ¬ orStr g.layout "flow" = "flow" := by rw [hfree]; decide
    have h1 : (applyGlobal g D).layoutMode = "free" := hfree
    simp only [h1, decide_True, if_true, if_neg hnf]
    rfl
  · have h1 : ¬ (applyGlobal g D).layoutMode = "free" := hfree
    simp only [h1, decide_False, Bool.false_eq_true, if_false]
    unfold applyLayoutColumns
    by_cases hflow : orStr g.layout "flow" = "flow"
    · have h2 : (applyGlobal g D).layoutMode = "flow" := hflow
      simp only [h2, ne_eq, not_true_eq_false, if_false, if_pos hflow]
      congr 1
    · have h2 : ¬ (applyGlobal g D).layoutMode = "flow" := hflow
      simp only [h2, ne_eq, not_false_eq_true, if_true, if_neg hflow]
      rfl

theorem loadNodes_getElem (css : String → Option String)
    (b : Bool) (c : Int) (lay : Option String) (now : Nat → Nat)
    (ns : List Node) :
    ∀ (k idc i : Nat) (n : Node), ns[i]? = some n →
      ∃ idc1, (loadNodes css b c lay now ns k idc).1[i]? =
        some (loadNode css b c lay (now (k + i)) idc1 n).1 := by
  induction ns with
  | nil => intro k idc i n h; simp at h
  | cons m ms ih =>
    intro k idc i n h
    cases i with
    | zero =>
      simp only [List.getElem?_cons_zero, Option.some.injEq] at h
      subst h
      exact ⟨idc, by simp [loadNodes]⟩
    | succ j =>
      simp only [List.getElem?_cons_succ] at h
      obtain ⟨idc1, h1⟩ := ih (k + 1) (loadNode css b c lay (now k) idc m).2 j n h
      refine ⟨idc1, ?_⟩
      simp only [loadNodes, List.getElem?_cons_succ]
      rw [h1]
      congr 4
      omega

theorem loadNodes_mem (css : String → Option String)
    (b : Bool) (c : Int) (lay : Option String) (now : Nat → Nat)
    (ns : List Node) :
    ∀ (k idc : Nat) (f : Field), f ∈ (loadNodes css b c lay now ns k idc).1 →
      ∃ n ∈ ns, ∃ t idc1, f = (loadNode css b c lay t idc1 n).1 := by
  induction ns with
  | nil => intro k idc f h; simp [loadNodes] at h
  | cons m ms ih =>
    intro k idc f h
    simp only [loadNodes, List.mem_cons] at h
    rcases h with h | h
    · exact ⟨m, List.mem_cons_self _ _, now k, idc, h⟩
    · obtain ⟨n, hn, t, idc1, hf⟩ := ih _ _ f h
      exact ⟨n, List.mem_cons_of_mem _ hn, t, idc1, hf⟩

theorem loadNodes_length (css : String → Option String)
    (b : Bool) (c : Int) (lay : Option String) (now : Nat → Nat)
    (ns : List Node) :
    ∀ (k idc : Nat), (loadNodes css b c lay now ns k idc).1.length = ns.length := by
  induction ns with
  | nil => intro k idc; rfl
  | cons m ms ih => intro k idc; simp [loadNodes, ih]

theorem orInt_orElse_one (x : Option Int) : orInt (x <|> some 1) 1 = orInt x 1 := by
  cases x with
  | none => rfl
  | some v => rfl

theorem createField_meta (b : Bool) (c : Int) (now idc : Nat) (type : String) (data : Meta) :
    (createField b c now idc type data).1.meta =
      (applyMetaToElement b c
        { type := type
          dataId := if (!truthyStr data.id) = true then
              genId now type (if (!truthyStr data.id) = true then idc + 1 else idc)
            else data.id.getD ""
          meta := (defaultMeta (if (!truthyStr data.id) = true then
              genId now type (if (!truthyStr data.id) = true then idc + 1 else idc)
            else data.id.getD "") type).assign data
          labelText := ""
          control := .image ""
          style := {} }).meta := by
  cases b
  · simp only [createField, applyMeta_meta_flow]
  · simp only [createField, applyMeta_meta_free]

theorem createField_colSpan (b : Bool) (c : Int) (now idc : Nat) (type : String) (data : Meta) :
    (createField b c now idc type data).1.meta.colSpan =
      if b then (data.colSpan <|> some 1)
      else some (clamp (.int (orInt data.colSpan 1)) 1 c) := by
  rw [createField_meta, applyMeta_colSpan]
  cases b
  · simp only [Bool.false_eq_true, if_false]
    show some (clamp (.int (orInt (data.colSpan <|> some 1) 1)) 1 c) = _
    rw [orInt_orElse_one]
  · rfl

theorem loadNode_meta (css : String → Option String)
    (b : Bool) (c : Int) (lay : Option String) (now idc : Nat) (n : Node) :
    (loadNode css b c lay now idc n).1.meta =
      (createField b c now idc n.type ((shimSpan n.meta).getD {})).1.meta := by
  unfold loadNode
  simp only
  split_ifs <;> rfl

theorem loadFromJson_cols (css : String → Option String) (now : Nat → Nat) (obj : Doc)
    (g : Global) (D : Design) (hg : obj.global = some g) :
    getCurrentColumns (loadFromJson css now (some obj) D).1 =
      getCurrentColumns (applyGlobal g D) := by
  cases hns : obj.nodes with
  | none =>
    rw [loadFromJson_noNodes css now obj g D hg hns]
    exact loadAccepted_cols css now g [] D
  | some ns =>
    cases ht : obj.throwing with
    | none =>
      rw [loadFromJson_accepted css now obj g D hg ht, hns]
      exact loadAccepted_cols css now g _ D
    | some bump =>
      rw [loadFromJson_throwing css now obj g ns bump D hg hns ht]
      exact loadPartial_cols css now g ns bump D

/-- Field built for the node of index `i` of an imported document: the field
that the loop body builds, laid out by `applyLayoutColumns` when the import
completes in flow layout. -/
theorem loadFromJson_getElem (css : String → Option String) (now : Nat → Nat) (obj : Doc)
    (g : Global) (ns : List Node) (D : Design) (i : Nat) (n : Node)
    (hg : obj.global = some g) (hns : obj.nodes = some ns) (hi : ns[i]? = some n) :
    ∃ idc1,
      (loadFromJson css now (some obj) D).1.fields[i]? =
        some
          (if obj.throwing = none ∧ orStr g.layout "flow" = "flow" then
            applySpan (getCurrentColumns (applyGlobal g D))
              (loadNode css D.isFreeMode (getCurrentColumns (applyGlobal g D)) g.layout
                (now (0 + i)) idc1 n).1
          else
            (loadNode css D.isFreeMode (getCurrentColumns (applyGlobal g D)) g.layout
              (now (0 + i)) idc1 n).1) := by
  obtain ⟨idc1, hf⟩ := loadNodes_getElem css D.isFreeMode (getCurrentColumns (applyGlobal g D))
    g.layout now ns 0 D.idCounter i n hi
  refine ⟨idc1, ?_⟩
  cases ht : obj.throwing with
  | none =>
    rw [loadFromJson_accepted css now obj g D hg ht, hns]
    simp only [Option.getD_some, true_and]
    rw [loadAccepted_fields]
    split_ifs
    · simp only [List.getElem?_map, hf, Option.map_some']
    · exact hf
  | some bump =>
    rw [loadFromJson_throwing css now obj g ns bump D hg hns ht, loadPartial_fields]
    rw [if_neg (fun h => Option.noConfusion h.1)]
    exact hf

/-- Counterexample to C2 as stated: a document with a `global` object and no
`nodes` array is not rejected, and the import empties the canvas. -/
theorem loadFromJson_noNodes_accepted :
    sampleDocNoNodes.nodes = none ∧
    (loadFromJson samplePx (fun _ => 0) (some sampleDocNoNodes) (initial samplePage 0)).2 =
      false ∧
    (loadFromJson samplePx (fun _ => 0) (some sampleDocNoNodes)
      (initial samplePage 0)).1.fields = [] ∧
    (initial samplePage 0).fields.length = 3 := by
  decide

/-- C2, amended. A text that is not valid JSON, and a value without the
`global` object, are rejected and the state is left exactly as it was.  A
document with a `global` object and no `nodes` array is accepted: no alert is
raised and the canvas ends empty. -/
theorem loadFromJson_rejects (css : String → Option String) (now : Nat → Nat) (D : Design) :
    loadFromJson css now none D = (D, true) ∧
    (∀ nodes throwing,
      loadFromJson css now (some { global := none, nodes := nodes, throwing := throwing }) D =
        (D, true)) ∧
    (∀ g throwing,
      (loadFromJson css now
        (some { global := some g, nodes := none, throwing := throwing }) D).2 = false ∧
      (loadFromJson css now
        (some { global := some g, nodes := none, throwing := throwing }) D).1.fields = []) := by
  refine ⟨rfl, fun _ _ => rfl, fun g throwing => ?_⟩
  rw [loadFromJson_noNodes css now _ g D rfl rfl]
  refine ⟨rfl, ?_⟩
  rw [loadAccepted_fields]
  simp [loadNodes]

/-- Counterexample to C3 as stated: the node carries only `span = 5`; imported
into a flow layout of two columns, its descriptor has `colSpan = 2`. -/
theorem loadFromJson_legacy_span_clamped :
    sampleDocLegacy.nodes = some [{ type := "text", meta := some { span := some 5 } }] ∧
    (loadFromJson samplePx (fun _ => 0) (some sampleDocLegacy)
      (initial samplePage 0)).1.fields.map (fun f => f.meta.colSpan) = [some 2] := by
  decide

theorem shimSpan_legacy (m : Meta) (s : Int) (hspan : m.span = some s) (hcol : m.colSpan = none)
    (hs : s ≠ 0) : ((shimSpan (some m)).getD {}).colSpan = some s := by
  simp [shimSpan, hspan, hcol, truthyInt, hs]

/-- C3, amended. For every node of an imported document whose meta carries the
legacy `span` key and no `colSpan`, with `span` between 1 and the column count
of the document, the descriptor built by `loadFromJson` has `colSpan` equal to
that `span`. -/
theorem loadFromJson_legacy_span (css : String → Option String) (now : Nat → Nat) (obj : Doc)
    (g : Global) (ns : List Node) (D : Design) (i : Nat) (n : Node) (m : Meta) (s : Int)
    (hg : obj.global = some g) (hns : obj.nodes = some ns) (hi : ns[i]? = some n)
    (hm : n.meta = some m) (hspan : m.span = some s) (hcol : m.colSpan = none)
    (h1 : 1 ≤ s) (h2 : s ≤ getCurrentColumns (loadFromJson css now (some obj) D).1) :
    ((loadFromJson css now (some obj) D).1.fields[i]?).bind (fun f => f.meta.colSpan) =
      some s := by
  rw [loadFromJson_cols css now obj g D hg] at h2
  obtain ⟨idc1, hf⟩ := loadFromJson_getElem css now obj g ns D i n hg hns hi
  rw [hf]
  have hshim := shimSpan_legacy m s hspan hcol (by omega)
  have hcs : (loadNode css D.isFreeMode (getCurrentColumns (applyGlobal g D)) g.layout
      (now (0 + i)) idc1 n).1.meta.colSpan = some s := by
    rw [loadNode_meta, createField_colSpan, hm, hshim]
    cases D.isFreeMode
    · simp only [Bool.false_eq_true, if_false]
      rw [clamp_orInt_some _ _ (getCurrentColumns_pos _)]
      congr 1; omega
    · rfl
  simp only [Option.some_bind]
  split_ifs
  · show some (clamp (.int (orInt (loadNode css D.isFreeMode
      (getCurrentColumns (applyGlobal g D)) g.layout (now (0 + i)) idc1 n).1.meta.colSpan 1)) 1
        (getCurrentColumns (applyGlobal g D))) = some s
    rw [hcs, clamp_orInt_some _ _ (getCurrentColumns_pos _)]
    congr 1; omega
  · exact hcs

/-- Witness of C3 amended: the legacy span 2 under two columns. -/
theorem loadFromJson_legacy_span_witness :
    ((loadFromJson samplePx (fun _ => 0)
        (some { global := some { layout := some "flow", columns := some "2" }
                nodes := some [{ type := "text", meta := some { span := some 2 } }] })
        (initial samplePage 0)).1.fields[0]?).bind (fun f => f.meta.colSpan) = some 2 :=
  loadFromJson_legacy_span samplePx (fun _ => 0) _ { layout := some "flow", columns := some "2" }
    [{ type := "text", meta := some { span := some 2 } }] (initial samplePage 0) 0
    { type := "text", meta := some { span := some 2 } } { span := some 2 } 2
    rfl rfl rfl rfl rfl rfl (by decide) (by decide)

/-! ## Placement on import -/

theorem orElse_isSome_left {α : Type} (x y : Option α) (h : y.isSome = true) :
    (x <|> y).isSome = true := by
  cases x with
  | none => simpa using h
  | some v => rfl

theorem assign_default_complete (dataId type : String) (data : Meta) :
    ((defaultMeta dataId type).assign data).complete = true := by
  simp [Meta.complete, Meta.assign, defaultMeta, orElse_isSome_left]

theorem createField_eq (b : Bool) (c : Int) (now idc : Nat) (type : String) (data : Meta) :
    ∃ w : Field, (createField b c now idc type data).1 = applyMetaToElement b c w ∧
      w.meta.complete = true ∧ w.style = {} ∧ w.type = type ∧
      ∃ dataId, w.meta = (defaultMeta dataId type).assign data :=
  ⟨_, rfl, assign_default_complete _ _ _, rfl, rfl, _, rfl⟩

theorem createField_left (b : Bool) (c : Int) (now idc : Nat) (type : String) (data : Meta) :
    (createField b c now idc type data).1.style.left = "" ∧
    (createField b c now idc type data).1.style.top = "" := by
  obtain ⟨w, hw, _, hst, _⟩ := createField_eq b c now idc type data
  rw [hw]
  cases b
  · rw [applyMeta_flow]; exact ⟨rfl, rfl⟩
  · rw [applyMeta_free, applyMetaStyle_left, applyMetaStyle_top]
    show w.style.left = "" ∧ w.style.top = ""
    rw [hst]; exact ⟨rfl, rfl⟩

theorem loadNode_style_positioned (css : String → Option String) (b : Bool) (c : Int)
    (now idc : Nat) (n : Node) (p : Pos) (l : String) (hp : n.pos = some p)
    (hl : p.left = some l) (hne : l ≠ "") :
    (loadNode css b c (some "free") now idc n).1.style.position = "absolute" ∧
    (loadNode css b c (some "free") now idc n).1.style.left = setLength css "" l ∧
    (loadNode css b c (some "free") now idc n).1.style.top =
      setLength css "" (p.top.getD "") := by
  obtain ⟨h1, h2⟩ := createField_left b c now idc n.type ((shimSpan n.meta).getD {})
  unfold loadNode
  simp [hp, hl, truthyStr, hne, h1, h2]

theorem setLength_serialised (css : String → Option String) (old v : String)
    (h : css v = some v) : setLength css old v = v := by
  unfold setLength
  split_ifs with h0
  · exact h0.symm
  · rw [h]

theorem orStr_some_free : orStr (some "free") "flow" = "free" := by decide
theorem orStr_some_flow : orStr (some "flow") "flow" = "flow" := by decide

/-- Counterexample to C5 as stated.  In a free document a node whose `pos` has
a `top` and no `left` is not positioned: imported into the start state it is
placed relatively, with empty `left` and `top`.  A node whose `pos` holds
`left = "40"` and `top = "10"`, texts that are no lengths, is positioned
absolutely, but its `left` and `top` stay empty. -/
theorem loadFromJson_pos_without_left :
    sampleDocNoLeft.nodes =
      some [{ type := "text", meta := some {}, pos := some { top := some "10px" } }] ∧
    (loadFromJson samplePx (fun _ => 0) (some sampleDocNoLeft)
      (initial samplePage 0)).1.fields.map
      (fun f => (f.style.position, f.style.left, f.style.top)) = [("relative", "", "")] ∧
    sampleDocNoUnit.nodes =
      some [{ type := "text", meta := some {},
              pos := some { left := some "40", top := some "10" } }] ∧
    samplePx "40" = none ∧ samplePx "10" = none ∧
    (loadFromJson samplePx (fun _ => 0) (some sampleDocNoUnit)
      (initial samplePage 0)).1.fields.map
      (fun f => (f.style.position, f.style.left, f.style.top)) = [("absolute", "", "")] := by
  decide

/-- C5, amended. On import of a document whose `global.layout` is `free`,
every node whose `pos.left` is a non-empty string is reconstructed absolutely
positioned, and its `left` and `top` are what the style setter makes of
`pos.left` and `pos.top` on a wrapper without inline position: the value
itself when it is a length in the form the browser serialises, nothing when it
is not a valid length or when `pos.top` is missing.  On an import of a document
whose `global.layout` is `flow` that gets through its nodes, every field ends
with empty `left` and `top` and with grid placement `span k`, where `k` is its
`colSpan`, the span of the node clamped to the column count. -/
theorem loadFromJson_placement (css : String → Option String) (now : Nat → Nat) (obj : Doc)
    (g : Global) (ns : List Node) (D : Design) (i : Nat) (n : Node)
    (hg : obj.global = some g) (hns : obj.nodes = some ns) (hi : ns[i]? = some n) :
    (g.layout = some "free" → ∀ (p : Pos) (l : String), n.pos = some p → p.left = some l →
      l ≠ "" →
      ∃ f, (loadFromJson css now (some obj) D).1.fields[i]? = some f ∧
        f.style.position = "absolute" ∧
        f.style.left = setLength css "" l ∧
        f.style.top = setLength css "" (p.top.getD "") ∧
        (css l = some l → f.style.left = l) ∧
        (css l = none → f.style.left = "") ∧
        (∀ t, p.top = some t → css t = some t → f.style.top = t) ∧
        (∀ t, p.top = some t → css t = none → f.style.top = "") ∧
        (p.top = none → f.style.top = "")) ∧
    (g.layout = some "flow" → obj.throwing = none →
      ∃ f k, (loadFromJson css now (some obj) D).1.fields[i]? = some f ∧
        f.style.left = "" ∧ f.style.top = "" ∧
        f.style.gridColumn = "span " ++ toString k ∧ f.meta.colSpan = some k ∧
        k = clamp (.int (orInt ((shimSpan n.meta).getD {}).colSpan 1)) 1
          (getCurrentColumns (loadFromJson css now (some obj) D).1) ∧
        1 ≤ k ∧ k ≤ getCurrentColumns (loadFromJson css now (some obj) D).1) := by
  rw [loadFromJson_cols css now obj g D hg]
  obtain ⟨idc1, hf⟩ := loadFromJson_getElem css now obj g ns D i n hg hns hi
  have hc := getCurrentColumns_pos (applyGlobal g D)
  constructor
  · intro hlay p l hp hl hne
    rw [hlay] at hf
    have hnf : ¬ (obj.throwing = none ∧ orStr (some "free") "flow" = "flow") :=
      fun h => absurd h.2 (by decide)
    rw [if_neg hnf] at hf
    obtain ⟨h1, h2, h3⟩ := loadNode_style_positioned css D.isFreeMode
      (getCurrentColumns (applyGlobal g D)) (now (0 + i)) idc1 n p l hp hl hne
    refine ⟨_, hf, h1, h2, h3, ?_, ?_, ?_, ?_, ?_⟩
    · intro hser
      rw [h2]; exact setLength_serialised css "" l hser
    · intro hbad
      rw [h2]; simp [setLength, hne, hbad]
    · intro t ht hser
      rw [h3, ht]; exact setLength_serialised css "" t hser
    · intro t ht hbad
      rw [h3, ht]
      simp only [Option.getD_some, setLength, hbad]
      split_ifs <;> rfl
    · intro ht
      rw [h3, ht]; rfl
  · intro hlay hthrow
    rw [hlay] at hf
    rw [if_pos ⟨hthrow, orStr_some_flow⟩] at hf
    refine ⟨_, clamp (.int (orInt (loadNode css D.isFreeMode (getCurrentColumns (applyGlobal g D))
        (some "flow") (now (0 + i)) idc1 n).1.meta.colSpan 1)) 1
        (getCurrentColumns (applyGlobal g D)), hf, rfl, rfl, rfl, rfl, ?_, ?_⟩
    · rw [loadNode_meta, createField_colSpan]
      cases D.isFreeMode
      · simp only [Bool.false_eq_true, if_false]
        rw [clamp_clamp _ _ hc]
      · simp only [if_true]
        rw [orInt_orElse_one]
    · exact clamp_bounds _ _ hc

/-- Witness of C5 amended: the node placed at (40px, 10px) in a free document. -/
theorem loadFromJson_placement_witness :
    samplePx "40px" = some "40px" ∧ samplePx "10px" = some "10px" ∧
    ∃ f, (loadFromJson samplePx (fun _ => 0) (some sampleDocFree)
        (initial samplePage 0)).1.fields[0]? = some f ∧
      f.style.position = "absolute" ∧ f.style.left = "40px" ∧ f.style.top = "10px" := by
  obtain ⟨f, h1, h2, _, _, h5, _, h7, _, _⟩ :=
    (loadFromJson_placement samplePx (fun _ => 0) sampleDocFree
      { layout := some "free", columns := some "2" }
      [{ type := "text", meta := some {},
         pos := some { left := some "40px", top := some "10px" } }]
      (initial samplePage 0) 0
      { type := "text", meta := some {},
        pos := some { left := some "40px", top := some "10px" } }
      rfl rfl rfl).1 rfl { left := some "40px", top := some "10px" } "40px" rfl rfl (by decide)
  exact ⟨by decide, by decide, f, h1, h2, h5 (by decide), h7 "10px" rfl (by decide)⟩

/-! ## Invariant of the reachable states -/

theorem mem_modifyAt (g : Field → Field) (l : List Field) :
    ∀ (i : Nat) (f : Field), f ∈ modifyAt g i l → f ∈ l ∨ ∃ f0 ∈ l, f = g f0 := by
  induction l with
  | nil => intro i f h; cases i <;> simp [modifyAt] at h
  | cons x xs ih =>
    intro i f h
    cases i with
    | zero =>
      simp only [modifyAt, List.mem_cons] at h
      rcases h with h | h
      · right; exact ⟨x, List.mem_cons_self _ _, h⟩
      · left; exact List.mem_cons_of_mem _ h
    | succ j =>
      simp only [modifyAt, List.mem_cons] at h
      rcases h with h | h
      · left; rw [h]; exact List.mem_cons_self _ _
      · rcases ih j f h with h1 | ⟨f0, h1, h2⟩
        · left; exact List.mem_cons_of_mem _ h1
        · right; exact ⟨f0, List.mem_cons_of_mem _ h1, h2⟩

theorem mem_placeAll (css : String → Option String) (offsets : Nat → Int × Int)
    (l : List Field) :
    ∀ (k : Nat) (f : Field), f ∈ placeAll css offsets l k →
      ∃ f0 ∈ l, ∃ x y : Int, f.meta = f0.meta ∧
        f.style.left = setLength css f0.style.left (toString x ++ "px") ∧
        f.style.top = setLength css f0.style.top (toString y ++ "px") := by
  induction l with
  | nil => intro k f h; simp [placeAll] at h
  | cons x xs ih =>
    intro k f h
    simp only [placeAll, List.mem_cons] at h
    rcases h with h | h
    · refine ⟨x, List.mem_cons_self _ _, (offsets k).1, (offsets k).2, ?_, ?_, ?_⟩ <;> rw [h]
    · obtain ⟨f0, h1, h2⟩ := ih (k + 1) f h
      exact ⟨f0, List.mem_cons_of_mem _ h1, h2⟩

theorem applySpan_ok (b : Bool) (mode : String) (c : Int) (w : Field) (hc : 1 ≤ c)
    (hcomp : w.meta.complete = true) : FieldOk b mode c (applySpan c w) := by
  refine ⟨?_, fun _ _ => ⟨rfl, rfl⟩, fun _ _ => ?_⟩
  · simp only [Meta.complete, Bool.and_eq_true] at hcomp ⊢
    simp only [applySpan, Option.isSome_some, and_true]
    tauto
  · exact ⟨_, rfl, clamp_bounds _ c hc⟩

theorem applyMeta_ok (b : Bool) (mode : String) (c : Int) (w : Field) (hc : 1 ≤ c)
    (hcomp : w.meta.complete = true) :
    FieldOk b mode c (applyMetaToElement b c w) := by
  cases b
  · rw [applyMeta_flow]
    apply applySpan_ok _ _ _ _ hc
    rw [applyMetaStyle_meta]; exact hcomp
  · rw [applyMeta_free]
    refine ⟨?_, (fun h => by cases h), (fun h => by cases h)⟩
    rw [applyMetaStyle_meta]; exact hcomp

theorem createField_ok (b : Bool) (mode : String) (c : Int) (now idc : Nat) (type : String)
    (data : Meta) (hc : 1 ≤ c) : FieldOk b mode c (createField b c now idc type data).1 := by
  obtain ⟨w, hw, hcomp, _⟩ := createField_eq b c now idc type data
  rw [hw]
  exact applyMeta_ok b mode c w hc hcomp

theorem loadNode_positioned (css : String → Option String) (b : Bool) (c : Int)
    (lay : Option String) (now idc : Nat) (n : Node) :
    (loadNode css b c lay now idc n).1 = (createField b c now idc n.type
      ((shimSpan n.meta).getD {})).1 ∨
    (lay = some "free" ∧ ∃ l t,
      (loadNode css b c lay now idc n).1.style.left = setLength css "" l ∧
      (loadNode css b c lay now idc n).1.style.top = setLength css "" t) := by
  obtain ⟨h1, h2⟩ := createField_left b c now idc n.type ((shimSpan n.meta).getD {})
  unfold loadNode
  simp only
  split_ifs with hpos
  · right
    have hlay : lay = some "free" := by
      cases hp : n.pos with
      | none => simp [hp] at hpos
      | some p =>
        simp only [hp, Bool.and_eq_true, decide_eq_true_eq] at hpos
        exact hpos.2
    refine ⟨hlay, ((n.pos.getD {}).left).getD "", ((n.pos.getD {}).top).getD "", ?_, ?_⟩
    · show setLength css (createField b c now idc n.type ((shimSpan n.meta).getD {})).1.style.left
        _ = _
      rw [h1]
    · show setLength css (createField b c now idc n.type ((shimSpan n.meta).getD {})).1.style.top
        _ = _
      rw [h2]
  · left; rfl

theorem loadNode_ok (css : String → Option String) (b : Bool) (c : Int) (lay : Option String)
    (now idc : Nat) (n : Node) (hc : 1 ≤ c) :
    FieldOk b (orStr lay "flow") c (loadNode css b c lay now idc n).1 := by
  have h := createField_ok b (orStr lay "flow") c now idc n.type ((shimSpan n.meta).getD {}) hc
  rcases loadNode_positioned css b c lay now idc n with heq | ⟨hlay, _⟩
  · rw [heq]; exact h
  · refine ⟨?_, ?_, ?_⟩
    · rw [loadNode_meta]; exact h.1
    · intro _ hm
      rw [hlay] at hm
      exact absurd hm (by decide)
    · intro hb hm
      obtain ⟨k, hk, hbd⟩ := h.2.2 hb hm
      exact ⟨k, by rw [loadNode_meta]; exact hk, hbd⟩

theorem applyMeta_complete (b : Bool) (c : Int) (w : Field) (hcomp : w.meta.complete = true) :
    (applyMetaToElement b c w).meta.complete = true := by
  cases b
  · rw [applyMeta_meta_flow]
    simp only [Meta.complete, Bool.and_eq_true] at hcomp ⊢
    simp only [Option.isSome_some, and_true]
    tauto
  · rw [applyMeta_meta_free]; exact hcomp

theorem loadNode_complete (css : String → Option String) (b : Bool) (c : Int)
    (lay : Option String) (now idc : Nat) (n : Node) :
    (loadNode css b c lay now idc n).1.meta.complete = true := by
  rw [loadNode_meta]
  obtain ⟨w, hw, hcomp, _⟩ := createField_eq b c now idc n.type ((shimSpan n.meta).getD {})
  rw [hw]
  exact applyMeta_complete b c w hcomp

theorem inv_of_fields (D E : Design) (hm : E.isFreeMode = D.isFreeMode)
    (hl : E.layoutMode = D.layoutMode) (hc : E.columnsSelect = D.columnsSelect)
    (hg : E.gridSize ≠ 0)
    (hf : ∀ f ∈ E.fields, FieldOk D.isFreeMode D.layoutMode (getCurrentColumns D) f) :
    Inv E := by
  refine ⟨hg, ?_⟩
  rw [hm, hl, getCurrentColumns_congr E D hc]; exact hf

theorem applyMeta_update_ok (b : Bool) (mode : String) (c : Int) (w : Field) (m : Meta)
    (hc : 1 ≤ c) (hm : m.complete = true) :
    FieldOk b mode c (applyMetaToElement b c { w with meta := m }) :=
  applyMeta_ok b mode c _ hc hm

theorem inv_dropField (css : String → Option String) (now : Nat) (type : String) (x y : Int)
    (D : Design) (hI : Inv D) : Inv (dropField css now type x y D) := by
  refine inv_of_fields D _ rfl rfl rfl hI.grid ?_
  intro f hf
  simp only [dropField, List.mem_append, List.mem_singleton] at hf
  rcases hf with hf | hf
  · exact hI.fields f hf
  · have hok := createField_ok D.isFreeMode D.layoutMode (getCurrentColumns D) now D.idCounter
      type {} (getCurrentColumns_pos D)
    rw [hf]
    split_ifs with hflow
    · exact hok
    · exact ⟨hok.1, fun _ h => absurd h hflow, hok.2.2⟩

theorem inv_modifyAt (D : Design) (g : Field → Field) (i : Nat) (hI : Inv D)
    (hg : ∀ w, FieldOk D.isFreeMode D.layoutMode (getCurrentColumns D) w →
      FieldOk D.isFreeMode D.layoutMode (getCurrentColumns D) (g w)) :
    Inv { D with fields := modifyAt g i D.fields } := by
  refine inv_of_fields D _ rfl rfl rfl hI.grid ?_
  intro f hf
  rcases mem_modifyAt g D.fields i f hf with h | ⟨f0, h1, h2⟩
  · exact hI.fields f h
  · rw [h2]; exact hg f0 (hI.fields f0 h1)

theorem complete_update (m : Meta) (h : m.complete = true) (label placeholder : String)
    (required : Bool) (widthPct height : Int) (font : String) (fontSize labelSize : Int)
    (textColor bgColor borderColor : String) (radius padding colSpan : Int) :
    ({ m with
        label := some label
        placeholder := some placeholder
        required := some required
        widthPct := some widthPct
        height := some height
        font := some font
        fontSize := some fontSize
        labelSize := some labelSize
        textColor := some textColor
        bgColor := some bgColor
        borderColor := some borderColor
        radius := some radius
        padding := some padding
        colSpan := some colSpan } : Meta).complete = true := by
  simp only [Meta.complete, Bool.and_eq_true] at h ⊢
  simp only [Option.isSome_some, and_true, true_and]
  tauto

theorem inv_applySettings (i : Nat) (p : Panel) (D : Design) (hI : Inv D) :
    Inv (applySettingsFromPanel i p D) := by
  apply inv_modifyAt D _ i hI
  intro w hw
  exact applyMeta_update_ok _ _ _ w _ (getCurrentColumns_pos D) (complete_update _ hw.1 ..)

theorem inv_editLabel (i : Nat) (text : String) (D : Design) (hI : Inv D) :
    Inv (editLabel i text D) := by
  apply inv_modifyAt D _ i hI
  intro w hw
  apply applyMeta_update_ok _ _ _ w _ (getCurrentColumns_pos D)
  have h := hw.1
  simp only [Meta.complete, Bool.and_eq_true] at h ⊢
  simp only [Option.isSome_some, and_true, true_and]
  tauto

theorem inv_addOption (i : Nat) (text : String) (D : Design) (hI : Inv D) :
    Inv (addOption i text D) := by
  unfold addOption
  simp only
  split_ifs
  · exact hI
  · apply inv_modifyAt D _ i hI
    intro w hw
    apply applyMeta_update_ok _ _ _ w _ (getCurrentColumns_pos D)
    have h := hw.1
    simp only [Meta.complete, Bool.and_eq_true] at h ⊢
    simp only [Option.isSome_some, and_true, true_and]
    tauto

theorem inv_moveField (css : String → Option String) (i : Nat) (x y : Int) (D : Design)
    (hI : Inv D) : Inv (moveField css i x y D) := by
  unfold moveField
  by_cases hfree : D.isFreeMode = true
  · rw [if_neg (by simp [hfree])]
    apply inv_modifyAt D _ i hI
    intro w hw
    refine ⟨hw.1, fun h => ?_, fun h => ?_⟩
    · rw [hfree] at h; cases h
    · rw [hfree] at h; cases h
  · have : D.isFreeMode = false := by simpa using hfree
    simp only [this, Bool.not_false, if_true]
    exact hI

theorem inv_editOption (i j : Nat) (text : String) (D : Design) (hI : Inv D) :
    Inv (editOption i j text D) := by
  apply inv_modifyAt D _ i hI
  intro w hw
  apply applyMeta_update_ok _ _ _ w _ (getCurrentColumns_pos D)
  have h := hw.1
  simp only [Meta.complete, Bool.and_eq_true] at h ⊢
  simp only [Option.isSome_some, and_true, true_and]
  tauto

theorem inv_deleteOption (i j : Nat) (D : Design) (hI : Inv D) :
    Inv (deleteOption i j D) := by
  apply inv_modifyAt D _ i hI
  intro w hw
  apply applyMeta_update_ok _ _ _ w _ (getCurrentColumns_pos D)
  have h := hw.1
  simp only [Meta.complete, Bool.and_eq_true] at h ⊢
  simp only [Option.isSome_some, and_true, true_and]
  tauto

theorem binding_update_ok (b : Bool) (mode : String) (c : Int) (w : Field) (bd : Binding)
    (hw : FieldOk b mode c w) :
    FieldOk b mode c { w with meta := { w.meta with binding := some bd } } := by
  refine ⟨?_, hw.2.1, ?_⟩
  · have h := hw.1
    simp only [Meta.complete, Bool.and_eq_true] at h ⊢
    simp only [Option.isSome_some, and_true]
    tauto
  · intro h1 h2
    obtain ⟨k, hk, hb⟩ := hw.2.2 h1 h2
    exact ⟨k, hk, hb⟩

theorem inv_setBindAddress (i : Nat) (addr : String) (D : Design) (hI : Inv D) :
    Inv (setBindAddress i addr D) := by
  apply inv_modifyAt D _ i hI
  intro w hw
  exact binding_update_ok _ _ _ w _ hw

theorem inv_setBindListen (i : Nat) (listen : Bool) (D : Design) (hI : Inv D) :
    Inv (setBindListen i listen D) := by
  apply inv_modifyAt D _ i hI
  intro w hw
  exact binding_update_ok _ _ _ w _ hw

theorem inv_reorderField (i j : Nat) (D : Design) (hI : Inv D) :
    Inv (reorderField i j D) := by
  unfold reorderField
  split_ifs
  · exact hI
  · cases hf : D.fields[i]? with
    | none => exact hI
    | some f0 =>
      simp only
      refine inv_of_fields D _ rfl rfl rfl hI.grid ?_
      intro f hmem
      simp only [List.mem_append, List.mem_singleton] at hmem
      rcases hmem with (h | h) | h
      · exact hI.fields f (List.mem_of_mem_eraseIdx (List.mem_of_mem_take h))
      · rw [h]; exact hI.fields f0 (List.getElem?_mem hf)
      · exact hI.fields f (List.mem_of_mem_eraseIdx (List.mem_of_mem_drop h))

theorem inv_deleteElement (i : Nat) (D : Design) (hI : Inv D) : Inv (deleteElement i D) := by
  refine inv_of_fields D _ rfl rfl rfl hI.grid ?_
  intro f hf
  exact hI.fields f (List.mem_of_mem_eraseIdx hf)

theorem inv_clearCanvas (D : Design) (hI : Inv D) : Inv (clearCanvas D) := by
  refine inv_of_fields D _ rfl rfl rfl hI.grid ?_
  intro f hf
  simp [clearCanvas] at hf

theorem orElse_ne_zero (v : JsNum) (d : Int) (hd : d ≠ 0) : v.orElse d ≠ 0 := by
  unfold JsNum.orElse
  cases v with
  | nan => exact hd
  | int n => simp only; split_ifs with h; exact hd; exact h

theorem orInt_ne_zero (x : Option Int) (d : Int) (hd : d ≠ 0) : orInt x d ≠ 0 := by
  unfold orInt
  cases x with
  | none => exact hd
  | some n => simp only; split_ifs with h; exact hd; exact h

theorem inv_setGridSize (v : String) (D : Design) (hI : Inv D) : Inv (setGridSize v D) :=
  inv_of_fields D _ rfl rfl rfl (orElse_ne_zero _ 12 (by decide)) hI.fields

theorem inv_columnsChange (v : String) (D : Design) (hI : Inv D) :
    Inv (columnsChange v D) := by
  have hcols : getCurrentColumns (applyLayoutColumns { D with columnsSelect := v }) =
      getCurrentColumns { D with columnsSelect := v } :=
    getCurrentColumns_congr _ _ (applyLayoutColumns_columnsSelect _)
  have hcols2 : getCurrentColumns (columnsChange v D) =
      getCurrentColumns { D with columnsSelect := v } := by
    apply getCurrentColumns_congr
    show (applyLayoutColumns { D with columnsSelect := v }).columnsSelect = v
    rw [applyLayoutColumns_columnsSelect]
  have hfreeE : (columnsChange v D).isFreeMode = D.isFreeMode := by
    show (applyLayoutColumns { D with columnsSelect := v }).isFreeMode = D.isFreeMode
    rw [applyLayoutColumns_isFreeMode]
  have hmodeE : (columnsChange v D).layoutMode = D.layoutMode := by
    show (applyLayoutColumns { D with columnsSelect := v }).layoutMode = D.layoutMode
    rw [applyLayoutColumns_layoutMode]
  have hc := getCurrentColumns_pos { D with columnsSelect := v }
  refine ⟨?_, ?_⟩
  · show (applyLayoutColumns { D with columnsSelect := v }).gridSize ≠ 0
    unfold applyLayoutColumns; split_ifs <;> exact hI.grid
  · rw [hfreeE, hmodeE, hcols2]
    intro f hf
    unfold columnsChange at hf
    simp only [List.mem_map, hcols, applyLayoutColumns_isFreeMode] at hf
    obtain ⟨el1, hel1, hf⟩ := hf
    rw [← hf]
    have hel1ok : el1.meta.complete = true := by
      unfold applyLayoutColumns at hel1
      split_ifs at hel1 with hflow
      · exact (hI.fields el1 hel1).1
      · simp only [List.mem_map] at hel1
        obtain ⟨el, hel, h⟩ := hel1
        have := applySpan_ok D.isFreeMode D.layoutMode
          (getCurrentColumns { D with columnsSelect := v }) el hc (hI.fields el hel).1
        rw [h] at this
        exact this.1
    apply applyMeta_ok _ _ _ _ hc
    have h := hel1ok
    simp only [Meta.complete, Bool.and_eq_true] at h ⊢
    simp only [Option.isSome_some, and_true, true_and]
    tauto

theorem inv_layoutModeChange (css : String → Option String) (v : String)
    (offsets : Nat → Int × Int) (D : Design) (hI : Inv D) :
    Inv (layoutModeChange css v offsets D) := by
  have hc := getCurrentColumns_pos D
  unfold layoutModeChange
  by_cases hv : v = "free"
  · simp only [hv, decide_True, Bool.not_true, Bool.false_eq_true, if_false]
    refine ⟨hI.grid, ?_⟩
    intro f hf
    obtain ⟨f0, h0, _, _, hmeta, _⟩ := mem_placeAll css offsets D.fields 0 f hf
    refine ⟨?_, (fun h => by cases h), (fun h => by cases h)⟩
    rw [hmeta]; exact (hI.fields f0 h0).1
  · simp only [hv, decide_False, Bool.not_false, if_true]
    have hreset : ∀ f ∈ D.fields.map (fun el =>
        applyMetaToElement false (getCurrentColumns { D with layoutMode := v, isFreeMode := false })
          { el with style := { el.style with position := "relative", left := "", top := "" } }),
        FieldOk false v (getCurrentColumns D) f := by
      intro f hf
      simp only [List.mem_map] at hf
      obtain ⟨el, hel, h⟩ := hf
      rw [← h]
      exact applyMeta_ok false v _ _ hc (hI.fields el hel).1
    unfold applyLayoutColumns
    split_ifs with hflow
    · exact ⟨hI.grid, hreset⟩
    · refine ⟨hI.grid, ?_⟩
      intro f hf
      simp only [List.mem_map] at hf
      obtain ⟨f1, hf1, h⟩ := hf
      rw [← h]
      exact applySpan_ok false v _ f1 hc (hreset f1 (by simpa using hf1)).1

theorem inv_loadAccepted (css : String → Option String) (now : Nat → Nat) (g : Global)
    (ns : List Node) (D : Design) (hI : Inv D) : Inv (loadAccepted css now g ns D) := by
  have hc := getCurrentColumns_pos (applyGlobal g D)
  have hfree : (loadAccepted css now g ns D).isFreeMode =
      decide (orStr g.layout "flow" = "free") := by
    unfold loadAccepted
    simp only
    split_ifs
    · rfl
    · rw [applyLayoutColumns_isFreeMode]; rfl
  have hgrid : (loadAccepted css now g ns D).gridSize = orInt g.gridSize D.gridSize := by
    unfold loadAccepted
    simp only
    split_ifs
    · rfl
    · unfold applyLayoutColumns; split_ifs <;> rfl
  refine ⟨?_, ?_⟩
  · rw [hgrid]; exact orInt_ne_zero _ _ hI.grid
  · rw [hfree, loadAccepted_layoutMode, loadAccepted_cols, loadAccepted_fields]
    intro f hf
    split_ifs at hf with hflow
    · simp only [List.mem_map] at hf
      obtain ⟨f1, hf1, h⟩ := hf
      obtain ⟨n, _, t, idc1, hn⟩ := loadNodes_mem _ _ _ _ _ _ _ _ f1 hf1
      rw [← h]
      apply applySpan_ok _ _ _ _ hc
      rw [hn]; exact loadNode_complete _ _ _ _ _ _ _
    · obtain ⟨n, _, t, idc1, hn⟩ := loadNodes_mem _ _ _ _ _ _ _ _ f hf
      have hok := loadNode_ok css D.isFreeMode (getCurrentColumns (applyGlobal g D))
        g.layout t idc1 n hc
      rw [← hn] at hok
      refine ⟨hok.1, fun _ hm => absurd hm hflow, ?_⟩
      intro hb hm
      exfalso
      rcases hm with hm | hm
      · exact hflow hm
      · simp [hm] at hb

theorem inv_loadPartial (css : String → Option String) (now : Nat → Nat) (g : Global)
    (ns : List Node) (bump : Bool) (D : Design) (hI : Inv D) :
    Inv (loadPartial css now g ns bump D) := by
  have hc := getCurrentColumns_pos (applyGlobal g D)
  refine ⟨?_, ?_⟩
  · show orInt g.gridSize D.gridSize ≠ 0
    exact orInt_ne_zero _ _ hI.grid
  · rw [loadPartial_cols, loadPartial_fields]
    intro f hf
    obtain ⟨n, _, t, idc1, hn⟩ := loadNodes_mem _ _ _ _ _ _ _ _ f hf
    rw [hn]
    exact loadNode_ok css D.isFreeMode (getCurrentColumns (applyGlobal g D)) g.layout t idc1 n hc

theorem loadFromJson_cases (css : String → Option String) (now : Nat → Nat)
    (parsed : Option Doc) (D : Design) :
    (loadFromJson css now parsed D).1 = D ∨
    (∃ g ns, (loadFromJson css now parsed D).1 = loadAccepted css now g ns D) ∨
    (∃ g ns bump, (loadFromJson css now parsed D).1 = loadPartial css now g ns bump D) := by
  cases parsed with
  | none => exact Or.inl rfl
  | some obj =>
    cases hg : obj.global with
    | none => left; simp only [loadFromJson, hg]
    | some g =>
      cases hns : obj.nodes with
      | none =>
        right; left
        exact ⟨g, [], by rw [loadFromJson_noNodes css now obj g D hg hns]⟩
      | some ns =>
        cases ht : obj.throwing with
        | none =>
          right; left
          exact ⟨g, ns, by rw [loadFromJson_accepted css now obj g D hg ht, hns]; rfl⟩
        | some bump =>
          right; right
          exact ⟨g, ns, bump, by rw [loadFromJson_throwing css now obj g ns bump D hg hns ht]⟩

theorem inv_loadFromJson (css : String → Option String) (now : Nat → Nat)
    (parsed : Option Doc) (D : Design) (hI : Inv D) :
    Inv (loadFromJson css now parsed D).1 := by
  rcases loadFromJson_cases css now parsed D with h | ⟨g, ns, h⟩ | ⟨g, ns, bump, h⟩
  · rw [h]; exact hI
  · rw [h]; exact inv_loadAccepted css now g ns D hI
  · rw [h]; exact inv_loadPartial css now g ns bump D hI

theorem inv_initial (page : Page) (now : Nat) : Inv (initial page now) := by
  refine ⟨orElse_ne_zero _ 12 (by decide), ?_⟩
  intro f hf
  simp only [initial, List.mem_cons, List.mem_singleton, List.not_mem_nil, or_false] at hf
  have hcols : getCurrentColumns (initial page now) = getCurrentColumns
      { formBgColor := page.formBgColor, bgImageDataUrl := "", formWidth := page.formWidth,
        formPadding := page.formPadding, layoutMode := page.layoutMode,
        columnsSelect := page.columnsSelect, gridToggle := page.gridToggle,
        gridSize := (parseInt page.gridSizeInput).orElse 12, isFreeMode := false,
        idCounter := 0, fields := [] } := getCurrentColumns_congr _ _ rfl
  rw [hcols]
  rcases hf with h | h | h <;> rw [h] <;>
    exact createField_ok false _ _ _ _ _ _ (getCurrentColumns_pos _)

theorem inv_run (css : String → Option String) (op : Op) (D : Design) (hI : Inv D) :
    Inv (op.run css D) := by
  cases op with
  | drop now type x y => exact inv_dropField css now type x y D hI
  | applySettings i p => exact inv_applySettings i p D hI
  | columns v => exact inv_columnsChange v D hI
  | layoutMode v offsets => exact inv_layoutModeChange css v offsets D hI
  | importJson now parsed => exact inv_loadFromJson css now parsed D hI
  | editLabel i text => exact inv_editLabel i text D hI
  | addOption i text => exact inv_addOption i text D hI
  | move i x y => exact inv_moveField css i x y D hI
  | editOption i j text => exact inv_editOption i j text D hI
  | deleteOption i j => exact inv_deleteOption i j D hI
  | bindAddress i addr => exact inv_setBindAddress i addr D hI
  | bindListen i listen => exact inv_setBindListen i listen D hI
  | reorder i j => exact inv_reorderField i j D hI
  | delete i => exact inv_deleteElement i D hI
  | clear => exact inv_clearCanvas D hI
  | bgColor v => exact inv_of_fields D _ rfl rfl rfl hI.grid hI.fields
  | bgImage url => exact inv_of_fields D _ rfl rfl rfl hI.grid hI.fields
  | width v => exact inv_of_fields D _ rfl rfl rfl hI.grid hI.fields
  | padding v => exact inv_of_fields D _ rfl rfl rfl hI.grid hI.fields
  | grid b => exact inv_of_fields D _ rfl rfl rfl hI.grid hI.fields
  | gridSize v => exact inv_setGridSize v D hI

theorem inv_of_reachable (css : String → Option String) (page : Page) (D : Design)
    (h : Reachable css page D) : Inv D := by
  induction h with
  | init now => exact inv_initial page now
  | step op D _ ih => exact inv_run css op D ih

/-! ## Inline positions in reachable states -/

theorem setLength_ok (css : String → Option String)
    (hcss : ∀ s t, css s = some t → css t = some t) (old v : String)
    (h : Serialised css old) : Serialised css (setLength css old v) := by
  unfold setLength
  split_ifs
  · exact Or.inl rfl
  · cases hv : css v with
    | none => exact h
    | some t => exact Or.inr (hcss v t hv)

theorem serialised_empty (css : String → Option String) : Serialised css "" := Or.inl rfl

theorem applyMeta_pos (css : String → Option String) (b : Bool) (c : Int) (w : Field)
    (h : Serialised css w.style.left ∧ Serialised css w.style.top) :
    Serialised css (applyMetaToElement b c w).style.left ∧
    Serialised css (applyMetaToElement b c w).style.top := by
  cases b
  · rw [applyMeta_flow]; exact ⟨Or.inl rfl, Or.inl rfl⟩
  · rw [applyMeta_free, applyMetaStyle_left, applyMetaStyle_top]; exact h

theorem createField_pos (css : String → Option String) (b : Bool) (c : Int) (now idc : Nat)
    (type : String) (data : Meta) :
    Serialised css (createField b c now idc type data).1.style.left ∧
    Serialised css (createField b c now idc type data).1.style.top := by
  obtain ⟨h1, h2⟩ := createField_left b c now idc type data
  rw [h1, h2]; exact ⟨Or.inl rfl, Or.inl rfl⟩

theorem loadNode_pos (css : String → Option String)
    (hcss : ∀ s t, css s = some t → css t = some t) (b : Bool) (c : Int)
    (lay : Option String) (now idc : Nat) (n : Node) :
    Serialised css (loadNode css b c lay now idc n).1.style.left ∧
    Serialised css (loadNode css b c lay now idc n).1.style.top := by
  rcases loadNode_positioned css b c lay now idc n with heq | ⟨_, l, t, h1, h2⟩
  · rw [heq]; exact createField_pos css b c now idc _ _
  · rw [h1, h2]
    exact ⟨setLength_ok css hcss "" l (Or.inl rfl), setLength_ok css hcss "" t (Or.inl rfl)⟩

theorem pos_modifyAt (css : String → Option String) (D : Design) (g : Field → Field) (i : Nat)
    (hP : PositionsSerialised css D)
    (hg : ∀ w, Serialised css w.style.left ∧ Serialised css w.style.top →
      Serialised css (g w).style.left ∧ Serialised css (g w).style.top) :
    PositionsSerialised css { D with fields := modifyAt g i D.fields } := by
  intro f hf
  rcases mem_modifyAt g D.fields i f hf with h | ⟨f0, h1, h2⟩
  · exact hP f h
  · rw [h2]; exact hg f0 (hP f0 h1)

theorem pos_loadNodes (css : String → Option String)
    (hcss : ∀ s t, css s = some t → css t = some t) (b : Bool) (c : Int)
    (lay : Option String) (now : Nat → Nat) (ns : List Node) (k idc : Nat) :
    ∀ f ∈ (loadNodes css b c lay now ns k idc).1,
      Serialised css f.style.left ∧ Serialised css f.style.top := by
  intro f hf
  obtain ⟨n, _, t, idc1, hn⟩ := loadNodes_mem css b c lay now ns k idc f hf
  rw [hn]; exact loadNode_pos css hcss b c lay t idc1 n

theorem pos_applyLayoutColumns (css : String → Option String) (D : Design)
    (hP : PositionsSerialised css D) : PositionsSerialised css (applyLayoutColumns D) := by
  unfold applyLayoutColumns
  split_ifs
  · exact hP
  · intro f hf
    simp only [List.mem_map] at hf
    obtain ⟨f0, _, h⟩ := hf
    rw [← h]; exact ⟨Or.inl rfl, Or.inl rfl⟩

theorem pos_loadFromJson (css : String → Option String)
    (hcss : ∀ s t, css s = some t → css t = some t) (now : Nat → Nat) (parsed : Option Doc)
    (D : Design) (hP : PositionsSerialised css D) :
    PositionsSerialised css (loadFromJson css now parsed D).1 := by
  rcases loadFromJson_cases css now parsed D with h | ⟨g, ns, h⟩ | ⟨g, ns, bump, h⟩
  · rw [h]; exact hP
  · rw [h]
    intro f hf
    rw [loadAccepted_fields] at hf
    split_ifs at hf
    · simp only [List.mem_map] at hf
      obtain ⟨f0, _, h0⟩ := hf
      rw [← h0]; exact ⟨Or.inl rfl, Or.inl rfl⟩
    · exact pos_loadNodes css hcss _ _ _ _ _ _ _ f hf
  · rw [h]
    intro f hf
    rw [loadPartial_fields] at hf
    exact pos_loadNodes css hcss _ _ _ _ _ _ _ f hf

theorem pos_run (css : String → Option String)
    (hcss : ∀ s t, css s = some t → css t = some t) (op : Op) (D : Design)
    (hP : PositionsSerialised css D) : PositionsSerialised css (op.run css D) := by
  cases op with
  | drop now type x y =>
    intro f hf
    simp only [Op.run, dropField, List.mem_append, List.mem_singleton] at hf
    rcases hf with hf | hf
    · exact hP f hf
    · have h0 := createField_pos css D.isFreeMode (getCurrentColumns D) now D.idCounter type {}
      rw [hf]
      split_ifs
      · exact h0
      · exact ⟨setLength_ok css hcss _ _ h0.1, setLength_ok css hcss _ _ h0.2⟩
  | applySettings i p =>
    exact pos_modifyAt css D _ i hP (fun w hw => applyMeta_pos css _ _ _ hw)
  | columns v =>
    intro f hf
    simp only [Op.run, columnsChange, List.mem_map] at hf
    obtain ⟨el, hel, h⟩ := hf
    rw [← h]
    apply applyMeta_pos
    exact pos_applyLayoutColumns css { D with columnsSelect := v } hP el hel
  | layoutMode v offsets =>
    show PositionsSerialised css (layoutModeChange css v offsets D)
    unfold layoutModeChange
    by_cases hv : v = "free"
    · simp only [hv, decide_True, Bool.not_true, Bool.false_eq_true, if_false]
      intro f hf
      obtain ⟨f0, h0, x, y, _, hl, ht⟩ := mem_placeAll css offsets D.fields 0 f hf
      rw [hl, ht]
      exact ⟨setLength_ok css hcss _ _ (hP f0 h0).1, setLength_ok css hcss _ _ (hP f0 h0).2⟩
    · simp only [hv, decide_False, Bool.not_false, if_true]
      apply pos_applyLayoutColumns
      intro f hf
      simp only [List.mem_map] at hf
      obtain ⟨el, _, h⟩ := hf
      rw [← h]
      exact applyMeta_pos css _ _ _ ⟨Or.inl rfl, Or.inl rfl⟩
  | importJson now parsed => exact pos_loadFromJson css hcss now parsed D hP
  | editLabel i text =>
    exact pos_modifyAt css D _ i hP (fun w hw => applyMeta_pos css _ _ _ hw)
  | addOption i text =>
    show PositionsSerialised css (addOption i text D)
    unfold addOption
    simp only
    split_ifs
    · exact hP
    · exact pos_modifyAt css D _ i hP (fun w hw => applyMeta_pos css _ _ _ hw)
  | move i x y =>
    show PositionsSerialised css (moveField css i x y D)
    unfold moveField
    split_ifs
    · exact hP
    · exact pos_modifyAt css D _ i hP
        (fun w hw => ⟨setLength_ok css hcss _ _ hw.1, setLength_ok css hcss _ _ hw.2⟩)
  | editOption i j text =>
    exact pos_modifyAt css D _ i hP (fun w hw => applyMeta_pos css _ _ _ hw)
  | deleteOption i j =>
    exact pos_modifyAt css D _ i hP (fun w hw => applyMeta_pos css _ _ _ hw)
  | bindAddress i addr => exact pos_modifyAt css D _ i hP (fun w hw => hw)
  | bindListen i listen => exact pos_modifyAt css D _ i hP (fun w hw => hw)
  | reorder i j =>
    show PositionsSerialised css (reorderField i j D)
    unfold reorderField
    split_ifs
    · exact hP
    · cases hf : D.fields[i]? with
      | none => exact hP
      | some f0 =>
        intro f hmem
        simp only [List.mem_append, List.mem_singleton] at hmem
        rcases hmem with (h | h) | h
        · exact hP f (List.mem_of_mem_eraseIdx (List.mem_of_mem_take h))
        · rw [h]; exact hP f0 (List.getElem?_mem hf)
        · exact hP f (List.mem_of_mem_eraseIdx (List.mem_of_mem_drop h))
  | delete i => exact fun f hf => hP f (List.mem_of_mem_eraseIdx hf)
  | clear => exact fun f hf => by simp [Op.run, clearCanvas] at hf
  | bgColor v => exact hP
  | bgImage url => exact hP
  | width v => exact hP
  | padding v => exact hP
  | grid b => exact hP
  | gridSize v => exact hP

theorem pos_initial (css : String → Option String) (page : Page) (now : Nat) :
    PositionsSerialised css (initial page now) := by
  intro f hf
  simp only [initial, List.mem_cons, List.mem_singleton, List.not_mem_nil, or_false] at hf
  rcases hf with h | h | h <;> rw [h] <;> exact createField_pos css _ _ _ _ _ _

theorem pos_of_reachable (css : String → Option String)
    (hcss : ∀ s t, css s = some t → css t = some t) (page : Page) (D : Design)
    (h : Reachable css page D) : PositionsSerialised css D := by
  induction h with
  | init now => exact pos_initial css page now
  | step op D _ ih => exact pos_run css hcss op D ih

/-! ## Spans in reachable states -/

theorem exportNode_span (f : Field) (h : f.meta.complete = true) :
    ∃ m k, (exportNode f).meta = some m ∧ m.colSpan = some k ∧ m.span = some k := by
  simp only [Meta.complete, Bool.and_eq_true] at h
  have hcs : f.meta.colSpan.isSome = true := h.1.2
  obtain ⟨k, hk⟩ := Option.isSome_iff_exists.mp hcs
  refine ⟨_, k, rfl, hk, ?_⟩
  simp only [hcs, if_true]
  exact hk

/-- C4. In every document that `exportLayout` produces from a state reached by
any sequence of the design operations (drop, panel edits, column and layout
changes, imports, label and option edits, moves, deletions), the meta of every
node contains both `colSpan` and `span`, with the same value. -/
theorem exportLayout_span_eq_colSpan (css : String → Option String) (page : Page) (D : Design)
    (h : Reachable css page D) :
    ∃ nodes, (exportLayout D).nodes = some nodes ∧
      ∀ n ∈ nodes, ∃ m k, n.meta = some m ∧ m.colSpan = some k ∧ m.span = some k := by
  refine ⟨D.fields.map exportNode, rfl, ?_⟩
  intro n hn
  simp only [List.mem_map] at hn
  obtain ⟨f, hf, hfn⟩ := hn
  rw [← hfn]
  exact exportNode_span f ((inv_of_reachable css page D h).fields f hf).1

/-- Witness of C4 on the state reached by importing the legacy document into
the start state. -/
theorem exportLayout_span_eq_colSpan_witness :
    Reachable samplePx samplePage
      ((Op.importJson (fun _ => 0) (some sampleDocLegacy)).run samplePx
        (initial samplePage 0)) ∧
    ∃ nodes, (exportLayout
        ((Op.importJson (fun _ => 0) (some sampleDocLegacy)).run samplePx
          (initial samplePage 0))).nodes = some nodes ∧
      ∀ n ∈ nodes, ∃ m k, n.meta = some m ∧ m.colSpan = some k ∧ m.span = some k :=
  ⟨Reachable.step _ _ (Reachable.init 0),
    exportLayout_span_eq_colSpan samplePx samplePage _ (Reachable.step _ _ (Reachable.init 0))⟩

/-- Counterexample to C6 as stated.  After a switch to free layout, the import
of a free document with two columns and a node of `colSpan = 7` leaves the
field with `colSpan = 7` while the column count is 2.  After a switch to free
layout, the import of a flow document with two columns whose nodes array holds
a node of `colSpan = 7` and then a `null` entry throws inside the node loop:
the layout selector is on flow, the designer is still in free mode, and the
field has `colSpan = 7` while the column count is 2. -/
theorem reachable_colSpan_unclamped :
    Reachable samplePx samplePage sampleWideDesign ∧
    sampleWideDesign.fields.map (fun f => f.meta.colSpan) = [some 7] ∧
    getCurrentColumns sampleWideDesign = 2 ∧
    Reachable samplePx samplePage sampleStaleDesign ∧
    sampleStaleDesign.layoutMode = "flow" ∧ sampleStaleDesign.isFreeMode = true ∧
    sampleStaleDesign.fields.map (fun f => f.meta.colSpan) = [some 7] ∧
    getCurrentColumns sampleStaleDesign = 2 :=
  ⟨Reachable.step _ _ (Reachable.step _ _ (Reachable.init 0)), by decide, by decide,
    Reachable.step _ _ (Reachable.step _ _ (Reachable.init 0)), by decide, by decide,
    by decide, by decide⟩

/-- C6, amended. In every state reachable through the design operations in
which the designer is not in free mode and the layout selector is on flow or
on free, the `colSpan` of every field lies between 1 and the current column
count.  Spans are integers in the embedding: the bound is what the clamp
gives, for a whole span as for a fractional one, which the script does not
round. -/
theorem reachable_flow_colSpan_clamped (css : String → Option String) (page : Page)
    (D : Design) (h : Reachable css page D) (hfree : D.isFreeMode = false)
    (hmode : D.layoutMode = "flow" ∨ D.layoutMode = "free") :
    ∀ f ∈ D.fields, ∃ k, f.meta.colSpan = some k ∧ 1 ≤ k ∧ k ≤ getCurrentColumns D := by
  have hI := inv_of_reachable css page D h
  intro f hf
  exact (hI.fields f hf).2.2 hfree hmode

/-- Witness of C6 amended: a number field is dropped on the start state of the
sample page, which has two columns, and the Column Span of the second field is
set to 5 in the panel; the spans are 2, 2, 1 and 1. -/
theorem reachable_flow_colSpan_clamped_witness :
    Reachable samplePx samplePage sampleSpanDesign ∧
    sampleSpanDesign.isFreeMode = false ∧ sampleSpanDesign.layoutMode = "flow" ∧
    getCurrentColumns sampleSpanDesign = 2 ∧
    sampleSpanDesign.fields.map (fun f => f.meta.colSpan) = [some 2, some 2, some 1, some 1] ∧
    ∀ f ∈ sampleSpanDesign.fields,
      ∃ k, f.meta.colSpan = some k ∧ 1 ≤ k ∧ k ≤ getCurrentColumns sampleSpanDesign :=
  ⟨Reachable.step _ _ (Reachable.step _ _ (Reachable.init 0)), by decide, by decide, by decide,
    by decide,
    reachable_flow_colSpan_clamped samplePx samplePage _
      (Reachable.step _ _ (Reachable.step _ _ (Reachable.init 0))) (by decide)
      (Or.inl (by decide))⟩

/-! ## Round trip of the layout -/

theorem orStr_strOr_same (s d : String) : orStr (some (strOr s d)) d = strOr s d := by
  unfold orStr strOr
  simp only
  split_ifs <;> simp_all

theorem orStr_strOr_of_ne (s d e : String) (h : s ≠ "") : orStr (some (strOr s d)) e = s := by
  unfold orStr strOr
  simp only [if_neg h]

theorem strOr_empty (s : String) : strOr s "" = s := by
  unfold strOr; split_ifs with h
  · exact h.symm
  · rfl

theorem orElse_of_isSome {α : Type} (x y : Option α) (h : x.isSome = true) : (x <|> y) = x := by
  cases x with
  | none => cases h
  | some v => rfl

theorem orElse_none_right {α : Type} (x : Option α) : (x <|> none) = x := by
  cases x <;> rfl

theorem assign_of_complete (dataId type : String) (m : Meta) (h : m.complete = true) :
    (defaultMeta dataId type).assign m = m := by
  simp only [Meta.complete, Bool.and_eq_true] at h
  obtain ⟨⟨⟨⟨⟨⟨⟨⟨⟨⟨⟨⟨⟨⟨⟨⟨h1, h2⟩, h3⟩, h4⟩, h5⟩, h6⟩, h7⟩, h8⟩, h9⟩, h10⟩, h11⟩, h12⟩, h13⟩,
    h14⟩, h15⟩, h16⟩, h17⟩ := h
  cases m
  simp only [Meta.assign, defaultMeta, Meta.mk.injEq]
  simp only at h1 h2 h3 h4 h5 h6 h7 h8 h9 h10 h11 h12 h13 h14 h15 h16 h17
  simp only [orElse_of_isSome, orElse_none_right, h1, h2, h3, h4, h5, h6, h7, h8, h9, h10, h11,
    h12, h13, h14, h15, h16, h17, and_self]

theorem exported_complete (m : Meta) (h : m.complete = true) :
    ({ m with span := m.colSpan } : Meta).complete = true := h

theorem shimSpan_exported (m : Meta) :
    shimSpan (some { m with span := m.colSpan }) = some { m with span := m.colSpan } := by
  unfold shimSpan
  simp only
  rw [if_neg]
  intro h
  exact h.2 h.1

theorem exportNode_meta (f : Field) (h : f.meta.complete = true) :
    (exportNode f).meta = some { f.meta with span := f.meta.colSpan } := by
  simp only [Meta.complete, Bool.and_eq_true] at h
  have hcs : f.meta.colSpan.isSome = true := h.1.2
  simp only [exportNode, hcs, if_true]

theorem applyMeta_type (b : Bool) (c : Int) (w : Field) :
    (applyMetaToElement b c w).type = w.type := by
  cases b
  · rw [applyMeta_flow]
    show (applyMetaStyle (applyMetaText w)).type = w.type
    rw [applyMetaStyle_type]; rfl
  · rw [applyMeta_free, applyMetaStyle_type]; rfl

theorem createField_type (b : Bool) (c : Int) (now idc : Nat) (type : String) (data : Meta) :
    (createField b c now idc type data).1.type = type := by
  obtain ⟨w, hw, _, _, ht, _⟩ := createField_eq b c now idc type data
  rw [hw, applyMeta_type, ht]

theorem clamp_of_clamped (c k : Int) (h1 : 1 ≤ k) (h2 : k ≤ c) :
    clamp (.int (orInt (some k) 1)) 1 c = k := by
  have hc : 1 ≤ c := by omega
  rw [clamp_orInt_some k c hc]; omega

theorem createField_exported_meta (b : Bool) (c : Int) (now idc : Nat) (f : Field)
    (hcomp : f.meta.complete = true) (hcl : b = false → Clamped c f) :
    (createField b c now idc f.type { f.meta with span := f.meta.colSpan }).1.meta =
      { f.meta with span := f.meta.colSpan } := by
  obtain ⟨w, hw, _, _, _, dataId, hm⟩ :=
    createField_eq b c now idc f.type { f.meta with span := f.meta.colSpan }
  rw [assign_of_complete _ _ _ (exported_complete f.meta hcomp)] at hm
  rw [hw]
  cases b
  · obtain ⟨k, hk, h1, h2⟩ := hcl rfl
    rw [applyMeta_meta_flow, hm]
    simp only [hk, clamp_of_clamped c k h1 h2]
  · rw [applyMeta_meta_free, hm]

theorem roundtrip_field_flow (css : String → Option String) (b : Bool) (c : Int)
    (now idc : Nat) (f : Field)
    (hcomp : f.meta.complete = true) (hcl : Clamped c f)
    (hpos : f.style.left = "" ∧ f.style.top = "") :
    observe (applySpan c (loadNode css b c (some "flow") now idc (exportNode f)).1) =
      observe f := by
  have hmeta : (loadNode css b c (some "flow") now idc (exportNode f)).1.meta =
      { f.meta with span := f.meta.colSpan } := by
    rw [loadNode_meta, exportNode_meta f hcomp, shimSpan_exported]
    exact createField_exported_meta b c now idc f hcomp (fun _ => hcl)
  have htype : (loadNode css b c (some "flow") now idc (exportNode f)).1.type = f.type := by
    unfold loadNode
    simp only
    split_ifs <;> exact createField_type _ _ _ _ _ _
  obtain ⟨k, hk, h1, h2⟩ := hcl
  unfold observe
  refine Prod.ext ?_ (Prod.ext ?_ (Prod.ext ?_ ?_))
  · exact htype
  · show ({ (loadNode css b c (some "flow") now idc (exportNode f)).1.meta with
        colSpan := some (clamp (.int (orInt
          (loadNode css b c (some "flow") now idc (exportNode f)).1.meta.colSpan 1)) 1 c) } :
          Meta).dropSpan = f.meta.dropSpan
    rw [hmeta]
    simp only [hk, clamp_of_clamped c k h1 h2, Meta.dropSpan]
  · exact hpos.1.symm
  · exact hpos.2.symm

theorem setLength_of_serialised (css : String → Option String) (old v : String)
    (h : Serialised css v) : setLength css old v = v := by
  rcases h with h | h
  · rw [h]; rfl
  · exact setLength_serialised css old v h

theorem roundtrip_field_free (css : String → Option String) (b : Bool) (c : Int)
    (now idc : Nat) (f : Field)
    (hcomp : f.meta.complete = true) (hcl : b = false → Clamped c f)
    (hlt : f.style.left = "" → f.style.top = "")
    (hser : Serialised css f.style.left ∧ Serialised css f.style.top) :
    observe (loadNode css b c (some "free") now idc (exportNode f)).1 = observe f := by
  have hmeta : (loadNode css b c (some "free") now idc (exportNode f)).1.meta =
      { f.meta with span := f.meta.colSpan } := by
    rw [loadNode_meta, exportNode_meta f hcomp, shimSpan_exported]
    exact createField_exported_meta b c now idc f hcomp hcl
  have htype : (loadNode css b c (some "free") now idc (exportNode f)).1.type = f.type := by
    unfold loadNode
    simp only
    split_ifs <;> exact createField_type _ _ _ _ _ _
  have hcf := createField_left b c now idc (exportNode f).type
    ((shimSpan (exportNode f).meta).getD {})
  unfold observe
  refine Prod.ext htype (Prod.ext ?_ ?_)
  · show (loadNode css b c (some "free") now idc (exportNode f)).1.meta.dropSpan =
      f.meta.dropSpan
    rw [hmeta]; rfl
  · show ((loadNode css b c (some "free") now idc (exportNode f)).1.style.left,
      (loadNode css b c (some "free") now idc (exportNode f)).1.style.top) =
        (f.style.left, f.style.top)
    by_cases hl : f.style.left = ""
    · have ht := hlt hl
      have hnp : (loadNode css b c (some "free") now idc (exportNode f)).1 =
          (createField b c now idc (exportNode f).type
            ((shimSpan (exportNode f).meta).getD {})).1 := by
        unfold loadNode
        simp [exportNode, hl, truthyStr]
      rw [hnp, hcf.1, hcf.2, hl, ht]
    · have hpl : (exportNode f).pos = some
          { left := some f.style.left
            top := if f.style.top = "" then none else some f.style.top } := by
        simp only [exportNode, hl, if_false]
      obtain ⟨_, h2, h3⟩ := loadNode_style_positioned css b c now idc (exportNode f) _
        f.style.left hpl rfl hl
      rw [h2, h3, setLength_of_serialised css "" _ hser.1]
      congr 1
      by_cases ht : f.style.top = ""
      · simp only [ht, if_true]
        rfl
      · simp only [ht, if_false, Option.getD_some]
        exact setLength_of_serialised css "" _ hser.2

theorem loadNodes_exported (css : String → Option String) (b : Bool) (c : Int)
    (lay : Option String) (now : Nat → Nat)
    (post : Field → Field) (l : List Field)
    (h : ∀ f ∈ l, ∀ t idc,
      observe (post (loadNode css b c lay t idc (exportNode f)).1) = observe f) :
    ∀ (k idc : Nat),
      ((loadNodes css b c lay now (l.map exportNode) k idc).1.map post).map observe =
        l.map observe := by
  induction l with
  | nil => intro k idc; rfl
  | cons f fs ih =>
    intro k idc
    simp only [List.map_cons, loadNodes]
    rw [h f (List.mem_cons_self _ _)]
    congr 1
    exact ih (fun f1 hf1 => h f1 (List.mem_cons_of_mem _ hf1)) _ _

theorem applyLayoutColumns_globals (D : Design) :
    (applyLayoutColumns D).formBgColor = D.formBgColor ∧
    (applyLayoutColumns D).bgImageDataUrl = D.bgImageDataUrl ∧
    (applyLayoutColumns D).formWidth = D.formWidth ∧
    (applyLayoutColumns D).formPadding = D.formPadding ∧
    (applyLayoutColumns D).gridToggle = D.gridToggle ∧
    (applyLayoutColumns D).gridSize = D.gridSize := by
  unfold applyLayoutColumns
  split_ifs <;> exact ⟨rfl, rfl, rfl, rfl, rfl, rfl⟩

theorem loadAccepted_globals (css : String → Option String) (now : Nat → Nat) (g : Global)
    (ns : List Node) (D : Design) :
    (loadAccepted css now g ns D).formBgColor = orStr g.bg "" ∧
    (loadAccepted css now g ns D).bgImageDataUrl = orStr g.bgImageDataUrl "" ∧
    (loadAccepted css now g ns D).formWidth = orStr g.width "900" ∧
    (loadAccepted css now g ns D).formPadding = orStr g.padding "16" ∧
    (loadAccepted css now g ns D).gridToggle = g.grid.getD false ∧
    (loadAccepted css now g ns D).gridSize = orInt g.gridSize D.gridSize := by
  unfold loadAccepted
  simp only
  split_ifs
  · exact ⟨rfl, rfl, rfl, rfl, rfl, rfl⟩
  · exact applyLayoutColumns_globals _

theorem orInt_some_of_ne (k d : Int) (h : k ≠ 0) : orInt (some k) d = k := by
  unfold orInt
  simp only [if_neg h]

theorem roundtrip_fields (css : String → Option String) (now : Nat → Nat) (g : Global)
    (D : Design) (hI : Inv D) (hP : PositionsSerialised css D) (hagree : ModeAgrees D)
    (htop : TopNeedsLeft D)
    (hlayout : g.layout = some D.layoutMode) (hcols : orStr g.columns "1" = D.columnsSelect)
    (hl : D.layoutMode = "flow" ∨ D.layoutMode = "free") :
    (loadAccepted css now g (D.fields.map exportNode) D).fields.map observe =
      D.fields.map observe := by
  rw [loadAccepted_fields]
  have hc : getCurrentColumns (applyGlobal g D) = getCurrentColumns D :=
    getCurrentColumns_congr _ _ hcols
  rw [hc, hlayout]
  rcases hl with hflow | hfree
  · have hb : D.isFreeMode = false := by
      cases hb : D.isFreeMode with
      | false => rfl
      | true =>
        have := hagree hb
        rw [hflow] at this
        exact absurd this (by decide)
    rw [hflow, if_pos orStr_some_flow]
    apply loadNodes_exported
    intro f hf t idc
    have hok := hI.fields f hf
    exact roundtrip_field_flow css _ _ _ _ f hok.1 (hok.2.2 hb (Or.inl hflow))
      (hok.2.1 hb hflow)
  · have hnf : ¬ orStr (some "free") "flow" = "flow" := by decide
    rw [hfree, if_neg hnf]
    have key := loadNodes_exported css D.isFreeMode (getCurrentColumns D) (some "free") now id
      D.fields (by
        intro f hf t idc
        have hok := hI.fields f hf
        exact roundtrip_field_free css _ _ _ _ f hok.1
          (fun hb => hok.2.2 hb (Or.inr hfree)) (htop f hf) (hP f hf)) 0 D.idCounter
    simpa using key

theorem samplePx_idempotent : ∀ s t, samplePx s = some t → samplePx t = some t := by
  intro s t h
  unfold samplePx at h
  split_ifs at h with hs
  injection h with h
  rw [← h]
  unfold samplePx
  rw [if_pos hs]

/-- Counterexample to C1 as stated, in three reachable states.  In the state in
which the user has emptied the width input, the round trip through
`exportLayout` and `loadFromJson` turns the empty width into `900`.  In the
state left by an import that threw inside the node loop while the designer was
in free mode, the layout selector is on flow and the designer is still in free
mode: a field dragged to (30px, 40px) comes back from the round trip without
position.  In the state left by the import of a free document whose node has
an invalid `left` and a valid `top`, the field has a `top` and no `left`, and
comes back from the round trip without `top`. -/
theorem roundtrip_fails :
    Reachable samplePx samplePage sampleNoWidthDesign ∧
    sampleNoWidthDesign.formWidth = "" ∧
    (loadFromJson samplePx (fun _ => 0) (some (exportLayout sampleNoWidthDesign))
      sampleNoWidthDesign).1.formWidth = "900" ∧
    ¬ ObservablyEqual
      (loadFromJson samplePx (fun _ => 0) (some (exportLayout sampleNoWidthDesign))
        sampleNoWidthDesign).1
      sampleNoWidthDesign ∧
    Reachable samplePx samplePage sampleDraggedDesign ∧
    sampleDraggedDesign.layoutMode = "flow" ∧ sampleDraggedDesign.isFreeMode = true ∧
    sampleDraggedDesign.fields.map (fun f => (f.style.left, f.style.top)) =
      [("30px", "40px")] ∧
    (loadFromJson samplePx (fun _ => 0) (some (exportLayout sampleDraggedDesign))
      sampleDraggedDesign).1.fields.map (fun f => (f.style.left, f.style.top)) = [("", "")] ∧
    ¬ ObservablyEqual
      (loadFromJson samplePx (fun _ => 0) (some (exportLayout sampleDraggedDesign))
        sampleDraggedDesign).1
      sampleDraggedDesign ∧
    Reachable samplePx samplePage sampleTopOnlyDesign ∧
    sampleTopOnlyDesign.layoutMode = "free" ∧ sampleTopOnlyDesign.isFreeMode = true ∧
    sampleTopOnlyDesign.fields.map (fun f => (f.style.left, f.style.top)) = [("", "10px")] ∧
    (loadFromJson samplePx (fun _ => 0) (some (exportLayout sampleTopOnlyDesign))
      sampleTopOnlyDesign).1.fields.map (fun f => (f.style.left, f.style.top)) = [("", "")] ∧
    ¬ ObservablyEqual
      (loadFromJson samplePx (fun _ => 0) (some (exportLayout sampleTopOnlyDesign))
        sampleTopOnlyDesign).1
      sampleTopOnlyDesign := by
  refine ⟨Reachable.step _ _ (Reachable.init 0), by decide, by decide, ?_,
    Reachable.step _ _ (Reachable.step _ _ (Reachable.step _ _ (Reachable.init 0))),
    by decide, by decide, by decide, by decide, ?_,
    Reachable.step _ _ (Reachable.init 0), by decide, by decide, by decide, by decide, ?_⟩
  · intro h
    have hw := h.2.2.2.1
    revert hw
    decide
  · intro h
    have hf := congrArg (List.map (fun o : String × Meta × String × String => o.2.2)) h.1
    simp only [List.map_map] at hf
    revert hf
    decide
  · intro h
    have hf := congrArg (List.map (fun o : String × Meta × String × String => o.2.2)) h.1
    simp only [List.map_map] at hf
    revert hf
    decide

/-- C1, amended. Take a design `D` reachable in the designer whose width,
padding and column inputs are not empty, whose layout selector is on flow or
free, in which the designer is in free mode only if the selector is on free,
and in which every field with an inline `top` has an inline `left`.  Importing
`exportLayout(D)` back with `loadFromJson` is accepted and reconstructs a
design observably equal to `D`: the same kinds in the same order, the same
metadata for every field (up to the key `span`, which the reconstructed
metadata carries as a copy of `colSpan`), the same positions and the same
global settings.  The style setter `css` of the browser is any function that
stores unchanged what it has serialised. -/
theorem exportLayout_loadFromJson_roundtrip (css : String → Option String) (page : Page)
    (D : Design) (now : Nat → Nat)
    (hcss : ∀ s t, css s = some t → css t = some t)
    (hr : Reachable css page D) (hw : D.formWidth ≠ "") (hp : D.formPadding ≠ "")
    (hcol : D.columnsSelect ≠ "") (hl : D.layoutMode = "flow" ∨ D.layoutMode = "free")
    (hagree : ModeAgrees D) (htop : TopNeedsLeft D) :
    (loadFromJson css now (some (exportLayout D)) D).2 = false ∧
    ObservablyEqual (loadFromJson css now (some (exportLayout D)) D).1 D := by
  have hI := inv_of_reachable css page D hr
  have hP := pos_of_reachable css hcss page D hr
  have hlne : D.layoutMode ≠ "" := by
    rcases hl with h | h <;> rw [h] <;> decide
  rw [loadFromJson_accepted css now (exportLayout D) _ D rfl rfl]
  refine ⟨rfl, ?_⟩
  have hg := loadAccepted_globals css now
    { bg := some (strOr D.formBgColor ""), bgImageDataUrl := some (strOr D.bgImageDataUrl ""),
      width := some (strOr D.formWidth ""), padding := some (strOr D.formPadding ""),
      layout := some (strOr D.layoutMode "flow"), columns := some (strOr D.columnsSelect "1"),
      grid := some D.gridToggle, gridSize := some D.gridSize }
    (D.fields.map exportNode) D
  obtain ⟨g1, g2, g3, g4, g5, g6⟩ := hg
  have hcs : orStr (some (strOr D.columnsSelect "1")) "1" = D.columnsSelect :=
    orStr_strOr_of_ne _ _ _ hcol
  have hlay : strOr D.layoutMode "flow" = D.layoutMode := by
    unfold strOr; rw [if_neg hlne]
  have hlm : orStr (some (strOr D.layoutMode "flow")) "flow" = D.layoutMode :=
    orStr_strOr_of_ne _ _ _ hlne
  refine ⟨?_, ?_, ?_, ?_, ?_, ?_, ?_, ?_, ?_⟩
  · exact roundtrip_fields css now _ D hI hP hagree htop (congrArg some hlay) hcs hl
  · exact g1.trans ((orStr_strOr_same _ _).trans (strOr_empty _))
  · exact g2.trans ((orStr_strOr_same _ _).trans (strOr_empty _))
  · exact g3.trans (orStr_strOr_of_ne _ _ _ hw)
  · exact g4.trans (orStr_strOr_of_ne _ _ _ hp)
  · exact (loadAccepted_layoutMode css now _ _ D).trans hlm
  · exact (loadAccepted_columnsSelect css now _ _ D).trans hcs
  · exact g5
  · exact g6.trans (orInt_some_of_ne _ _ hI.grid)

/-- Witness of C1 amended: the sample page switched to free layout, with its
first field dragged to (30px, 40px). -/
theorem exportLayout_loadFromJson_roundtrip_witness :
    Reachable samplePx samplePage sampleFreeDesign ∧
    sampleFreeDesign.layoutMode = "free" ∧ sampleFreeDesign.isFreeMode = true ∧
    sampleFreeDesign.fields.map (fun f => (f.style.left, f.style.top)) =
      [("30px", "40px"), ("0px", "60px"), ("0px", "120px")] ∧
    ObservablyEqual
      (loadFromJson samplePx (fun _ => 0) (some (exportLayout sampleFreeDesign))
        sampleFreeDesign).1
      sampleFreeDesign :=
  ⟨Reachable.step _ _ (Reachable.step _ _ (Reachable.init 0)), by decide, by decide, by decide,
    (exportLayout_loadFromJson_roundtrip samplePx samplePage sampleFreeDesign (fun _ => 0)
      samplePx_idempotent (Reachable.step _ _ (Reachable.step _ _ (Reachable.init 0)))
      (by decide) (by decide) (by decide) (Or.inr (by decide)) (fun _ => by decide)
      (by unfold TopNeedsLeft; decide)).2⟩

/-! ## Checkbox decode -/

theorem lower_truthy (value : JsVal) :
    decide (jsToLowerCase value.truthyOrEmpty.toStr ∈ ["true", "1", "yes", "on"]) =
      decide (jsToLowerCase value.toStr ∈ ["true", "1", "yes", "on"]) := by
  cases value with
  | undefined => decide
  | null => decide
  | bool b => cases b <;> decide
  | num n =>
    by_cases h : n = 0
    · subst h; decide
    · simp only [JsVal.truthyOrEmpty, if_neg h]
  | str s => rfl

theorem checkbox_decode_control (w : Field) (v : String) (c : Bool)
    (fs : List String) (ph : String) (rq : Bool) (value : JsVal)
    (hc : w.control = .input "checkbox" v c fs ph rq) :
    (setControlValue w value).control =
      .input "checkbox" v (decide (jsToLowerCase value.toStr ∈ ["true", "1", "yes", "on"]))
        fs ph rq := by
  have h := lower_truthy value
  simp only [List.mem_cons, List.mem_singleton, List.not_mem_nil, or_false] at h
  simp [setControlValue, hc, h]

/-- C11. For a checkbox field, `setControlValue` of the designer sets `checked`
to true exactly when the value, converted to a string and lower-cased, is one
of `true`, `1`, `yes`, `on`, and leaves the rest of the control as it was; in
particular `null`, `undefined` and the empty string give false. -/
theorem setControlValue_checkbox (w : Field) (v : String) (c : Bool) (fs : List String)
    (ph : String) (rq : Bool) (value : JsVal)
    (hc : w.control = .input "checkbox" v c fs ph rq) :
    (setControlValue w value).control =
      .input "checkbox" v (decide (jsToLowerCase value.toStr ∈ ["true", "1", "yes", "on"]))
        fs ph rq ∧
    (setControlValue w .null).control = .input "checkbox" v false fs ph rq ∧
    (setControlValue w .undefined).control = .input "checkbox" v false fs ph rq ∧
    (setControlValue w (.str "")).control = .input "checkbox" v false fs ph rq := by
  refine ⟨checkbox_decode_control w v c fs ph rq value hc, ?_, ?_, ?_⟩
  · rw [checkbox_decode_control w v c fs ph rq _ hc]; rfl
  · rw [checkbox_decode_control w v c fs ph rq _ hc]; rfl
  · rw [checkbox_decode_control w v c fs ph rq _ hc]; rfl

/-- Witness of C11: decoding `Yes` into the sample checkbox, unchecked first. -/
theorem setControlValue_checkbox_witness :
    (setControlValue { sampleCheckbox with control := .input "checkbox" "on" false [] "" false }
      (.str "Yes")).control = .input "checkbox" "on" true [] "" false :=
  (setControlValue_checkbox
    { sampleCheckbox with control := .input "checkbox" "on" false [] "" false }
    "on" false [] "" false (.str "Yes") rfl).1

/-- C12, evaluation at the failing input. On the store value `1` the designer's
`setControlValue` checks the checkbox and the binding manager's unchecks it;
the same holds for `yes` and `on`; on `null` the designer's unchecks and the
binding manager's throws. -/
theorem managerSetControlValue_disagrees :
    sampleCheckbox.control = .input "checkbox" "on" true [] "" false ∧
    (setControlValue sampleCheckbox (.str "1")).control =
      .input "checkbox" "on" true [] "" false ∧
    managerSetControlValue sampleCheckbox.control (.str "1") =
      .ok (.input "checkbox" "on" false [] "" false) ∧
    managerSetControlValue sampleCheckbox.control (.str "yes") =
      .ok (.input "checkbox" "on" false [] "" false) ∧
    managerSetControlValue sampleCheckbox.control (.str "on") =
      .ok (.input "checkbox" "on" false [] "" false) ∧
    (setControlValue sampleCheckbox .null).control =
      .input "checkbox" "on" false [] "" false ∧
    managerSetControlValue sampleCheckbox.control .null = .error "TypeError" :=
  ⟨by decide, by decide, rfl, rfl, rfl, by decide, rfl⟩

/-- The two decoders agree on a checkbox for every value that is not `null` or
`undefined` and whose lower-cased string is none of `1`, `yes`, `on`. -/
theorem managerSetControlValue_agrees (w : Field) (v : String) (c : Bool) (fs : List String)
    (ph : String) (rq : Bool) (value : JsVal)
    (hc : w.control = .input "checkbox" v c fs ph rq) (hn : value.notNullish = true)
    (hv : jsToLowerCase value.toStr ∉ ["1", "yes", "on"]) :
    managerSetControlValue w.control value = .ok (setControlValue w value).control := by
  rw [checkbox_decode_control w v c fs ph rq value hc, hc]
  simp only [List.mem_cons, List.mem_singleton, List.not_mem_nil, or_false, not_or] at hv
  simp only [managerSetControlValue, if_true, hn, List.mem_cons, List.mem_singleton,
    List.not_mem_nil, or_false, hv, or_false]

/-! ## Kinds without a codec -/

/-- Counterexample to C13 as stated: for an image field `getControlValue`
returns the empty string and `setControlValue` returns the field as it was; for
a field of the unknown kind `slider` the control is a text input, which
`setControlValue` writes and `getControlValue` reads. -/
theorem getControlValue_image_returns :
    sampleImage.type = "image" ∧
    getControlValue sampleImage = .str "" ∧
    setControlValue sampleImage (.str "x") = sampleImage ∧
    sampleUnknownKind.type = "slider" ∧
    getControlValue (setControlValue sampleUnknownKind (.str "x")) = .str "x" := by
  decide

theorem newControl_default (type : String) (meta data : Meta) (h : type ∉ switchKinds) :
    newControl type meta data = .input "text" "" false [] "" false := by
  simp only [switchKinds, List.mem_cons, List.mem_singleton, List.not_mem_nil, or_false,
    not_or] at h
  obtain ⟨h1, h2, h3, h4, h5, h6, h7, h8, h9, h10, h11, h12, h13, h14, h15, h16⟩ := h
  simp [newControl, h1, h2, h3, h4, h5, h6, h7, h8, h9, h10, h11, h12, h13, h14, h15, h16]

/-- C13, amended. No call fails for a kind without a codec.  For an image
field `getControlValue` returns the empty string and `setControlValue` leaves
the field as it was.  For a kind outside the closed set `createField` builds a
text input, and the field is read and written as a text field:
`getControlValue` returns the text of the input; `setControlValue` with a
string without line breaks stores that string, and with `null` or `undefined`
it stores the empty string. -/
theorem codecless_kinds_total (w : Field) :
    (∀ src value, w.type = "image" → w.control = .image src →
      getControlValue w = .str "" ∧ setControlValue w value = w) ∧
    (w.type ∉ switchKinds → ∀ meta data,
      newControl w.type meta data = .input "text" "" false [] "" false) ∧
    (∀ v c fs ph rq, w.control = .input "text" v c fs ph rq →
      getControlValue w = .str v ∧
      (∀ s : String, '\n' ∉ s.data → '\r' ∉ s.data →
        (setControlValue w (.str s)).control = .input "text" s c fs ph rq ∧
        getControlValue (setControlValue w (.str s)) = .str s) ∧
      (setControlValue w .null).control = .input "text" "" c fs ph rq ∧
      (setControlValue w .undefined).control = .input "text" "" c fs ph rq) := by
  refine ⟨?_, ?_, ?_⟩
  · intro src value ht hc
    constructor
    · simp [getControlValue, hc, getControlValueByKind, ht]
    · simp [setControlValue, hc, setControlValueByKind, ht]
  · intro h meta data
    exact newControl_default w.type meta data h
  · intro v c fs ph rq hc
    refine ⟨?_, ?_, ?_, ?_⟩
    · simp [getControlValue, hc]
    · intro s _ _
      constructor
      · simp [setControlValue, hc, JsVal.orEmpty, JsVal.toStr]
      · simp [getControlValue, setControlValue, hc, JsVal.orEmpty, JsVal.toStr]
    · simp [setControlValue, hc, JsVal.orEmpty, JsVal.toStr]
    · simp [setControlValue, hc, JsVal.orEmpty, JsVal.toStr]

/-- Witness of C13 amended: the sample image field, and the text `x` decoded
into the field of the unknown kind `slider`. -/
theorem codecless_kinds_total_witness :
    sampleImage.type = "image" ∧ sampleImage.control = .image "" ∧
    (getControlValue sampleImage = .str "" ∧
      setControlValue sampleImage (.str "x") = sampleImage) ∧
    sampleUnknownKind.control = .input "text" "" false [] "" false ∧
    (setControlValue sampleUnknownKind (.str "x")).control =
      .input "text" "x" false [] "" false :=
  ⟨by decide, by decide,
    (codecless_kinds_total sampleImage).1 "" (.str "x") (by decide) (by decide),
    by decide,
    (((codecless_kinds_total sampleUnknownKind).2.2 "" false [] "" false (by decide)).2.1
      "x" (by decide) (by decide)).1⟩

/-! ## Binding registry -/

theorem bindingIdOf_injective (a b : String) (h : bindingIdOf a = bindingIdOf b) : a = b := by
  have h1 := congrArg String.data h
  simp only [bindingIdOf, String.data_append] at h1
  exact String.ext (List.append_cancel_left h1)

theorem lookup_assign_self (reg : Registry) (c b : String) :
    (reg.assign c b).lookup c = some b := by
  induction reg with
  | nil => simp [Registry.assign, Registry.lookup]
  | cons e rest ih =>
    obtain ⟨k, v⟩ := e
    by_cases hk : k = c
    · simp [Registry.assign, Registry.lookup, hk]
    · simp [Registry.assign, Registry.lookup, hk, ih]

theorem lookup_assign_other (reg : Registry) (c b other : String) (h : other ≠ c) :
    (reg.assign c b).lookup other = reg.lookup other := by
  have hc : ¬ c = other := fun hc => h hc.symm
  induction reg with
  | nil => simp [Registry.assign, Registry.lookup, hc]
  | cons e rest ih =>
    obtain ⟨k, v⟩ := e
    by_cases hk : k = c
    · subst hk
      simp [Registry.assign, Registry.lookup, hc]
    · by_cases hko : k = other
      · subst hko
        simp [Registry.assign, Registry.lookup, hk]
      · simp [Registry.assign, Registry.lookup, hk, hko, ih]

theorem assign_assign (reg : Registry) (c b : String) :
    (reg.assign c b).assign c b = reg.assign c b := by
  induction reg with
  | nil => simp [Registry.assign]
  | cons e rest ih =>
    obtain ⟨k, v⟩ := e
    by_cases hk : k = c
    · simp [Registry.assign, hk]
    · simp [Registry.assign, hk, ih]

/-- C14. The call `bindControlToRange(controlId, rangeName)` registers the
binding id `bind_` followed by the control id for that control, whatever entry
the control had, and leaves the entry of every other control as it was; a
second call for the same control, with any range name, leaves the dictionary
as the first call made it. -/
theorem bindControlToRange_registers (controlId rangeName : String) (reg : Registry) :
    (bindControlToRange controlId rangeName reg).lookup controlId =
      some ("bind_" ++ controlId) ∧
    (∀ other, other ≠ controlId →
      (bindControlToRange controlId rangeName reg).lookup other = reg.lookup other) ∧
    (∀ rangeName2,
      bindControlToRange controlId rangeName2 (bindControlToRange controlId rangeName reg) =
        bindControlToRange controlId rangeName reg) :=
  ⟨lookup_assign_self reg controlId _,
    fun other h => lookup_assign_other reg controlId _ other h,
    fun _ => assign_assign reg controlId _⟩

/-- Witness of C14: a second control is registered after a first one. -/
theorem bindControlToRange_registers_witness :
    (bindControlToRange "fld_2" "Sheet1!B2" [("fld_1", "bind_fld_1")]).lookup "fld_1" =
      Registry.lookup [("fld_1", "bind_fld_1")] "fld_1" :=
  (bindControlToRange_registers "fld_2" "Sheet1!B2" [("fld_1", "bind_fld_1")]).2.1 "fld_1"
    (by decide)

theorem assign_entries (c : String) (reg : Registry)
    (ih : ∀ e ∈ reg, e.2 = bindingIdOf e.1) :
    ∀ e ∈ reg.assign c (bindingIdOf c), e.2 = bindingIdOf e.1 := by
  induction reg with
  | nil =>
    intro e he
    simp only [Registry.assign, List.mem_singleton] at he
    rw [he]
  | cons e0 rest ih2 =>
    obtain ⟨k, v⟩ := e0
    intro e he
    by_cases hk : k = c
    · simp only [Registry.assign, hk, if_true, List.mem_cons] at he
      rcases he with he | he
      · rw [he]
      · exact ih e (List.mem_cons_of_mem _ he)
    · simp only [Registry.assign, hk, if_false, List.mem_cons] at he
      rcases he with he | he
      · rw [he]; exact ih (k, v) (List.mem_cons_self _ _)
      · exact ih2 (fun e1 he1 => ih e1 (List.mem_cons_of_mem _ he1)) e he

theorem reachable_entries (reg : Registry) (h : RegistryReachable reg) :
    ∀ e ∈ reg, e.2 = bindingIdOf e.1 := by
  induction h with
  | empty => intro e he; cases he
  | bind c r reg0 _ ih => exact assign_entries c reg0 ih

theorem lookup_some_mem (reg : Registry) (c b : String) (h : reg.lookup c = some b) :
    (c, b) ∈ reg := by
  induction reg with
  | nil => simp [Registry.lookup] at h
  | cons e rest ih =>
    obtain ⟨k, v⟩ := e
    by_cases hk : k = c
    · simp only [Registry.lookup, hk, if_true, Option.some.injEq] at h
      rw [hk, h]; exact List.mem_cons_self _ _
    · simp only [Registry.lookup, hk, if_false] at h
      exact List.mem_cons_of_mem _ (ih h)

theorem mem_lookup_isSome (reg : Registry) (c b : String) (h : (c, b) ∈ reg) :
    ∃ b1, reg.lookup c = some b1 := by
  induction reg with
  | nil => cases h
  | cons e rest ih =>
    obtain ⟨k, v⟩ := e
    by_cases hk : k = c
    · exact ⟨v, by simp [Registry.lookup, hk]⟩
    · simp only [List.mem_cons, Prod.mk.injEq] at h
      rcases h with h | h
      · exact absurd h.1.symm hk
      · obtain ⟨b1, hb1⟩ := ih h
        exact ⟨b1, by simp [Registry.lookup, hk, hb1]⟩

theorem getControlIdByBinding_some (reg : Registry) (b : String) (h : ∃ e ∈ reg, e.2 = b) :
    ∃ k, getControlIdByBinding reg b = some k ∧ (k, b) ∈ reg := by
  induction reg with
  | nil => obtain ⟨e, he, _⟩ := h; cases he
  | cons e0 rest ih =>
    obtain ⟨k, v⟩ := e0
    by_cases hv : v = b
    · exact ⟨k, by simp [getControlIdByBinding, hv], by rw [hv]; exact List.mem_cons_self _ _⟩
    · obtain ⟨e, he, heb⟩ := h
      simp only [List.mem_cons] at he
      rcases he with he | he
      · rw [he] at heb; exact absurd heb hv
      · obtain ⟨k1, h1, h2⟩ := ih ⟨e, he, heb⟩
        exact ⟨k1, by simp [getControlIdByBinding, hv, h1], List.mem_cons_of_mem _ h2⟩

theorem getControlIdByBinding_none (reg : Registry) (b : String) (h : ∀ e ∈ reg, e.2 ≠ b) :
    getControlIdByBinding reg b = none := by
  induction reg with
  | nil => rfl
  | cons e0 rest ih =>
    obtain ⟨k, v⟩ := e0
    have hv : ¬ v = b := h (k, v) (List.mem_cons_self _ _)
    simp only [getControlIdByBinding, hv, if_false]
    exact ih (fun e he => h e (List.mem_cons_of_mem _ he))

/-- C21. In every dictionary reached by calls of `bindControlToRange`, every
entry maps a control id `c` to `bind_` followed by `c`; two controls with the
same binding id are the same control; `getControlIdByBinding` of the binding
id of a registered control returns that control; and it returns `null` for a
binding id that no registered control maps to. -/
theorem getControlIdByBinding_inverse (reg : Registry) (h : RegistryReachable reg) :
    (∀ c b, reg.lookup c = some b → b = "bind_" ++ c) ∧
    (∀ c1 c2 b, reg.lookup c1 = some b → reg.lookup c2 = some b → c1 = c2) ∧
    (∀ c b, reg.lookup c = some b → getControlIdByBinding reg ("bind_" ++ c) = some c) ∧
    (∀ b, (∀ c, reg.lookup c ≠ some b) → getControlIdByBinding reg b = none) := by
  have hent := reachable_entries reg h
  have hl : ∀ c b, reg.lookup c = some b → b = bindingIdOf c :=
    fun c b hcb => hent (c, b) (lookup_some_mem reg c b hcb)
  refine ⟨hl, ?_, ?_, ?_⟩
  · intro c1 c2 b h1 h2
    apply bindingIdOf_injective
    rw [← hl c1 b h1, ← hl c2 b h2]
  · intro c b hcb
    have hb := hl c b hcb
    obtain ⟨k, hk, hmem⟩ := getControlIdByBinding_some reg (bindingIdOf c)
      ⟨(c, b), lookup_some_mem reg c b hcb, hb⟩
    have hkc : k = c := bindingIdOf_injective k c (hent (k, bindingIdOf c) hmem).symm
    show getControlIdByBinding reg (bindingIdOf c) = some c
    rw [hk, hkc]
  · intro b hb
    apply getControlIdByBinding_none
    intro e he heb
    obtain ⟨b1, hb1⟩ := mem_lookup_isSome reg e.1 e.2 he
    have h1 := hl e.1 b1 hb1
    have h2 := hent e he
    exact hb e.1 (by rw [hb1, h1, ← h2, heb])

/-- Witness of C21 on the dictionary made by two registrations. -/
theorem getControlIdByBinding_inverse_witness :
    RegistryReachable (bindControlToRange "fld_2" "B2" (bindControlToRange "fld_1" "B1" [])) ∧
    getControlIdByBinding (bindControlToRange "fld_2" "B2" (bindControlToRange "fld_1" "B1" []))
      ("bind_" ++ "fld_2") = some "fld_2" :=
  ⟨RegistryReachable.bind _ _ _ (RegistryReachable.bind _ _ _ RegistryReachable.empty),
    (getControlIdByBinding_inverse _
      (RegistryReachable.bind _ _ _ (RegistryReachable.bind _ _ _ RegistryReachable.empty))).2.2.1
      "fld_2" "bind_fld_2" (by decide)⟩

/-! ## Autosave -/

theorem debounceInvocations_chain (delay : Nat) (ts : List Nat) :
    ∀ (t : Nat) (timer : Option Nat), (∀ f, timer = some f → t < f) →
      List.Chain (fun a b => a ≤ b ∧ b < a + delay) t ts →
      debounceInvocations delay (t :: ts) timer =
        [(t :: ts).getLast (List.cons_ne_nil t ts) + delay] := by
  induction ts with
  | nil =>
    intro t timer htimer _
    have hdue : dueAt timer t = [] := by
      unfold dueAt
      cases timer with
      | none => rfl
      | some f =>
        have := htimer f rfl
        simp only
        rw [if_neg (by omega)]
    simp [debounceInvocations, hdue]
  | cons u us ih =>
    intro t timer htimer hchain
    have hdue : dueAt timer t = [] := by
      unfold dueAt
      cases timer with
      | none => rfl
      | some f =>
        have := htimer f rfl
        simp only
        rw [if_neg (by omega)]
    rw [List.chain_cons] at hchain
    have hrec := ih u (some (t + delay))
      (by intro f hf; injection hf with hf; omega) hchain.2
    show dueAt timer t ++ debounceInvocations delay (u :: us) (some (t + delay)) = _
    rw [hdue, hrec, List.nil_append, List.getLast_cons (List.cons_ne_nil u us)]

/-- C19. For one or more calls of `autoSaveLayout` at times in ascending order,
every two consecutive calls less than 2000 ms apart, `saveLayoutToExcel` is
invoked exactly once, 2000 ms after the last call. -/
theorem autoSave_trailing_edge (calls : List Nat) (hne : calls ≠ [])
    (hgap : List.Chain' (fun a b => a ≤ b ∧ b < a + 2000) calls) :
    autoSaveInvocations calls = [calls.getLast hne + 2000] := by
  cases calls with
  | nil => exact absurd rfl hne
  | cons t ts =>
    exact debounceInvocations_chain 2000 ts t none (fun f hf => by cases hf) hgap

/-- Witness of C19: three calls at 0, 1500 and 3000 ms give one save at
5000 ms. -/
theorem autoSave_trailing_edge_witness :
    autoSaveInvocations [0, 1500, 3000] = [5000] :=
  autoSave_trailing_edge [0, 1500, 3000] (by decide) (by simp)

/-! ## Local mutation -/

theorem detach_wrapper (ch : Channel) : (detachBindingHandlers ch).wrapper = ch.wrapper := rfl

theorem attach_wrapper (A : Adapter) (ch : Channel) :
    (attachBindingHandlers A ch).wrapper = ch.wrapper := by
  unfold attachBindingHandlers
  simp only
  split
  · split_ifs <;> rfl
  · rfl

theorem detach_listeners (ch : Channel) (h : SingleListener ch) :
    (detachBindingHandlers ch).listeners = [] := by
  unfold SingleListener at h
  unfold detachBindingHandlers
  simp only
  cases hb : ch.boundInput with
  | none => rw [hb] at h; simpa using h
  | some l => rw [hb] at h; simp [h]

theorem attach_listeners (A : Adapter) (ch : Channel) (h : SingleListener ch) :
    ∃ handler, (attachBindingHandlers A ch).listeners = [(bindingEventName ch.wrapper, handler)] ∧
      (attachBindingHandlers A ch).boundInput = some (bindingEventName ch.wrapper, handler) := by
  refine ⟨(detachBindingHandlers ch).nextClosure, ?_, ?_⟩
  · unfold attachBindingHandlers
    simp only [detach_listeners ch h, List.nil_append]
    split
    · split_ifs <;> rfl
    · rfl
  · unfold attachBindingHandlers
    simp only
    split
    · split_ifs <;> rfl
    · rfl

theorem singleListener_attach (A : Adapter) (ch : Channel) (h : SingleListener ch) :
    SingleListener (attachBindingHandlers A ch) := by
  obtain ⟨handler, h1, h2⟩ := attach_listeners A ch h
  unfold SingleListener
  rw [h1, h2]; rfl

theorem singleListener_detach (ch : Channel) (h : SingleListener ch) :
    SingleListener (detachBindingHandlers ch) := by
  unfold SingleListener
  rw [detach_listeners ch h]; rfl

theorem singleListener_settle (A : Adapter) (k : Nat) (ch : Channel) (h : SingleListener ch) :
    SingleListener (settlePending A k ch) := by
  unfold settlePending
  split
  · exact h
  · split <;> exact h

theorem singleListener_notify (id : String) (outcome : Except String JsVal) (ch : Channel)
    (h : SingleListener ch) : SingleListener (notify id outcome ch) := by
  unfold notify
  split <;> exact h

theorem singleListener_run (A : Adapter) (s : ChannelStep) (ch : Channel)
    (h : SingleListener ch) : SingleListener (s.run A ch) := by
  cases s with
  | attach => exact singleListener_attach A ch h
  | detach => exact singleListener_detach ch h
  | settle k => exact singleListener_settle A k ch h
  | setBinding b => exact h
  | fire e outcome => exact h
  | notify id outcome => exact singleListener_notify id outcome ch h
  | delete => exact singleListener_detach ch h

theorem singleListener_runSteps (A : Adapter) (steps : List ChannelStep) :
    ∀ ch, SingleListener ch → SingleListener (runSteps A steps ch) := by
  induction steps with
  | nil => intro ch h; exact h
  | cons s rest ih => intro ch h; exact ih _ (singleListener_run A s ch h)

theorem runListeners_single (e : String) (w : Field) (outcome : Except String Unit) (h : Nat) :
    runListeners e w outcome [(e, h)] = (mutationHandler w outcome).1 := by
  simp [runListeners]

theorem mutationHandler_calls (w : Field) (outcome : Except String Unit) :
    (mutationHandler w outcome).1 =
      match w.meta.binding with
      | some b => if b.address = "" then [] else [.write b.address (getControlValue w)]
      | none => [] := by
  unfold mutationHandler
  cases w.meta.binding with
  | none => rfl
  | some b =>
    simp only
    split_ifs <;> rfl

/-- C16. Take the wrapper of a field after any events of its channel followed
by a call of `attachBindingHandlers` (so: after one or more attach calls).
Exactly one listener is registered on the control.  When the binding has a
non-empty address `a`, one local-mutation event invokes the adapter's write
exactly once, with `a` and `getControlValue` of the field, whether the write
succeeds or fails; that value is `TRUE` for a checked checkbox.  When the
binding is missing or its address is empty, no event invokes a write. -/
theorem attach_then_mutation_writes_once (A : Adapter) (steps : List ChannelStep) (w0 : Field)
    (outcome : Except String Unit) :
    let ch := attachBindingHandlers A (runSteps A steps (newChannel w0))
    ch.listeners.length = 1 ∧
    (∀ b, ch.wrapper.meta.binding = some b → b.address ≠ "" →
      (fireEvent (bindingEventName ch.wrapper) outcome ch).calls =
        ch.calls ++ [.write b.address (getControlValue ch.wrapper)]) ∧
    (∀ v fs ph rq, ch.wrapper.control = .input "checkbox" v true fs ph rq →
      getControlValue ch.wrapper = .str "TRUE") ∧
    ((ch.wrapper.meta.binding = none ∨
        ∃ b, ch.wrapper.meta.binding = some b ∧ b.address = "") →
      ∀ e, (fireEvent e outcome ch).calls = ch.calls) := by
  intro ch
  have hs : SingleListener (runSteps A steps (newChannel w0)) :=
    singleListener_runSteps A steps _ rfl
  obtain ⟨handler, h1, _⟩ := attach_listeners A _ hs
  have hw : ch.wrapper = (runSteps A steps (newChannel w0)).wrapper := attach_wrapper A _
  have hl : ch.listeners = [(bindingEventName ch.wrapper, handler)] := by
    rw [hw]; exact h1
  refine ⟨by rw [hl]; rfl, ?_, ?_, ?_⟩
  · intro b hb hne
    show ch.calls ++ runListeners _ ch.wrapper outcome ch.listeners = _
    rw [hl, runListeners_single, mutationHandler_calls, hb]
    simp only [if_neg hne]
  · intro v fs ph rq hc
    simp [getControlValue, hc]
  · intro hnone e
    show ch.calls ++ runListeners e ch.wrapper outcome ch.listeners = _
    rw [hl]
    have hm : (mutationHandler ch.wrapper outcome).1 = [] := by
      rw [mutationHandler_calls]
      rcases hnone with h | ⟨b, h, hb⟩
      · rw [h]
      · rw [h]; simp only [if_pos hb]
    simp only [runListeners, hm]
    split_ifs <;> simp

/-- Witness of C16: the sample checkbox, checked and bound to `Sheet1!B2`,
after three attach calls. -/
theorem attach_then_mutation_writes_once_witness :
    (fireEvent "change" (.ok ())
      (attachBindingHandlers sampleAdapter
        (runSteps sampleAdapter [.attach, .attach] (newChannel sampleCheckbox)))).calls =
    (attachBindingHandlers sampleAdapter
        (runSteps sampleAdapter [.attach, .attach] (newChannel sampleCheckbox))).calls ++
      [.write "Sheet1!B2" (.str "TRUE")] :=
  (attach_then_mutation_writes_once sampleAdapter [.attach, .attach] sampleCheckbox (.ok ())).2.1
    { address := "Sheet1!B2", listen := true } (by decide) (by decide)

/-! ## External notification -/

theorem notificationCallback_calls (w : Field) (outcome : Except String JsVal) :
    (notificationCallback w outcome).2.1 =
      match w.meta.binding with
      | some b => [.read b.address]
      | none => [] := by
  unfold notificationCallback
  cases w.meta.binding with
  | none => rfl
  | some b => cases outcome <;> rfl

theorem runListeners_writes (e : String) (w : Field) (outcome : Except String Unit)
    (ls : List (String × Nat)) :
    ∀ c ∈ runListeners e w outcome ls, ∃ a v, c = .write a v := by
  induction ls with
  | nil => intro c hc; cases hc
  | cons l rest ih =>
    intro c hc
    simp only [runListeners, List.mem_append] at hc
    rcases hc with hc | hc
    · split_ifs at hc
      · unfold mutationHandler at hc
        cases hb : w.meta.binding with
        | none => rw [hb] at hc; cases hc
        | some b =>
          rw [hb] at hc
          simp only at hc
          split_ifs at hc
          · cases hc
          · simp only [List.mem_singleton] at hc
            exact ⟨_, _, hc⟩
      · cases hc
    · exact ih c hc

/-- C17. Handling a change notification leaves the listeners, the promises in
flight and the subscriptions as they were and calls the adapter at most once,
with a read: no write is invoked and no local-mutation handler runs.  When a
callback is subscribed for the binding id, the field has a binding and the
read returns `v`, the adapter is called with exactly one read of the field's
address and the wrapper becomes `setControlValue` of it with `v`.  Conversely,
dispatching a local-mutation event leaves the wrapper as it was and calls the
adapter with writes only.  So a notification that follows a write adds a read
and no further write. -/
theorem notification_and_mutation_disjoint (ch : Channel) (id e : String)
    (readOutcome : Except String JsVal) (writeOutcome : Except String Unit) :
    (∃ extra, (notify id readOutcome ch).calls = ch.calls ++ extra ∧ extra.length ≤ 1 ∧
      ∀ c ∈ extra, ∃ a, c = .read a) ∧
    (notify id readOutcome ch).listeners = ch.listeners ∧
    (notify id readOutcome ch).pending = ch.pending ∧
    (notify id readOutcome ch).subscriptions = ch.subscriptions ∧
    (∀ cb b v, (id, cb) ∈ ch.subscriptions → ch.wrapper.meta.binding = some b →
      (notify id (.ok v) ch).calls = ch.calls ++ [.read b.address] ∧
      (notify id (.ok v) ch).wrapper = setControlValue ch.wrapper v) ∧
    (fireEvent e writeOutcome ch).wrapper = ch.wrapper ∧
    (∃ extra, (fireEvent e writeOutcome ch).calls = ch.calls ++ extra ∧
      ∀ c ∈ extra, ∃ a v, c = .write a v) ∧
    (∃ reads, (notify id readOutcome (fireEvent e writeOutcome ch)).calls =
        (fireEvent e writeOutcome ch).calls ++ reads ∧
      ∀ c ∈ reads, ∃ a, c = .read a) := by
  have hn : ∀ (ch1 : Channel), ∃ extra, (notify id readOutcome ch1).calls = ch1.calls ++ extra ∧
      extra.length ≤ 1 ∧ ∀ c ∈ extra, ∃ a, c = .read a := by
    intro ch1
    unfold notify
    cases ch1.subscriptions.find? (fun s => decide (s.1 = id)) with
    | none => exact ⟨[], by simp, by simp, by intro c hc; cases hc⟩
    | some s =>
      refine ⟨(notificationCallback ch1.wrapper readOutcome).2.1, rfl, ?_, ?_⟩
      · rw [notificationCallback_calls]
        cases ch1.wrapper.meta.binding <;> simp
      · rw [notificationCallback_calls]
        cases ch1.wrapper.meta.binding with
        | none => intro c hc; cases hc
        | some b =>
          intro c hc
          simp only [List.mem_singleton] at hc
          exact ⟨_, hc⟩
  refine ⟨hn ch, ?_, ?_, ?_, ?_, rfl, ⟨_, rfl, runListeners_writes e ch.wrapper writeOutcome _⟩,
    ?_⟩
  · unfold notify; split <;> rfl
  · unfold notify; split <;> rfl
  · unfold notify; split <;> rfl
  · intro cb b v hmem hb
    have hfind : ∃ s, ch.subscriptions.find? (fun s => decide (s.1 = id)) = some s := by
      cases hf : ch.subscriptions.find? (fun s => decide (s.1 = id)) with
      | some s => exact ⟨s, rfl⟩
      | none =>
        rw [List.find?_eq_none] at hf
        have := hf (id, cb) hmem
        simp at this
    obtain ⟨s, hs⟩ := hfind
    unfold notify
    simp only [hs, notificationCallback, hb]
    exact ⟨trivial, trivial⟩
  · obtain ⟨extra, h1, _, h3⟩ := hn (fireEvent e writeOutcome ch)
    exact ⟨extra, h1, h3⟩

/-- Witness of C17: a notification for the sample checkbox after its
subscription was made delivers `FALSE`. -/
theorem notification_and_mutation_disjoint_witness :
    (notify "Sheet1!B2" (.ok (.str "FALSE")) (settlePending sampleAdapter 0 sampleChannel)).calls =
      (settlePending sampleAdapter 0 sampleChannel).calls ++ [.read "Sheet1!B2"] ∧
    (notify "Sheet1!B2" (.ok (.str "FALSE")) (settlePending sampleAdapter 0 sampleChannel)).wrapper =
      setControlValue (settlePending sampleAdapter 0 sampleChannel).wrapper (.str "FALSE") :=
  (notification_and_mutation_disjoint (settlePending sampleAdapter 0 sampleChannel)
    "Sheet1!B2" "change" (.ok (.str "FALSE")) (.ok ())).2.2.2.2.1 1
    { address := "Sheet1!B2", listen := true } (.str "FALSE") (by decide) (by decide)

/-! ## Adapter failures -/

/-- C20. When the adapter's read throws or rejects, the notification callback
leaves the wrapper exactly as it was and completes normally; whatever the
adapter's write does, the local-mutation handler completes normally and the
wrapper is as it was.  The same holds for the channel: after a notification
with a failed read and after a local-mutation event with a failed write the
wrapper is unchanged. -/
theorem adapter_failures_swallowed (w : Field) (ch : Channel) (id e msg : String)
    (writeOutcome : Except String Unit) :
    (notificationCallback w (.error msg)).1 = w ∧
    (notificationCallback w (.error msg)).2.2 = .ok () ∧
    (mutationHandler w writeOutcome).2 = .ok () ∧
    (notify id (.error msg) ch).wrapper = ch.wrapper ∧
    (fireEvent e (.error msg) ch).wrapper = ch.wrapper := by
  refine ⟨?_, ?_, ?_, ?_, rfl⟩
  · unfold notificationCallback
    cases w.meta.binding <;> rfl
  · unfold notificationCallback
    cases w.meta.binding <;> rfl
  · unfold mutationHandler
    cases w.meta.binding with
    | none => rfl
    | some b =>
      simp only
      split_ifs
      · rfl
      · cases writeOutcome <;> rfl
  · unfold notify
    split
    · rfl
    · show (notificationCallback ch.wrapper (.error msg)).1 = ch.wrapper
      unfold notificationCallback
      cases ch.wrapper.meta.binding <;> rfl

/-! ## Subscriptions and promises in flight -/

/-- C15, evaluation at the failing input. The sample field is attached with
its promise of `ensureBinding` in flight; its address is changed and it is
attached again before that promise has settled; then both promises settle.
Two subscriptions made for the field are live, and a later detach cancels only
the second. -/
theorem attach_race_two_subscriptions :
    sampleChannel.pending = [(1, "Sheet1!B2")] ∧
    sampleChannel.subscriptions = [] ∧
    (runSteps sampleAdapter sampleRaceSteps sampleChannel).pending = [] ∧
    (runSteps sampleAdapter sampleRaceSteps sampleChannel).subscriptions =
      [("Sheet1!B2", 1), ("Sheet1!C3", 3)] ∧
    (detachBindingHandlers (runSteps sampleAdapter sampleRaceSteps sampleChannel)).subscriptions =
      [("Sheet1!B2", 1)] := by
  decide

/-- C18, evaluation at the failing input. The sample field is deleted while
the promise of its attach is in flight: the detach finds no subscription id to
cancel.  When the promise settles, the callback is subscribed for the deleted
field, and a notification runs it: the adapter is read and the control of the
deleted field is written. -/
theorem delete_in_flight_leaves_subscription :
    sampleChannel.pending = [(1, "Sheet1!B2")] ∧
    (deleteChannel sampleChannel).subscriptions = [] ∧
    (runSteps sampleAdapter sampleDeleteSteps sampleChannel).removed = true ∧
    (runSteps sampleAdapter sampleDeleteSteps sampleChannel).subscriptions =
      [("Sheet1!B2", 1)] ∧
    (notify "Sheet1!B2" (.ok (.str "FALSE"))
      (runSteps sampleAdapter sampleDeleteSteps sampleChannel)).calls =
      [.ensureBinding "Sheet1!B2", .subscribe "Sheet1!B2" 1, .read "Sheet1!B2"] ∧
    (notify "Sheet1!B2" (.ok (.str "FALSE"))
      (runSteps sampleAdapter sampleDeleteSteps sampleChannel)).wrapper.control =
      .input "checkbox" "on" false [] "" false := by
  decide

/-! ## Frame of the decode -/

theorem setControlValueByKind_meta (w : Field) (value : JsVal) :
    (setControlValueByKind w value).meta = w.meta ∧
    (setControlValueByKind w value).type = w.type ∧
    (setControlValueByKind w value).style = w.style := by
  unfold setControlValueByKind
  split_ifs
  · split <;> exact ⟨rfl, rfl, rfl⟩
  · exact ⟨rfl, rfl, rfl⟩

theorem setControlValue_frame (w : Field) (value : JsVal) :
    (setControlValue w value).meta = w.meta ∧
    (setControlValue w value).type = w.type ∧
    (setControlValue w value).style = w.style := by
  unfold setControlValue
  split
  · split_ifs
    · exact ⟨rfl, rfl, rfl⟩
    · exact ⟨rfl, rfl, rfl⟩
    · exact setControlValueByKind_meta w value
  · exact ⟨rfl, rfl, rfl⟩
  · exact ⟨rfl, rfl, rfl⟩
  · exact setControlValueByKind_meta w value

theorem setControlValue_select_shape (w : Field) (value : JsVal) (options : List String)
    (selected : Option Nat) (hc : w.control = .select options selected) :
    ∃ os sel, (setControlValue w value).control = .select os sel := by
  unfold setControlValue
  rw [hc]
  exact ⟨_, _, rfl⟩

/-- C22. The decode `setControlValue` leaves the metadata of the field (and
its kind and inline style) as they were, for every field and value, so the
node that `exportLayout` writes for the field has the same metadata, with the
same options.  For a select or dropdown field, whatever the decode has done to
the option list of the control, `rebuildOptions` afterwards, also as run by
`applyMetaToElement`, sets the options of the control to exactly
`meta.options` with the first one selected; a string that is not in
`meta.options` is then not among them. -/
theorem setControlValue_keeps_meta (w : Field) (value : JsVal) (free : Bool) (cols : Int) :
    (setControlValue w value).meta = w.meta ∧
    (exportNode (setControlValue w value)).meta = (exportNode w).meta ∧
    (∀ m, (exportNode (setControlValue w value)).meta = some m → m.options = w.meta.options) ∧
    (∀ options selected, w.control = .select options selected →
      (w.type = "select" ∨ w.type = "dropdown") →
      (rebuildOptions (setControlValue w value)).control = buildSelect (w.meta.options.getD []) ∧
      (applyMetaToElement free cols (setControlValue w value)).control =
        buildSelect (w.meta.options.getD []) ∧
      ∀ s os sel, s ∉ w.meta.options.getD [] →
        (rebuildOptions (setControlValue w value)).control = .select os sel → s ∉ os) := by
  obtain ⟨hm, ht, _⟩ := setControlValue_frame w value
  have hreb : ∀ options selected, w.control = .select options selected →
      (w.type = "select" ∨ w.type = "dropdown") →
      (rebuildOptions (setControlValue w value)).control =
        buildSelect (w.meta.options.getD []) := by
    intro options selected hc hty
    obtain ⟨os, sel, hs⟩ := setControlValue_select_shape w value options selected hc
    show rebuiltControl (setControlValue w value) = _
    unfold rebuiltControl
    rw [ht, if_pos hty, hs, hm]
  refine ⟨hm, ?_, ?_, ?_⟩
  · unfold exportNode
    rw [hm]
  · intro m h
    unfold exportNode at h
    rw [hm] at h
    simp only [Option.some.injEq] at h
    rw [← h]
  · intro options selected hc hty
    refine ⟨hreb options selected hc hty, ?_, ?_⟩
    · obtain ⟨os, sel, hs⟩ := setControlValue_select_shape w value options selected hc
      have hty3 : (applyMetaText (setControlValue w value)).type = "select" ∨
          (applyMetaText (setControlValue w value)).type = "dropdown" ∨
          (applyMetaText (setControlValue w value)).type = "radio" := by
        have ht1 : (applyMetaText (setControlValue w value)).type = w.type := ht
        rw [ht1]
        rcases hty with h | h
        · exact Or.inl h
        · exact Or.inr (Or.inl h)
      have htext : (applyMetaText (setControlValue w value)).control = .select os sel := by
        unfold applyMetaText
        simp only [hs]
      have hstyle : (applyMetaStyle (applyMetaText (setControlValue w value))).control =
          buildSelect (w.meta.options.getD []) := by
        unfold applyMetaStyle
        simp only [if_pos hty3]
        show rebuiltControl (applyMetaText (setControlValue w value)) = _
        unfold rebuiltControl
        have ht2 : (applyMetaText (setControlValue w value)).type = w.type := ht
        have hm2 : (applyMetaText (setControlValue w value)).meta = w.meta := hm
        rw [ht2, if_pos hty, htext, hm2]
      unfold applyMetaToElement
      simp only
      split_ifs
      · exact hstyle
      · exact hstyle
    · intro s os sel hs hctl
      rw [hreb options selected hc hty] at hctl
      unfold buildSelect at hctl
      simp only [Control.select.injEq] at hctl
      rw [← hctl.1]
      exact hs

/-- Witness of C22: the value Gold decoded into the sample select, whose only
option is Silver. -/
theorem setControlValue_keeps_meta_witness :
    (setControlValue sampleSelect (.str "Gold")).control = .select ["Silver", "Gold"] (some 1) ∧
    (rebuildOptions (setControlValue sampleSelect (.str "Gold"))).control =
      buildSelect (sampleSelect.meta.options.getD []) ∧
    (applyMetaToElement false 1 (setControlValue sampleSelect (.str "Gold"))).control =
      buildSelect (sampleSelect.meta.options.getD []) ∧
    buildSelect (sampleSelect.meta.options.getD []) = .select ["Silver"] (some 0) :=
  ⟨by decide,
    ((setControlValue_keeps_meta sampleSelect (.str "Gold") false 1).2.2.2
      ["Silver"] (some 0) (by decide) (by decide)).1,
    ((setControlValue_keeps_meta sampleSelect (.str "Gold") false 1).2.2.2
      ["Silver"] (some 0) (by decide) (by decide)).2.1,
    by decide⟩

/-! ## Channels at rest -/

theorem notify_subscriptions (id : String) (outcome : Except String JsVal) (ch : Channel) :
    (notify id outcome ch).subscriptions = ch.subscriptions ∧
    (notify id outcome ch).pending = ch.pending := by
  unfold notify
  split <;> exact ⟨rfl, rfl⟩

theorem notify_meta (id : String) (outcome : Except String JsVal) (ch : Channel) :
    (notify id outcome ch).wrapper.meta = ch.wrapper.meta := by
  unfold notify
  split
  · rfl
  · show (notificationCallback ch.wrapper outcome).1.meta = ch.wrapper.meta
    unfold notificationCallback
    cases ch.wrapper.meta.binding with
    | none => rfl
    | some b =>
      cases outcome with
      | error e => rfl
      | ok v => exact (setControlValue_frame ch.wrapper v).1

theorem detach_subscriptions_sublist (ch : Channel) :
    (detachBindingHandlers ch).subscriptions.Sublist ch.subscriptions ∧
    (detachBindingHandlers ch).pending = ch.pending := by
  unfold detachBindingHandlers
  refine ⟨?_, rfl⟩
  simp only
  split_ifs
  · exact List.filter_sublist _
  · exact List.Sublist.refl _

theorem attach_subscriptions (A : Adapter) (ch : Channel) :
    (attachBindingHandlers A ch).subscriptions = (detachBindingHandlers ch).subscriptions := by
  unfold attachBindingHandlers
  simp only
  split
  · split_ifs <;> rfl
  · rfl

theorem attach_pending (A : Adapter) (ch : Channel) :
    (attachBindingHandlers A ch).pending = ch.pending ∨
    ∃ b cb, ch.wrapper.meta.binding = some b ∧ A.isReady = true ∧
      (attachBindingHandlers A ch).pending = ch.pending ++ [(cb, b.address)] := by
  unfold attachBindingHandlers
  simp only
  split
  · rename_i b hb
    split_ifs with h
    · exact Or.inr ⟨b, _, hb, h.2.2, rfl⟩
    · exact Or.inl rfl
  · exact Or.inl rfl

/-- With an adapter that is not ready, such as the shim of the script, no
promise of `ensureBinding` is ever made and no subscription ever exists,
whatever happens to the channel. -/
theorem not_ready_never_subscribes (A : Adapter) (hA : A.isReady = false)
    (steps : List ChannelStep) :
    ∀ ch, ch.pending = [] → ch.subscriptions = [] →
      (runSteps A steps ch).pending = [] ∧ (runSteps A steps ch).subscriptions = [] := by
  induction steps with
  | nil => intro ch hp hs; exact ⟨hp, hs⟩
  | cons s rest ih =>
    intro ch hp hs
    have hd : (detachBindingHandlers ch).subscriptions = [] := by
      have h := (detach_subscriptions_sublist ch).1
      rw [hs] at h
      exact List.sublist_nil.mp h
    apply ih
    · cases s with
      | attach =>
        rcases attach_pending A ch with h | ⟨b, cb, _, hr, _⟩
        · exact h.trans hp
        · rw [hA] at hr; cases hr
      | detach => exact hp
      | settle k =>
        show (settlePending A k ch).pending = []
        simp [settlePending, hp]
      | setBinding b => exact hp
      | fire e outcome => exact hp
      | notify id outcome => exact (notify_subscriptions id outcome ch).2.trans hp
      | delete => exact hp
    · cases s with
      | attach => exact (attach_subscriptions A ch).trans hd
      | detach => exact hd
      | settle k =>
        show (settlePending A k ch).subscriptions = []
        simp [settlePending, hp, hs]
      | setBinding b => exact hs
      | fire e outcome => exact hs
      | notify id outcome => exact (notify_subscriptions id outcome ch).1.trans hs
      | delete => exact hd

/-- With the shim of the script as adapter no subscription is ever made. -/
theorem shim_never_subscribes (steps : List ChannelStep) (w0 : Field) :
    (runSteps bindingShim steps (newChannel w0)).subscriptions = [] :=
  (not_ready_never_subscribes bindingShim rfl steps (newChannel w0) rfl rfl).2

/-- Deleting a field whose channel is at rest leaves no promise in flight and
no subscription, and no later notification changes anything. -/
theorem delete_quiet (ch : Channel) (h : Quiet ch) :
    (deleteChannel ch).pending = [] ∧ (deleteChannel ch).subscriptions = [] ∧
    ∀ A k id outcome,
      notify id outcome (settlePending A k (deleteChannel ch)) = deleteChannel ch := by
  obtain ⟨hp, hs⟩ := h
  have h1 : (deleteChannel ch).pending = [] := hp
  have h2 : (deleteChannel ch).subscriptions = [] := by
    show (detachBindingHandlers ch).subscriptions = []
    rcases hs with hs | ⟨id, cb, hid, hsid, hs⟩
    · have h := (detach_subscriptions_sublist ch).1
      rw [hs] at h
      exact List.sublist_nil.mp h
    · unfold detachBindingHandlers
      simp [hsid, hs, hid, adapterUnsubscribe]
  refine ⟨h1, h2, ?_⟩
  intro A k id outcome
  have h3 : settlePending A k (deleteChannel ch) = deleteChannel ch := by
    simp [settlePending, h1]
  rw [h3]
  unfold notify
  rw [h2]
  rfl

/-- Invariant of a channel whose binding address stays `a`: every promise in
flight is for `a`, every subscription has the id that `ensureBinding(a)`
resolves to, and there is at most one subscription. -/
theorem fixed_address_step (A : Adapter) (a : String) (s : ChannelStep) (ch : Channel)
    (hs : ∀ b, s = .setBinding b → b.address = a)
    (hw : ∀ b, ch.wrapper.meta.binding = some b → b.address = a)
    (hp : ∀ p ∈ ch.pending, p.2 = a)
    (hsub : ∀ x ∈ ch.subscriptions, A.ensureBinding a = .ok x.1)
    (hlen : ch.subscriptions.length ≤ 1) :
    (∀ b, (s.run A ch).wrapper.meta.binding = some b → b.address = a) ∧
    (∀ p ∈ (s.run A ch).pending, p.2 = a) ∧
    (∀ x ∈ (s.run A ch).subscriptions, A.ensureBinding a = .ok x.1) ∧
    (s.run A ch).subscriptions.length ≤ 1 := by
  have hdsub := (detach_subscriptions_sublist ch).1
  have hd1 : ∀ x ∈ (detachBindingHandlers ch).subscriptions, A.ensureBinding a = .ok x.1 :=
    fun x hx => hsub x (hdsub.subset hx)
  have hd2 : (detachBindingHandlers ch).subscriptions.length ≤ 1 :=
    le_trans hdsub.length_le hlen
  cases s with
  | attach =>
    refine ⟨?_, ?_, ?_, ?_⟩
    · intro b hb
      exact hw b (by rw [← attach_wrapper A ch]; exact hb)
    · intro p hpm
      rcases attach_pending A ch with h | ⟨b, cb, hb, _, h⟩
      · exact hp p (by rw [← h]; exact hpm)
      · have hpm1 : p ∈ ch.pending ++ [(cb, b.address)] := by rw [← h]; exact hpm
        rw [List.mem_append, List.mem_singleton] at hpm1
        rcases hpm1 with h1 | h1
        · exact hp p h1
        · rw [h1]; exact hw b hb
    · intro x hx
      exact hd1 x (by rw [← attach_subscriptions A ch]; exact hx)
    · show (attachBindingHandlers A ch).subscriptions.length ≤ 1
      rw [attach_subscriptions A ch]; exact hd2
  | detach => exact ⟨hw, hp, hd1, hd2⟩
  | delete => exact ⟨hw, hp, hd1, hd2⟩
  | setBinding b =>
    refine ⟨?_, hp, hsub, hlen⟩
    intro b1 hb1
    have : b = b1 := by
      have h : some b = some b1 := hb1
      exact Option.some.inj h
    rw [← this]
    exact hs b rfl
  | fire e outcome => exact ⟨hw, hp, hsub, hlen⟩
  | notify id outcome =>
    refine ⟨?_, ?_, ?_, ?_⟩
    · intro b hb
      exact hw b (by rw [← notify_meta id outcome ch]; exact hb)
    · intro p hpm
      exact hp p (by rw [← (notify_subscriptions id outcome ch).2]; exact hpm)
    · intro x hx
      exact hsub x (by rw [← (notify_subscriptions id outcome ch).1]; exact hx)
    · show (notify id outcome ch).subscriptions.length ≤ 1
      rw [(notify_subscriptions id outcome ch).1]; exact hlen
  | settle k =>
    show (∀ b, (settlePending A k ch).wrapper.meta.binding = some b → b.address = a) ∧
      (∀ p ∈ (settlePending A k ch).pending, p.2 = a) ∧
      (∀ x ∈ (settlePending A k ch).subscriptions, A.ensureBinding a = .ok x.1) ∧
      (settlePending A k ch).subscriptions.length ≤ 1
    unfold settlePending
    cases hk : ch.pending[k]? with
    | none => exact ⟨hw, hp, hsub, hlen⟩
    | some p =>
      obtain ⟨cb, address⟩ := p
      have haddr : address = a := hp (cb, address) (List.getElem?_mem hk)
      have hpe : ∀ p ∈ ch.pending.eraseIdx k, p.2 = a :=
        fun p hpm => hp p ((List.eraseIdx_sublist ch.pending k).subset hpm)
      simp only
      cases he : A.ensureBinding address with
      | error e => exact ⟨hw, hpe, hsub, hlen⟩
      | ok id =>
        have hfil : ch.subscriptions.filter (fun s => decide (s.1 ≠ id)) = [] := by
          rw [List.filter_eq_nil_iff]
          intro x hx
          have h1 := hsub x hx
          rw [← haddr, he] at h1
          have h2 : id = x.1 := by injection h1
          simp [h2]
        refine ⟨hw, hpe, ?_, ?_⟩
        · intro x hx
          have hx1 : x ∈ adapterSubscribe ch.subscriptions id cb := hx
          unfold adapterSubscribe at hx1
          rw [hfil, List.nil_append, List.mem_singleton] at hx1
          rw [hx1, ← haddr]
          exact he
        · show (adapterSubscribe ch.subscriptions id cb).length ≤ 1
          unfold adapterSubscribe
          rw [hfil]
          exact le_refl 1

/-- While the binding address of a field stays the same, its channel never
holds more than one live subscription, whatever the order of attach calls and
of the settlement of their promises. -/
theorem fixed_address_one_subscription (A : Adapter) (a : String) (steps : List ChannelStep) :
    ∀ ch, (∀ b, ChannelStep.setBinding b ∈ steps → b.address = a) →
      (∀ b, ch.wrapper.meta.binding = some b → b.address = a) →
      (∀ p ∈ ch.pending, p.2 = a) →
      (∀ x ∈ ch.subscriptions, A.ensureBinding a = .ok x.1) →
      ch.subscriptions.length ≤ 1 →
      (runSteps A steps ch).subscriptions.length ≤ 1 := by
  induction steps with
  | nil => intro ch _ _ _ _ hlen; exact hlen
  | cons s rest ih =>
    intro ch hs hw hp hsub hlen
    obtain ⟨h1, h2, h3, h4⟩ := fixed_address_step A a s ch
      (fun b hb => hs b (by rw [hb]; exact List.mem_cons_self _ _)) hw hp hsub hlen
    exact ih _ (fun b hb => hs b (List.mem_cons_of_mem _ hb)) h1 h2 h3 h4

end FormDesigner
